import Mathlib

/-!
# StacksGate: settlement and notification engine

A shallow embedding of the payment-intent model, the confirmation monitor and the
webhook dispatcher of the StacksGate backend (`backend/dist/src`), with the properties
of the specification stated and proved over the embedding.

Conventions of the embedding:

* JavaScript strings are `String`; `undefined` is `none`.
* JavaScript numbers that hold integers (timestamps, attempt numbers, HTTP statuses,
  delays) are `Int`; this is exact below `2 ^ 53`.
* `Date.now()` is a parameter `dateNow` (milliseconds).
* Node's `crypto` HMAC is a parameter (`Crypto`), since it is a library outside the
  repository; only the shape of a hex digest is assumed.
* Asynchronous calls are run to completion in program order; a `setTimeout` or
  `setImmediate` callback is recorded in the state as a pending task.
-/

set_option autoImplicit false

namespace StacksGate

/-! ## JavaScript primitives -/

/-- Model of `String.prototype.split` with a one-character separator, on the character list. -/
def splitChars (sep : Char) : List Char → List (List Char)
  | [] => [[]]
  | c :: cs =>
    if c = sep then [] :: splitChars sep cs
    else
      match splitChars sep cs with
      | [] => [[c]]
      | x :: xs => (c :: x) :: xs

/-- Model of `s.split(sep)` for a one-character separator. -/
def jsSplit (s : String) (sep : Char) : List String :=
  (splitChars sep s.data).map String.mk

/-- A JavaScript number as far as the code distinguishes it: `NaN` or an integer. -/
inductive Num where
  | nan
  | int (n : Int)
deriving DecidableEq, Repr

/-- The characters `parseInt` skips at the start of its input (ECMAScript `WhiteSpace`
and `LineTerminator`). -/
def isStrWhiteSpace (c : Char) : Bool :=
  c.toNat ∈ [0x9, 0xA, 0xB, 0xC, 0xD, 0x20, 0xA0, 0x1680, 0x2028, 0x2029, 0x202F, 0x205F,
    0x3000, 0xFEFF] || (0x2000 ≤ c.toNat && c.toNat ≤ 0x200A)

/-- The value of a character as a digit (`0-9`, `a-z`, `A-Z`), if it is below the radix. -/
def digitValue (radix : Nat) (c : Char) : Option Nat :=
  let n := c.toNat
  let v : Option Nat :=
    if 48 ≤ n ∧ n ≤ 57 then some (n - 48)
    else if 97 ≤ n ∧ n ≤ 122 then some (n - 87)
    else if 65 ≤ n ∧ n ≤ 90 then some (n - 55)
    else none
  match v with
  | some d => if d < radix then some d else none
  | none => none

/-- The longest prefix of digits of the radix, as digit values. -/
def takeDigits (radix : Nat) : List Char → List Nat
  | [] => []
  | c :: cs =>
    match digitValue radix c with
    | some d => d :: takeDigits radix cs
    | none => []

/-- The number written by a list of digits, most significant first. -/
def digitsValue (radix : Nat) (ds : List Nat) : Nat :=
  ds.foldl (fun acc d => acc * radix + d) 0

/-- Model of `parseInt(string)` with no radix argument, on the characters of the string:
leading white space is skipped, a sign is read, a `0x`/`0X` prefix selects radix 16,
and the longest prefix of digits is the value; with no digit the result is `NaN`. -/
def parseIntChars (cs : List Char) : Num :=
  let s := cs.dropWhile isStrWhiteSpace
  let neg : Bool := s.head? = some '-'
  let s := if s.head? = some '-' ∨ s.head? = some '+' then s.tail else s
  let hex : Bool := s.take 2 = ['0', 'x'] ∨ s.take 2 = ['0', 'X']
  let s := if hex then s.drop 2 else s
  let radix := if hex then 16 else 10
  let z := takeDigits radix s
  if z = [] then Num.nan
  else
    let m : Int := (digitsValue radix z : Nat)
    Num.int (if neg then -m else m)

/-- Model of `parseInt(value)`; an `undefined` argument is first converted to the string
`"undefined"`. -/
def parseInt (value : Option String) : Num :=
  match value with
  | some s => parseIntChars s.data
  | none => parseIntChars "undefined".data

/-- The decimal digit character of a value below ten. -/
def digitChar (d : Nat) : Char := Char.ofNat (48 + d)

/-- The digits of `n` put in front of `acc`, least significant digit last; `fuel` bounds
the number of digits. -/
def natToCharsAux : Nat → Nat → List Char → List Char
  | 0, _, acc => acc
  | fuel + 1, n, acc =>
    if n / 10 = 0 then digitChar (n % 10) :: acc
    else natToCharsAux fuel (n / 10) (digitChar (n % 10) :: acc)

/-- The decimal digits of a natural number, most significant first (`"0"` for zero). -/
def natToChars (n : Nat) : List Char := natToCharsAux (n + 1) n []

/-- The characters of the decimal form of an integer. -/
def intToChars (n : Int) : List Char :=
  if n < 0 then '-' :: natToChars n.natAbs else natToChars n.natAbs

/-- Model of `Number.prototype.toString` / template-literal conversion of an integer. -/
def intToString (n : Int) : String := String.mk (intToChars n)

/-- Model of `Math.floor(Date.now() / 1000)`. -/
def unixSeconds (dateNow : Int) : Int := Int.fdiv dateNow 1000

/-- The UTF-8 bytes of a character. -/
def utf8Bytes (c : Char) : List Nat :=
  let n := c.toNat
  if n < 0x80 then [n]
  else if n < 0x800 then [0xC0 + n / 0x40, 0x80 + n % 0x40]
  else if n < 0x10000 then [0xE0 + n / 0x1000, 0x80 + n / 0x40 % 0x40, 0x80 + n % 0x40]
  else [0xF0 + n / 0x40000, 0x80 + n / 0x1000 % 0x40, 0x80 + n / 0x40 % 0x40, 0x80 + n % 0x40]

/-- Model of `Buffer.from(string)`: the UTF-8 encoding of the string. -/
def bufferFrom (s : String) : List Nat := s.data.flatMap utf8Bytes

/-- Model of `crypto.timingSafeEqual(a, b)`: throws a `RangeError` when the byte lengths differ,
otherwise tells whether the buffers are equal. -/
def timingSafeEqual (a b : List Nat) : Except String Bool :=
  if a.length ≠ b.length then
    Except.error "Input buffers must have the same byte length"
  else Except.ok (decide (a = b))

/-- The lowercase hexadecimal digits. -/
def hexChars : List Char :=
  ['0', '1', '2', '3', '4', '5', '6', '7', '8', '9', 'a', 'b', 'c', 'd', 'e', 'f']

/-- Node's `crypto.createHmac('sha256', key).update(message).digest('hex')`, taken as a
parameter: a function of key and message whose result is 64 lowercase hex digits. -/
structure Crypto where
  /-- The hex digest of the HMAC-SHA256 of `message` under `key`. -/
  hmacSha256Hex : (key : String) → (message : String) → String
  /-- A SHA-256 digest is 32 bytes, written as 64 characters. -/
  hex_length : ∀ key message, (hmacSha256Hex key message).data.length = 64
  /-- Every character of the digest is a lowercase hex digit. -/
  hex_chars : ∀ key message, ∀ c ∈ (hmacSha256Hex key message).data, c ∈ hexChars

/-! ## WebhookService: signatures -/

namespace WebhookService

/-- Model of `WebhookService.generateSignature(body, secret, timestamp)`. -/
def generateSignature (H : Crypto) (body secret : String) (timestamp : Int) : String :=
  let payload := intToString timestamp ++ "." ++ body
  "t=" ++ intToString timestamp ++ ",v1=" ++ H.hmacSha256Hex secret payload

/-- The variables `timestamp` and `hash` of `verifySignature` (`none` is `undefined`). -/
structure HeaderFields where
  timestamp : Option Num
  hash : Option String
deriving DecidableEq, Repr

/-- One iteration of the loop over the elements of the header. -/
def parseElement (acc : HeaderFields) (element : String) : HeaderFields :=
  let parts := jsSplit element '='
  let key := parts.head?
  let value := parts.tail.head?
  if key = some "t" then { acc with timestamp := some (parseInt value) }
  else if key = some "v1" then { acc with hash := value }
  else acc

/-- The loop `for (const element of elements)` of `verifySignature`. -/
def parseHeader (signature : String) : HeaderFields :=
  (jsSplit signature ',').foldl parseElement { timestamp := none, hash := none }

/-- The body of the `try` block of `verifySignature`; an error is a thrown exception. -/
def verifySignatureTry (H : Crypto) (dateNow : Int) (body signature secret : String)
    (tolerance : Int) : Except String Bool :=
  let fields := parseHeader signature
  match fields.timestamp, fields.hash with
  | some (Num.int timestamp), some hash =>
    if timestamp = 0 ∨ hash = "" then Except.ok false
    else
      let now := unixSeconds dateNow
      if |now - timestamp| > tolerance then Except.ok false
      else
        let payload := intToString timestamp ++ "." ++ body
        let expectedHash := H.hmacSha256Hex secret payload
        timingSafeEqual (bufferFrom hash) (bufferFrom expectedHash)
  | _, _ => Except.ok false

/-- Model of `WebhookService.verifySignature(body, signature, secret, tolerance = 300)`: the
`catch` block turns every exception into `false`. -/
def verifySignature (H : Crypto) (dateNow : Int) (body signature secret : String)
    (tolerance : Int := 300) : Bool :=
  match verifySignatureTry H dateNow body signature secret tolerance with
  | Except.ok b => b
  | Except.error _ => false

end WebhookService

end StacksGate

namespace StacksGate

/-- A decimal digit character. -/
def IsDigit (c : Char) : Prop := 48 ≤ c.toNat ∧ c.toNat ≤ 57

instance (c : Char) : Decidable (IsDigit c) := by
  unfold IsDigit
  infer_instance

/-- A stand-in digest used to evaluate the signature functions on concrete inputs: 64
copies of one hex digit chosen from the lengths of key and message. -/
def sampleCrypto : Crypto where
  hmacSha256Hex key message :=
    String.mk (List.replicate 64 (hexChars.getD ((key.length + 3 * message.length) % 16) '0'))
  hex_length := by intro key message; simp
  hex_chars := by
    intro key message c hc
    simp only [List.mem_replicate] at hc
    rw [hc.2]
    have h : (key.length + 3 * message.length) % 16 < 16 := Nat.mod_lt _ (by decide)
    generalize (key.length + 3 * message.length) % 16 = i at h
    interval_cases i <;> decide

namespace WebhookService

/-- The signature as the specification words it: `t={timestamp},v1={hexHmac}` with the
HMAC-SHA256 taken over the string `{timestamp}.{body}`. -/
def signPayloadSpec (H : Crypto) (body secret : String) (timestamp : Int) : String :=
  String.join ["t=", intToString timestamp, ",v1=",
    H.hmacSha256Hex secret (String.join [intToString timestamp, ".", body])]

/-- The header has no pair whose key is `key`. -/
def NoPair (signature key : String) : Prop :=
  ∀ element ∈ jsSplit signature ',', (jsSplit element '=').head? ≠ some key

instance (signature key : String) : Decidable (NoPair signature key) := by
  unfold NoPair
  infer_instance

end WebhookService
end StacksGate

namespace StacksGate

/-! ## Values, rows and the state of the system -/

/-- A JavaScript value as the models and the database hold it. -/
inductive Value where
  | undefined
  | null
  | bool (b : Bool)
  | num (n : Int)
  | str (s : String)
  | date (ms : Int)
  | obj (fields : List (String × String))
  | quotient (numerator denominator : Int)
deriving DecidableEq, Repr

/-- A row of a table (or a plain object): its columns by name, the first entry of a name
being the current one. -/
structure Row where
  cols : List (String × Value)
deriving DecidableEq, Repr

/-- The value of the first entry of `key`, `null` when there is none. -/
def lookupCol : List (String × Value) → String → Value
  | [], _ => Value.null
  | (k, v) :: rest, key => if k = key then v else lookupCol rest key

/-- Model of `row[key]`. -/
def Row.get (r : Row) (key : String) : Value := lookupCol r.cols key

/-- The row with column `key` set to `v`. -/
def Row.set (r : Row) (key : String) (v : Value) : Row := { cols := (key, v) :: r.cols }

/-- An entry of `payment_events`. -/
structure PaymentEvent where
  payment_intent_id : String
  event_type : String
  data : Row
deriving DecidableEq, Repr

/-- Modelled from the spec: a row of the table `sbtc_transactions` (the schema
`sql/init.sql` is not among the sources). The columns are the ones the statements of the
service name, the column list of the `INSERT` of `createSBTCTransaction` with `id` and
`created_at`, and the confirmed timestamp of the data model of the specification. A row
object that `SELECT *` or `RETURNING *` gives has these columns, under these names, as
its properties. -/
structure SBTCTransaction where
  id : String
  payment_intent_id : String
  bitcoin_txid : Option String
  stacks_txid : Option String
  deposit_address : String
  amount_sats : Int
  status : String
  confirmation_count : Int
  block_height : Option Int
  confirmed_at : Option Int
  created_at : Int
deriving DecidableEq, Repr

/-- The result of a chain query (`TransactionStatus`). -/
structure TransactionStatus where
  txid : String
  status : String
  blockHeight : Option Int
  confirmations : Option Int
  error : Option String
deriving DecidableEq, Repr

/-- A Redis entry written by `cacheSet(key, value, ttlSeconds)`. -/
structure CacheEntry where
  key : String
  value : TransactionStatus
  expiresAt : Int
deriving DecidableEq, Repr

/-- The event object sent to a merchant. -/
structure WebhookPayload where
  id : String
  type : String
  created : Int
  data : Row
deriving DecidableEq, Repr

/-- A row of `webhook_logs`. -/
structure WebhookLogEntry where
  merchant_id : String
  payment_intent_id : Option String
  event_type : String
  webhook_url : String
  request_payload : String
  response_status : Int
  response_body : String
  delivered : Bool
  attempt_number : Int
deriving DecidableEq, Repr

/-- The arguments of a call of `WebhookService.sendWebhook`. -/
structure SendArgs where
  merchantId : String
  webhookUrl : String
  webhookSecret : Option String
  payload : WebhookPayload
  paymentIntentId : Option String
  attemptNumber : Int
deriving DecidableEq, Repr

/-- A pending `setTimeout(() => this.sendWebhook(...), delay)`; `delay` is `none` when
the expression for it evaluated to `undefined`. -/
structure Timer where
  setAt : Int
  delay : Option Int
  call : SendArgs
deriving DecidableEq, Repr

/-- A pending `setImmediate` callback of `PaymentIntent.updateStatus`: the webhook
notification for the updated intent. -/
structure NotifyTask where
  paymentIntent : Row
deriving DecidableEq, Repr

/-- The state the code works on: the clock, the tables, the cache and the pending
callbacks. -/
structure World where
  dateNow : Int
  payment_intents : List Row
  payment_events : List PaymentEvent
  sbtc_transactions : List SBTCTransaction
  webhook_logs : List WebhookLogEntry
  merchants : List Row
  cache : List CacheEntry
  timers : List Timer
  immediates : List NotifyTask
deriving DecidableEq, Repr

/-- An HTTP request made with `fetch`. -/
structure Request where
  url : String
  method : String
  headers : List (String × String)
  body : String
deriving DecidableEq, Repr

/-- The outcome of `fetch(...)` followed by `response.text()`: a response with its status
and body, or an exception (network error, timeout). -/
inductive FetchResult where
  | response (status : Int) (text : String)
  | failure (message : String)
deriving DecidableEq, Repr

/-- The status of the response, if there is one. -/
def FetchResult.status? : FetchResult → Option Int
  | FetchResult.response status _ => some status
  | FetchResult.failure _ => none

/-- What the webhook dispatcher takes from outside the repository: the HMAC, the
serializer `JSON.stringify`, the network, and the text that
`Math.random().toString(36).substring(7)` yields for an event identifier. -/
structure Env where
  crypto : Crypto
  stringify : WebhookPayload → String
  fetch : Request → FetchResult
  random : String

/-- Model of `xs[i]` for a JavaScript array: `undefined` outside the bounds. -/
def jsIndex {α : Type} (xs : List α) (i : Int) : Option α :=
  if i < 0 then none else xs.get? i.toNat

namespace WebhookService

/-- Model of `WebhookService.MAX_RETRY_ATTEMPTS`. -/
def MAX_RETRY_ATTEMPTS : Int := 3

/-- Model of `WebhookService.RETRY_DELAYS`. -/
def RETRY_DELAYS : List Int := [1000, 5000, 15000]

/-- Model of `WebhookService.logWebhookAttempt(logData)`: one row inserted into `webhook_logs`. -/
def logWebhookAttempt (w : World) (logData : WebhookLogEntry) : World :=
  { w with webhook_logs := w.webhook_logs ++ [logData] }

/-- Model of `setTimeout(() => this.sendWebhook(..., attemptNumber + 1), delay)`. -/
def scheduleRetry (w : World) (delay : Option Int) (a : SendArgs) : World :=
  { w with timers := w.timers ++
      [{ setAt := w.dateNow, delay := delay,
         call := { a with attemptNumber := a.attemptNumber + 1 } }] }

/-- The request `sendWebhook` makes. -/
def webhookRequest (env : Env) (w : World) (a : SendArgs) : Request :=
  let timestamp := unixSeconds w.dateNow
  let bodyString := env.stringify a.payload
  let signature : Option String :=
    match a.webhookSecret with
    | some secret =>
      if secret ≠ "" then some (generateSignature env.crypto bodyString secret timestamp)
      else none
    | none => none
  let headers := [("Content-Type", "application/json"),
    ("User-Agent", "StacksGate-Webhooks/1.0"),
    ("X-StacksGate-Event", a.payload.type),
    ("X-StacksGate-Timestamp", intToString timestamp)]
  let headers :=
    match signature with
    | some s => if s ≠ "" then headers ++ [("X-StacksGate-Signature", s)] else headers
    | none => headers
  { url := a.webhookUrl, method := "POST", headers := headers, body := bodyString }

/-- Model of `WebhookService.sendWebhook(merchantId, webhookUrl, webhookSecret, payload,
paymentIntentId, attemptNumber)`: the returned boolean and the state after the call. -/
def sendWebhook (env : Env) (w : World) (a : SendArgs) : Bool × World :=
  match env.fetch (webhookRequest env w a) with
  | FetchResult.response status responseBody =>
    let isSuccess : Bool := 200 ≤ status ∧ status < 300
    let w := logWebhookAttempt w
      { merchant_id := a.merchantId, payment_intent_id := a.paymentIntentId,
        event_type := a.payload.type, webhook_url := a.webhookUrl,
        request_payload := env.stringify a.payload, response_status := status,
        response_body := responseBody, delivered := isSuccess,
        attempt_number := a.attemptNumber }
    if isSuccess then (true, w)
    else if a.attemptNumber < MAX_RETRY_ATTEMPTS then
      let delay := jsIndex RETRY_DELAYS (a.attemptNumber - 1)
      (false, scheduleRetry w delay a)
    else (false, w)
  | FetchResult.failure message =>
    let w := logWebhookAttempt w
      { merchant_id := a.merchantId, payment_intent_id := a.paymentIntentId,
        event_type := a.payload.type, webhook_url := a.webhookUrl,
        request_payload := env.stringify a.payload, response_status := 0,
        response_body := message, delivered := false,
        attempt_number := a.attemptNumber }
    if a.attemptNumber < MAX_RETRY_ATTEMPTS then
      let delay := jsIndex RETRY_DELAYS (a.attemptNumber - 1)
      (false, scheduleRetry w delay a)
    else (false, w)

/-- The log row `sendWebhook` writes for a response. -/
def responseEntry (env : Env) (a : SendArgs) (status : Int) (text : String) :
    WebhookLogEntry :=
  { merchant_id := a.merchantId, payment_intent_id := a.paymentIntentId,
    event_type := a.payload.type, webhook_url := a.webhookUrl,
    request_payload := env.stringify a.payload, response_status := status,
    response_body := text, delivered := decide (200 ≤ status ∧ status < 300),
    attempt_number := a.attemptNumber }

/-- The log row `sendWebhook` writes when the request raised an exception. -/
def failureEntry (env : Env) (a : SendArgs) (message : String) : WebhookLogEntry :=
  { merchant_id := a.merchantId, payment_intent_id := a.paymentIntentId,
    event_type := a.payload.type, webhook_url := a.webhookUrl,
    request_payload := env.stringify a.payload, response_status := 0,
    response_body := message, delivered := false,
    attempt_number := a.attemptNumber }

/-- The time at which a timer fires: a missing delay, or one below 1 ms, counts as 1 ms. -/
def timerDue (t : Timer) : Int := t.setAt + max 1 (t.delay.getD 1)

/-- The timer that fires first: the earliest due, the first registered among equals. -/
def earliestTimer : List Timer → Option Timer
  | [] => none
  | t :: ts =>
    match earliestTimer ts with
    | none => some t
    | some u => if timerDue u < timerDue t then some u else some t

/-- One turn of the timer queue: the next timer fires and its `sendWebhook` call runs;
`none` when no timer is pending. -/
def fireNextTimer (env : Env) (w : World) : Option World :=
  match earliestTimer w.timers with
  | none => none
  | some t =>
    let w := { w with timers := w.timers.erase t, dateNow := max w.dateNow (timerDue t) }
    some (sendWebhook env w t.call).2

/-- The timer queue run for at most `fuel` turns. -/
def runTimers (env : Env) : Nat → World → World
  | 0, w => w
  | fuel + 1, w =>
    match fireNextTimer env w with
    | none => w
    | some w => runTimers env fuel w

end WebhookService
end StacksGate

namespace StacksGate

/-! ## Concrete data for evaluating the webhook dispatcher -/

/-- A state with empty tables and no pending callback, the clock at 1700000000 s. -/
def sampleWorld : World :=
  { dateNow := 1700000000000, payment_intents := [], payment_events := [],
    sbtc_transactions := [], webhook_logs := [], merchants := [], cache := [], timers := [],
    immediates := [] }

/-- An environment whose network gives the same outcome to every request. -/
def sampleEnv (outcome : FetchResult) : Env :=
  { crypto := sampleCrypto, stringify := fun p => "event:" ++ p.id,
    fetch := fun _ => outcome, random := "k3x9q" }

/-- A first `sendWebhook` call for a `payment_intent.succeeded` event. -/
def sampleSend (attemptNumber : Int) : SendArgs :=
  { merchantId := "m_1", webhookUrl := "https://merchant.example/hook",
    webhookSecret := some "whsec",
    payload := { id := "evt_1", type := "payment_intent.succeeded", created := 1700000000,
                 data := { cols := [("id", Value.str "pi_1")] } },
    paymentIntentId := some "pi_1", attemptNumber := attemptNumber }

end StacksGate

namespace StacksGate

/-! ## PaymentIntent -/

/-- Model of `!value` for the values a row can hold. -/
def Value.falsy : Value → Bool
  | Value.undefined => true
  | Value.null => true
  | Value.bool b => !b
  | Value.num n => n = 0
  | Value.str s => s = ""
  | Value.date _ => false
  | Value.obj _ => false
  | Value.quotient n _ => n = 0

/-- A query parameter as the database driver binds it: `undefined` is sent as `NULL`. -/
def toSql : Value → Value
  | Value.undefined => Value.null
  | v => v

/-- The row after the assignments `SET key = value, ...`, taken in order. -/
def applyAssignments (r : Row) (assignments : List (String × Value)) : Row :=
  assignments.foldl (fun acc kv => acc.set kv.1 kv.2) r

/-- An exception thrown by the model; every one is a plain `Error` in the source. -/
inductive Failure where
  | notFound (message : String)
  | sqlError (message : String)
deriving DecidableEq, Repr

namespace PaymentIntent

/-- Modelled from the spec: the columns of the table `payment_intents`. The schema file
`sql/init.sql` is not among the sources; these are the fields of the data model of the
specification, under the names the source reads and writes. -/
def columns : List String :=
  ["id", "merchant_id", "amount_sats", "amount_usd", "currency", "description", "metadata",
   "stacks_address", "bitcoin_address", "sbtc_tx_id", "confirmation_count", "status",
   "expires_at", "created_at", "updated_at"]

/-- The terminal statuses of the specification. -/
def isTerminal (status : Value) : Bool :=
  status = Value.str "succeeded" ∨ status = Value.str "failed" ∨ status = Value.str "canceled"

/-- Model of `SELECT * FROM payment_intents WHERE id = $1`, first row. -/
def findRow (rows : List Row) (id : String) : Option Row :=
  rows.find? (fun r => r.get "id" = Value.str id)

/-- Model of `{...paymentIntent, metadata: paymentIntent.metadata || {}}`. -/
def withMetadata (r : Row) : Row :=
  if (r.get "metadata").falsy then r.set "metadata" (Value.obj []) else r

/-- Model of `PaymentIntent.findById(id)`; `none` is `null`. -/
def findById (w : World) (id : String) : Option Row :=
  (findRow w.payment_intents id).map withMetadata

/-- The assignments of the `UPDATE` statement of `updateStatus`: status and `updated_at`,
then every entry of `additionalData` whose key is not `id`, `created_at` or `updated_at`. -/
def updateAssignments (w : World) (status : String)
    (additionalData : Option (List (String × Value))) : List (String × Value) :=
  [("status", Value.str status), ("updated_at", Value.date w.dateNow)] ++
    (additionalData.getD []).filterMap (fun kv =>
      if kv.1 ≠ "id" ∧ kv.1 ≠ "created_at" ∧ kv.1 ≠ "updated_at" then some (kv.1, toSql kv.2)
      else none)

/-- The database accepts an `UPDATE` whose assigned columns exist and are assigned once. -/
def updateAccepted (assignments : List (String × Value)) : Bool :=
  (assignments.map Prod.fst).all (fun k => k ∈ columns) ∧ (assignments.map Prod.fst).Nodup

/-- Model of `PaymentIntent.logEvent(paymentIntentId, eventType, data)`. -/
def logEvent (w : World) (paymentIntentId eventType : String) (data : Row) : World :=
  { w with payment_events := w.payment_events ++
      [{ payment_intent_id := paymentIntentId, event_type := eventType, data := data }] }

/-- The statements of `updateStatus` after the `SELECT` found `currentPaymentIntent`: the
`UPDATE ... RETURNING *`, the event, and the webhook task when the status changed. -/
def commitUpdate (w : World) (id : String) (status : String)
    (additionalData : Option (List (String × Value))) (currentPaymentIntent : Row) :
    Row × World :=
  let previousStatus := currentPaymentIntent.get "status"
  let assignments := updateAssignments w status additionalData
  let w1 := { w with payment_intents := w.payment_intents.map (fun r =>
    if r.get "id" = Value.str id then applyAssignments r assignments else r) }
  let paymentIntent := applyAssignments currentPaymentIntent assignments
  let data := applyAssignments
    { cols := [("previous_status", previousStatus), ("new_status", Value.str status)] }
    (additionalData.getD [])
  let w2 := logEvent w1 id ("payment_intent." ++ status) data
  let finalPaymentIntent := withMetadata paymentIntent
  let w3 :=
    if previousStatus ≠ Value.str status then
      { w2 with immediates := w2.immediates ++ [{ paymentIntent := finalPaymentIntent }] }
    else w2
  (finalPaymentIntent, w3)

/-- Model of `PaymentIntent.updateStatus(id, status, additionalData)`, run in one transaction: the
returned intent and the state after the commit, or the exception thrown, in which case
the transaction is rolled back and the state is the one before the call. -/
def updateStatus (w : World) (id : String) (status : String)
    (additionalData : Option (List (String × Value))) : Except Failure (Row × World) :=
  match findRow w.payment_intents id with
  | none => Except.error (Failure.notFound "Payment intent not found")
  | some currentPaymentIntent =>
    if ¬ updateAccepted (updateAssignments w status additionalData) then
      Except.error (Failure.sqlError "UPDATE payment_intents rejected")
    else Except.ok (commitUpdate w id status additionalData currentPaymentIntent)

/-- Model of `PaymentIntent.cancel(id, reason)`; a reason left out is `none`, and is then dropped
from the serialized metadata. -/
def cancel (w : World) (id : String) (reason : Option String) :
    Except Failure (Row × World) :=
  let metadata : Value :=
    match reason with
    | some r => Value.obj [("cancel_reason", r)]
    | none => Value.obj []
  updateStatus w id "canceled" (some [("metadata", metadata)])

/-- The status stored for the intent `id`, `none` when there is no such intent. -/
def storedStatus (w : World) (id : String) : Option Value :=
  (findRow w.payment_intents id).map (fun r => r.get "status")

/-- A stored intent in status `status`. -/
def sampleIntent (id status : String) : Row :=
  { cols := [("id", Value.str id), ("merchant_id", Value.str "m_1"),
      ("amount_sats", Value.num 150000), ("amount_usd", Value.num 97),
      ("currency", Value.str "btc"), ("description", Value.null),
      ("metadata", Value.obj [("order", "42")]), ("stacks_address", Value.null),
      ("bitcoin_address", Value.null), ("sbtc_tx_id", Value.null),
      ("confirmation_count", Value.num 0), ("status", Value.str status),
      ("expires_at", Value.date 1700086400000), ("created_at", Value.date 1700000000000),
      ("updated_at", Value.date 1700000000000)] }

/-- A state holding one intent, in status `status`. -/
def sampleStore (id status : String) : World :=
  { sampleWorld with payment_intents := [sampleIntent id status] }

end PaymentIntent
end StacksGate

namespace StacksGate

/-! ## StacksService: chain queries -/

/-- The JSON body of the explorer's answer to `GET /extended/v1/tx/{txid}`, as far as the
code reads it. -/
structure TxData where
  tx_status : String
  canonical : Bool
  block_height : Option Int
  confirmations : Option Int
  tx_result_repr : Option String
deriving DecidableEq, Repr

/-- The outcome of a `fetch` to the block explorer followed by `response.json()`: an
exception, a response that is not OK, or the parsed body of an OK response. -/
inductive ExplorerReply (α : Type) where
  | throws (message : String)
  | notOk (status : Int) (statusText : String)
  | ok (data : α)
deriving DecidableEq, Repr

/-- The block explorer: the answer for a transaction, and for its events (for an OK
answer, whether the events hold an sBTC contract log). -/
structure Chain where
  tx : String → ExplorerReply TxData
  events : String → ExplorerReply Bool

/-- Model of `cacheGet(key)`: the unexpired entry of the key, `none` for `null`. -/
def cacheGet (w : World) (key : String) : Option TransactionStatus :=
  match w.cache.find? (fun e => e.key = key) with
  | some e => if w.dateNow < e.expiresAt then some e.value else none
  | none => none

/-- Model of `cacheSet(key, value, ttlSeconds)`. -/
def cacheSet (w : World) (key : String) (value : TransactionStatus) (ttlSeconds : Int) :
    World :=
  { w with cache :=
      { key := key, value := value, expiresAt := w.dateNow + ttlSeconds * 1000 } ::
        w.cache.filter (fun e => e.key ≠ key) }

namespace StacksService

/-- The status object built in a `catch` block. -/
def errorStatus (txid message : String) : TransactionStatus :=
  { txid := txid, status := "failed", blockHeight := none, confirmations := none,
    error := some message }

/-- Model of `StacksService.getTransactionStatus(txid)`. -/
def getTransactionStatus (chain : Chain) (w : World) (txid : String) :
    TransactionStatus × World :=
  let cacheKey := "tx_status:" ++ txid
  match (cacheGet w cacheKey).filter (fun c => c.status = "confirmed") with
  | some cachedStatus => (cachedStatus, w)
  | none =>
    match chain.tx txid with
    | ExplorerReply.throws message => (errorStatus txid message, w)
    | ExplorerReply.notOk _ statusText =>
      (errorStatus txid ("Failed to fetch transaction status: " ++ statusText), w)
    | ExplorerReply.ok data =>
      let status :=
        if data.tx_status = "success" then "confirmed"
        else if data.tx_status = "abort_by_response" ∨
            data.tx_status = "abort_by_post_condition" then "failed"
        else "pending"
      let result : TransactionStatus :=
        { txid := txid, status := status, blockHeight := data.block_height,
          confirmations := data.confirmations,
          error := if data.tx_status = "abort_by_response" then data.tx_result_repr else none }
      let cacheTime := if status = "pending" then 30 else 300
      (result, cacheSet w cacheKey result cacheTime)

/-- Model of `StacksService.monitorSBTCDeposit(bitcoinTxid, expectedAmount)`. -/
def monitorSBTCDeposit (chain : Chain) (w : World) (bitcoinTxid : String)
    (_expectedAmount : Int) : TransactionStatus × World :=
  let cacheKey := "sbtc_deposit:" ++ bitcoinTxid
  let fail (message : String) : TransactionStatus × World :=
    (errorStatus bitcoinTxid message, cacheSet w cacheKey (errorStatus bitcoinTxid message) 60)
  match (cacheGet w cacheKey).filter (fun c => c.status ≠ "pending") with
  | some cachedStatus => (cachedStatus, w)
  | none =>
    match chain.tx bitcoinTxid with
    | ExplorerReply.throws message => fail message
    | ExplorerReply.notOk code statusText =>
      if code = 404 then
        let status : TransactionStatus :=
          { txid := bitcoinTxid, status := "pending", blockHeight := none,
            confirmations := none, error := none }
        (status, cacheSet w cacheKey status 30)
      else fail ("Failed to fetch Bitcoin transaction: " ++ statusText)
    | ExplorerReply.ok btcTxData =>
      if ¬ btcTxData.canonical ∨ btcTxData.tx_status ≠ "success" then
        let status : TransactionStatus :=
          { txid := bitcoinTxid, status := "pending", blockHeight := btcTxData.block_height,
            confirmations := some (btcTxData.confirmations.getD 0), error := none }
        (status, cacheSet w cacheKey status 30)
      else
        let byConfirmations : TransactionStatus × World :=
          let status : TransactionStatus :=
            { txid := bitcoinTxid,
              status := if btcTxData.confirmations.getD 0 ≥ 1 then "confirmed" else "pending",
              blockHeight := btcTxData.block_height,
              confirmations := some (btcTxData.confirmations.getD 0), error := none }
          (status, cacheSet w cacheKey status (if status.status = "confirmed" then 300 else 30))
        match chain.events bitcoinTxid with
        | ExplorerReply.throws message => fail message
        | ExplorerReply.notOk _ _ => byConfirmations
        | ExplorerReply.ok sbtcEvent =>
          if sbtcEvent then
            let status : TransactionStatus :=
              { txid := bitcoinTxid, status := "confirmed",
                blockHeight := btcTxData.block_height,
                confirmations := some (btcTxData.confirmations.getD 0), error := none }
            (status, cacheSet w cacheKey status 300)
          else byConfirmations

end StacksService

/-! ## Merchant and the payment-intent webhook -/

/-- Model of `Merchant.findById(id)`. -/
def Merchant.findById (w : World) (id : Value) : Option Row :=
  w.merchants.find? (fun r => r.get "id" = id)

/-- The string a value holds, the empty string for any other value. -/
def Value.text : Value → String
  | Value.str s => s
  | _ => ""

namespace WebhookService

/-- Model of `WebhookService.createPaymentIntentWebhook(paymentIntent)`; `none` when `created_at`
or `expires_at` is not a date, where `getTime()` throws. -/
def createPaymentIntentWebhook (env : Env) (w : World) (paymentIntent : Row) :
    Option WebhookPayload :=
  match paymentIntent.get "created_at", paymentIntent.get "expires_at" with
  | Value.date created, Value.date expires =>
    some
      { id := "evt_" ++ intToString w.dateNow ++ "_" ++ env.random,
        type := "payment_intent." ++ (paymentIntent.get "status").text,
        created := unixSeconds w.dateNow,
        data := { cols :=
          [("id", paymentIntent.get "id"), ("object", Value.str "payment_intent"),
           ("amount",
              match paymentIntent.get "amount_sats" with
              | Value.num sats => Value.quotient sats 100000000
              | _ => Value.null),
           ("amount_sats", paymentIntent.get "amount_sats"),
           ("amount_usd", paymentIntent.get "amount_usd"),
           ("currency", paymentIntent.get "currency"),
           ("status", paymentIntent.get "status"),
           ("description", paymentIntent.get "description"),
           ("metadata", paymentIntent.get "metadata"),
           ("stacks_address", paymentIntent.get "stacks_address"),
           ("bitcoin_address", paymentIntent.get "bitcoin_address"),
           ("sbtc_tx_id", paymentIntent.get "sbtc_tx_id"),
           ("confirmation_count", paymentIntent.get "confirmation_count"),
           ("created", Value.num (unixSeconds created)),
           ("expires_at", Value.num (unixSeconds expires))] } }
  | _, _ => none

/-- Model of `WebhookService.sendPaymentIntentWebhook(paymentIntent, url, secret)`; `none` when it
throws. -/
def sendPaymentIntentWebhook (env : Env) (w : World) (paymentIntent : Row)
    (merchantWebhookUrl : String) (merchantWebhookSecret : Option String) : Option World :=
  match createPaymentIntentWebhook env w paymentIntent with
  | none => none
  | some payload =>
    some (sendWebhook env w
      { merchantId := (paymentIntent.get "merchant_id").text,
        webhookUrl := merchantWebhookUrl, webhookSecret := merchantWebhookSecret,
        payload := payload, paymentIntentId := some (paymentIntent.get "id").text,
        attemptNumber := 1 }).2

end WebhookService
end StacksGate

namespace StacksGate

/-! ## SBTCService: the confirmation monitor -/

namespace SBTCService

/-- The names of the columns of `sbtc_transactions`. -/
def columns : List String :=
  ["id", "payment_intent_id", "bitcoin_txid", "stacks_txid", "deposit_address", "amount_sats",
   "status", "confirmation_count", "block_height", "confirmed_at", "created_at"]

/-- A text column that may be `NULL`. -/
def textOrNull : Option String → Value
  | some s => Value.str s
  | none => Value.null

/-- A number column that may be `NULL`. -/
def numOrNull : Option Int → Value
  | some n => Value.num n
  | none => Value.null

/-- A timestamp column that may be `NULL`. -/
def dateOrNull : Option Int → Value
  | some ms => Value.date ms
  | none => Value.null

/-- Model of `transaction[key]` for a row object of `sbtc_transactions`: the value of the
column of that name, and `undefined` for every name that is not a column. -/
def prop (t : SBTCTransaction) (key : String) : Value :=
  if key = "id" then Value.str t.id
  else if key = "payment_intent_id" then Value.str t.payment_intent_id
  else if key = "bitcoin_txid" then textOrNull t.bitcoin_txid
  else if key = "stacks_txid" then textOrNull t.stacks_txid
  else if key = "deposit_address" then Value.str t.deposit_address
  else if key = "amount_sats" then Value.num t.amount_sats
  else if key = "status" then Value.str t.status
  else if key = "confirmation_count" then Value.num t.confirmation_count
  else if key = "block_height" then numOrNull t.block_height
  else if key = "confirmed_at" then dateOrNull t.confirmed_at
  else if key = "created_at" then Value.date t.created_at
  else Value.undefined

/-- The row after `SET column = value`; a value of another type than the column leaves the
row as it is. -/
def setColumn (t : SBTCTransaction) (column : String) (v : Value) : SBTCTransaction :=
  if column = "payment_intent_id" then
    match v with
    | Value.str s => { t with payment_intent_id := s }
    | _ => t
  else if column = "bitcoin_txid" then
    match v with
    | Value.str s => { t with bitcoin_txid := some s }
    | Value.null => { t with bitcoin_txid := none }
    | _ => t
  else if column = "stacks_txid" then
    match v with
    | Value.str s => { t with stacks_txid := some s }
    | Value.null => { t with stacks_txid := none }
    | _ => t
  else if column = "deposit_address" then
    match v with
    | Value.str s => { t with deposit_address := s }
    | _ => t
  else if column = "amount_sats" then
    match v with
    | Value.num n => { t with amount_sats := n }
    | _ => t
  else if column = "status" then
    match v with
    | Value.str s => { t with status := s }
    | _ => t
  else if column = "confirmation_count" then
    match v with
    | Value.num n => { t with confirmation_count := n }
    | _ => t
  else if column = "block_height" then
    match v with
    | Value.num n => { t with block_height := some n }
    | Value.null => { t with block_height := none }
    | _ => t
  else if column = "confirmed_at" then
    match v with
    | Value.date ms => { t with confirmed_at := some ms }
    | Value.null => { t with confirmed_at := none }
    | _ => t
  else if column = "created_at" then
    match v with
    | Value.date ms => { t with created_at := ms }
    | _ => t
  else t

/-- Insertion of a transaction into a list ordered by `created_at`, after its equals. -/
def insertByCreatedAt (t : SBTCTransaction) : List SBTCTransaction → List SBTCTransaction
  | [] => [t]
  | u :: us => if t.created_at < u.created_at then t :: u :: us else u :: insertByCreatedAt t us

/-- Model of `ORDER BY created_at ASC`. -/
def orderByCreatedAt (ts : List SBTCTransaction) : List SBTCTransaction :=
  ts.foldl (fun acc t => insertByCreatedAt t acc) []

/-- Model of `SBTCService.getPendingSBTCTransactions()`: the pending transactions created within
the last 24 hours, oldest first. -/
def getPendingSBTCTransactions (w : World) : List SBTCTransaction :=
  orderByCreatedAt (w.sbtc_transactions.filter (fun t =>
    t.status = "pending" ∧ t.created_at > w.dateNow - 24 * 60 * 60 * 1000))

/-- Model of `SBTCService.getSBTCTransaction(id)`. -/
def getSBTCTransaction (w : World) (id : String) : Option SBTCTransaction :=
  w.sbtc_transactions.find? (fun t => t.id = id)

/-- Model of `key.toLowerCase()`. -/
def toLowerCase (key : String) : String := String.mk (key.data.map Char.toLower)

/-- The assignments `updateSBTCTransaction` puts in its `SET` list: for every entry of
`updates` whose value is not `undefined` and whose key is not `id` or `createdAt`, the
key in lower case with the value. -/
def updateFields (updates : List (String × Value)) : List (String × Value) :=
  updates.filterMap (fun kv =>
    if kv.2 ≠ Value.undefined ∧ kv.1 ≠ "id" ∧ kv.1 ≠ "createdAt" then
      some (toLowerCase kv.1, kv.2)
    else none)

/-- The database accepts an `UPDATE` of `sbtc_transactions` whose assigned columns exist
and are assigned once. -/
def updateAccepted (assignments : List (String × Value)) : Bool :=
  (assignments.map Prod.fst).all (fun k => k ∈ columns) ∧ (assignments.map Prod.fst).Nodup

/-- Model of `SBTCService.updateSBTCTransaction(id, updates)`: the state after the `UPDATE`, or
the exception of a statement the database rejects, which is logged and thrown again. With
no assignment the function returns at once. -/
def updateSBTCTransaction (w : World) (id : String) (updates : List (String × Value)) :
    Except Failure World :=
  let assignments := updateFields updates
  if assignments.isEmpty then Except.ok w
  else if ¬ updateAccepted assignments then
    Except.error (Failure.sqlError "UPDATE sbtc_transactions rejected")
  else
    Except.ok { w with sbtc_transactions := w.sbtc_transactions.map (fun t =>
      if t.id = id then assignments.foldl (fun acc kv => setColumn acc kv.1 kv.2) t else t) }

/-- Model of `SBTCService.sendPaymentIntentWebhook(merchantId, paymentIntentId)`; an exception
inside is caught and logged. -/
def sendPaymentIntentWebhook (env : Env) (w : World) (merchantId : Value)
    (paymentIntentId : String) : World :=
  match PaymentIntent.findById w paymentIntentId, Merchant.findById w merchantId with
  | some paymentIntent, some merchant =>
    if (merchant.get "webhook_url").falsy then w
    else
      let secret : Option String :=
        match merchant.get "webhook_secret" with
        | Value.str s => some s
        | _ => none
      match WebhookService.sendPaymentIntentWebhook env w paymentIntent
          (merchant.get "webhook_url").text secret with
      | some w' => w'
      | none => w
  | _, _ => w

/-- The status `updateTransactionStatus` gives the payment intent. -/
def paymentStatusOf (status : TransactionStatus) : String :=
  if status.status = "confirmed" then "succeeded"
  else if status.status = "failed" then "failed"
  else "processing"

/-- The object `updateTransactionStatus` passes to `updateSBTCTransaction`. -/
def statusUpdates (w : World) (status : TransactionStatus) : List (String × Value) :=
  [("status", Value.str status.status),
   ("confirmationCount", Value.num (status.confirmations.getD 0)),
   ("blockHeight",
      match status.blockHeight with
      | some h => Value.num h
      | none => Value.undefined),
   ("confirmedAt", if status.status = "confirmed" then Value.date w.dateNow else Value.undefined)]

/-- Model of `SBTCService.updateTransactionStatus(transactionId, status)`; an exception inside is
caught and logged, and the statements already run keep their effect. The intent is looked
up under `transaction.paymentIntentId`; with that property `undefined` no intent is
found and `PaymentIntent.updateStatus` throws. -/
def updateTransactionStatus (env : Env) (w : World) (transactionId : String)
    (status : TransactionStatus) : World :=
  match updateSBTCTransaction w transactionId (statusUpdates w status) with
  | Except.error _ => w
  | Except.ok w1 =>
    match getSBTCTransaction w1 transactionId with
    | none => w1
    | some transaction =>
      match prop transaction "paymentIntentId" with
      | Value.str paymentIntentId =>
        match PaymentIntent.updateStatus w1 paymentIntentId (paymentStatusOf status)
            (some [("confirmation_count", Value.num (status.confirmations.getD 0)),
                   ("sbtc_tx_id", Value.str status.txid)]) with
        | Except.error _ => w1
        | Except.ok (_, w2) =>
          match PaymentIntent.findById w2 paymentIntentId with
          | none => w2
          | some paymentIntent =>
            sendPaymentIntentWebhook env w2 (paymentIntent.get "merchant_id") paymentIntentId
      | _ => w1

/-- The number a property holds, 0 for any other value. -/
def numberOf : Value → Int
  | Value.num n => n
  | _ => 0

/-- The body of the loop of `checkPendingTransactions` for one row: the references are
read as `transaction.stacksTxid` and `transaction.bitcoinTxid`. -/
def checkTransaction (env : Env) (chain : Chain) (w : World) (transaction : SBTCTransaction) :
    World :=
  let viaBitcoin (w : World) : World :=
    if (prop transaction "bitcoinTxid").falsy then w
    else
      let r := StacksService.monitorSBTCDeposit chain w (prop transaction "bitcoinTxid").text
        (numberOf (prop transaction "amountSats"))
      if r.1.status ≠ "pending" then updateTransactionStatus env r.2 transaction.id r.1
      else r.2
  if (prop transaction "stacksTxid").falsy then viaBitcoin w
  else
    let r := StacksService.getTransactionStatus chain w (prop transaction "stacksTxid").text
    if r.1.status ≠ "pending" then updateTransactionStatus env r.2 transaction.id r.1
    else viaBitcoin r.2

/-- Model of `SBTCService.checkPendingTransactions()`: one monitoring cycle. -/
def checkPendingTransactions (env : Env) (chain : Chain) (w : World) : World :=
  (getPendingSBTCTransactions w).foldl (checkTransaction env chain) w

/-- A pending transaction for the intent `pi_1`, with both references stored. -/
def sampleTransaction : SBTCTransaction :=
  { id := "tx_1", payment_intent_id := "pi_1", bitcoin_txid := some "btc_1",
    stacks_txid := some "0xabc", deposit_address := "ST1", amount_sats := 150000,
    status := "pending", confirmation_count := 0, block_height := none, confirmed_at := none,
    created_at := 1699999000000 }

/-- A state with one intent in `processing` and its pending transaction. -/
def sampleMonitorWorld : World :=
  { sampleWorld with
    payment_intents := [PaymentIntent.sampleIntent "pi_1" "processing"],
    sbtc_transactions := [sampleTransaction] }

/-- An explorer that cannot be reached: every request throws. -/
def unreachableChain : Chain :=
  { tx := fun _ => ExplorerReply.throws "fetch failed",
    events := fun _ => ExplorerReply.throws "fetch failed" }

/-- An explorer that answers every request with HTTP 503. -/
def unavailableChain : Chain :=
  { tx := fun _ => ExplorerReply.notOk 503 "Service Unavailable",
    events := fun _ => ExplorerReply.notOk 503 "Service Unavailable" }

end SBTCService
end StacksGate

namespace StacksGate

/-! ## PaymentIntent.create and the cancel route -/

namespace PaymentIntent

/-- The argument of `PaymentIntent.create` (`CreatePaymentIntentParams`); a field left out
is `none`. -/
structure CreateParams where
  merchant_id : String
  amount_sats : Int
  amount_usd : Value
  description : Option String
  metadata : Option (List (String × String))
  expires_in_hours : Option Int
deriving DecidableEq, Repr

/-- The expiry time computed by `create`: the given number of hours when it is truthy,
24 hours otherwise. -/
def expiresAt (w : World) (expires_in_hours : Option Int) : Int :=
  match expires_in_hours with
  | some h => if h ≠ 0 then w.dateNow + h * 60 * 60 * 1000 else w.dateNow + 24 * 60 * 60 * 1000
  | none => w.dateNow + 24 * 60 * 60 * 1000

/-- The row the `INSERT` of `create` stores and returns: the eight inserted columns, and
the two timestamps the database sets, which the routes read as dates. -/
def insertedRow (w : World) (id : String) (params : CreateParams) : Row :=
  { cols := [("id", Value.str id), ("merchant_id", Value.str params.merchant_id),
      ("amount_sats", Value.num params.amount_sats), ("amount_usd", params.amount_usd),
      ("description",
        match params.description with
        | some d => Value.str d
        | none => Value.null),
      ("metadata", Value.obj (params.metadata.getD [])),
      ("expires_at", Value.date (expiresAt w params.expires_in_hours)),
      ("status", Value.str "requires_payment"),
      ("created_at", Value.date w.dateNow), ("updated_at", Value.date w.dateNow)] }

/-- Model of `PaymentIntent.create(params)`. The text `uuid` stands for the
first 24 characters of a version-4 UUID with its dashes removed. The identifier is the primary key
(globally unique in the data model of the specification), so the `INSERT` is rejected,
and the exception rethrown, when it is already stored; no other check is made. -/
def create (uuid : String) (w : World) (params : CreateParams) :
    Except Failure (Row × World) :=
  let id := "pi_" ++ uuid
  match findRow w.payment_intents id with
  | some _ => Except.error (Failure.sqlError "duplicate key value")
  | none =>
    let paymentIntent := insertedRow w id params
    let w1 := { w with payment_intents := w.payment_intents ++ [paymentIntent] }
    let w2 := logEvent w1 id "payment_intent.created"
      { cols := [("amount_sats", Value.num params.amount_sats),
                 ("amount_usd", params.amount_usd),
                 ("merchant_id", Value.str params.merchant_id)] }
    Except.ok (withMetadata paymentIntent, w2)

/-- A create request for the merchant `m_1`. -/
def sampleParams (amount_sats : Int) : CreateParams :=
  { merchant_id := "m_1", amount_sats := amount_sats, amount_usd := Value.num 0,
    description := none, metadata := none, expires_in_hours := none }

end PaymentIntent

/-! ### The route `POST /:id/cancel` -/

/-- What a route handler sends: an error object with its HTTP status, or a JSON body. -/
inductive RouteResult where
  | error (status : Int) (type message : String)
  | json (status : Int) (body : Row)
deriving DecidableEq, Repr

namespace PaymentRoutes

/-- The JSON body the cancel route answers with; `none` when `created_at` or `expires_at`
is not a date, where `getTime()` throws. -/
def cancelResponse (canceled : Row) : Option Row :=
  match canceled.get "created_at", canceled.get "expires_at" with
  | Value.date created, Value.date expires =>
    some { cols :=
      [("id", canceled.get "id"), ("object", Value.str "payment_intent"),
       ("amount",
          match canceled.get "amount_sats" with
          | Value.num sats => Value.quotient sats 100000000
          | _ => Value.null),
       ("amount_sats", canceled.get "amount_sats"),
       ("amount_usd", canceled.get "amount_usd"),
       ("currency", canceled.get "currency"),
       ("status", canceled.get "status"),
       ("description", canceled.get "description"),
       ("metadata", canceled.get "metadata"),
       ("created", Value.num (unixSeconds created)),
       ("expires_at", Value.num (unixSeconds expires))] }
  | _, _ => none

/-- The handler of `POST /:id/cancel` for the authenticated `merchant`: the response and
the state after the request. -/
def cancelRoute (w : World) (merchant : Row) (id : String)
    (cancellation_reason : Option String) : RouteResult × World :=
  match PaymentIntent.findById w id with
  | none => (RouteResult.error 404 "invalid_request_error" "Payment intent not found", w)
  | some existingPaymentIntent =>
    if existingPaymentIntent.get "merchant_id" ≠ merchant.get "id" then
      (RouteResult.error 404 "invalid_request_error" "Payment intent not found", w)
    else if existingPaymentIntent.get "status" ∉
        [Value.str "requires_payment", Value.str "processing"] then
      (RouteResult.error 400 "invalid_request_error"
        "Payment intent cannot be canceled in current status", w)
    else
      match PaymentIntent.cancel w id cancellation_reason with
      | Except.error _ =>
        (RouteResult.error 500 "api_error" "Failed to cancel payment intent", w)
      | Except.ok (canceledPaymentIntent, w') =>
        match cancelResponse canceledPaymentIntent with
        | some body => (RouteResult.json 200 body, w')
        | none => (RouteResult.error 500 "api_error" "Failed to cancel payment intent", w')

/-- The authenticated merchant `m_1`. -/
def sampleMerchant : Row :=
  { cols := [("id", Value.str "m_1"), ("webhook_url", Value.null),
             ("webhook_secret", Value.null)] }

end PaymentRoutes
end StacksGate

namespace StacksGate
namespace SBTCService

/-! ### Concrete data for the monitoring cycle -/

/-- An explorer body for a transaction in the given state. -/
def sampleTxData (tx_status : String) (confirmations : Option Int) : TxData :=
  { tx_status := tx_status, canonical := true, block_height := some 1200,
    confirmations := confirmations, tx_result_repr := none }

/-- An explorer on which the chain-side reference `0xabc` is still pending while every
other transaction, the bitcoin-side reference `btc_1` included, is a success with three
confirmations and an sBTC event. -/
def pendingChainSide : Chain :=
  { tx := fun txid =>
      if txid = "0xabc" then ExplorerReply.ok (sampleTxData "pending" none)
      else ExplorerReply.ok (sampleTxData "success" (some 3)),
    events := fun _ => ExplorerReply.ok true }

/-- An explorer on which every transaction is still pending. -/
def pendingEverywhere : Chain :=
  { tx := fun _ => ExplorerReply.ok (sampleTxData "pending" none),
    events := fun _ => ExplorerReply.ok false }

/-- A second pending transaction, for the intent `pi_2`, with a chain-side reference
only. -/
def secondTransaction : SBTCTransaction :=
  { id := "tx_2", payment_intent_id := "pi_2", bitcoin_txid := none,
    stacks_txid := some "0xdef", deposit_address := "ST2", amount_sats := 20000,
    status := "pending", confirmation_count := 0, block_height := none, confirmed_at := none,
    created_at := 1699999500000 }

/-- A state with two intents in `processing`, each with a pending transaction. -/
def twoTransactionsWorld : World :=
  { sampleWorld with
    payment_intents := [PaymentIntent.sampleIntent "pi_1" "processing",
                        PaymentIntent.sampleIntent "pi_2" "processing"],
    sbtc_transactions := [sampleTransaction, secondTransaction] }

/-- An explorer that cannot be reached for the transaction `0xabc` and reports every
other transaction as a success with two confirmations. -/
def firstFailsChain : Chain :=
  { tx := fun txid =>
      if txid = "0xabc" then ExplorerReply.throws "fetch failed"
      else ExplorerReply.ok (sampleTxData "success" (some 2)),
    events := fun _ => ExplorerReply.ok true }

/-- An explorer that reports every transaction as a success with three confirmations and
an sBTC event. -/
def confirmedEverywhere : Chain :=
  { tx := fun _ => ExplorerReply.ok (sampleTxData "success" (some 3)),
    events := fun _ => ExplorerReply.ok true }

/-- A chain result: confirmed, with two confirmations. -/
def twoConfirmations : TransactionStatus :=
  { txid := "0xabc", status := "confirmed", blockHeight := some 1200, confirmations := some 2,
    error := none }

/-- The stored value of a column of the intent `id`. -/
def storedColumn (w : World) (id key : String) : Option Value :=
  (PaymentIntent.findRow w.payment_intents id).map (fun r => r.get key)

end SBTCService
end StacksGate

namespace StacksGate

/-! ## exchangeRate: the price oracle

A JavaScript number is `NaN`, an infinity or a finite double, which is a rational; the
sign of zero is not modelled. The module uses two cache keys,
`btc_usd_exchange_rate` for a rate snapshot and `btc_usd_previous_rate` for a number; each
key is a field of the state, with the type of the values stored under it. -/

namespace ExchangeRate

/-- A JavaScript number: `NaN`, an infinity or a finite value. -/
inductive JsNumber where
  | nan
  | fin (q : ℚ)
  | posInf
  | negInf
deriving DecidableEq

/-- The object `ExchangeRateData`; `last_updated` is the time of `new Date()`, in
milliseconds. -/
structure ExchangeRateData where
  btc_usd : JsNumber
  last_updated : Int
  source : String
deriving DecidableEq

/-- A cached value with the time at which it expires. -/
structure Slot (α : Type) where
  data : α
  expiry : Int
deriving DecidableEq

/-- The two stores of one cache key: the Redis entry and the entry of `memoryCache`. -/
structure KeyCache (α : Type) where
  redis : Option (Slot α)
  memory : Option (Slot α)
deriving DecidableEq

/-- The state the module works on: the clock, whether the Redis client is connected, the
two cache keys, and the URLs requested so far, in order. -/
structure RateState where
  dateNow : Int
  redisConnected : Bool
  rate : KeyCache ExchangeRateData
  previous : KeyCache JsNumber
  requests : List String
deriving DecidableEq

/-- Model of `cacheGet(key)` of the Redis helper: the entry if the client is connected and
the entry has not expired, `none` for `null`. -/
def redisGet {α : Type} (st : RateState) (c : KeyCache α) : Option α :=
  if st.redisConnected then
    match c.redis with
    | some s => if st.dateNow < s.expiry then some s.data else none
    | none => none
  else none

/-- Model of `getFromCache(key)`: the Redis result when it is truthy, otherwise the entry of
`memoryCache` when it has not expired, otherwise `none` for `null`. -/
def getFromCache {α : Type} (truthy : α → Bool) (st : RateState) (c : KeyCache α) :
    Option α :=
  let fromMemory : Option α :=
    match c.memory with
    | some cached => if st.dateNow < cached.expiry then some cached.data else none
    | none => none
  match redisGet st c with
  | some redisResult => if truthy redisResult then some redisResult else fromMemory
  | none => fromMemory

/-- Model of `setInCache(key, value, ttlSeconds)`: Redis, when connected, and `memoryCache`. -/
def setInCache {α : Type} (st : RateState) (c : KeyCache α) (value : α) (ttlSeconds : Int) :
    KeyCache α :=
  { redis :=
      if st.redisConnected then some { data := value, expiry := st.dateNow + ttlSeconds * 1000 }
      else c.redis,
    memory := some { data := value, expiry := st.dateNow + ttlSeconds * 1000 } }

/-- An entry of `EXCHANGE_RATE_SOURCES`; its parser is part of the reply of the network. -/
structure RateSource where
  name : String
  url : String
deriving DecidableEq, Repr

/-- Model of `EXCHANGE_RATE_SOURCES`. -/
def EXCHANGE_RATE_SOURCES : List RateSource :=
  [{ name := "CoinGecko",
     url := "https://api.coingecko.com/api/v3/simple/price?ids=bitcoin&vs_currencies=usd" },
   { name := "CoinDesk", url := "https://api.coindesk.com/v1/bpi/currentprice/USD.json" },
   { name := "Binance", url := "https://api.binance.com/api/v3/ticker/price?symbol=BTCUSDT" }]

/-- The outcome of the request to a source, of `response.json()` and of the parser of the
source: an exception in any of them, a response that is not OK, or the parsed number. -/
inductive RateReply where
  | throws (message : String)
  | notOk (status : Int) (statusText : String)
  | parsed (rate : JsNumber)
deriving DecidableEq

/-- Model of `!rate` for a number. -/
def JsNumber.falsy : JsNumber → Bool
  | JsNumber.nan => true
  | JsNumber.fin q => q = 0
  | JsNumber.posInf => false
  | JsNumber.negInf => false

/-- Model of `isNaN(rate)`. -/
def JsNumber.isNaN : JsNumber → Bool
  | JsNumber.nan => true
  | _ => false

/-- Model of `rate <= 0`. -/
def JsNumber.leZero : JsNumber → Bool
  | JsNumber.nan => false
  | JsNumber.fin q => q ≤ 0
  | JsNumber.posInf => false
  | JsNumber.negInf => true

/-- The value the `try` block of `fetchExchangeRateFromSource` returns for a reply, `none`
when it throws: the parsed rate unless `!rate || isNaN(rate) || rate <= 0`. -/
def acceptedRate : RateReply → Option JsNumber
  | RateReply.throws _ => none
  | RateReply.notOk _ _ => none
  | RateReply.parsed rate =>
    if rate.falsy ∨ rate.isNaN ∨ rate.leZero then none else some rate

/-- Model of `fetchExchangeRateFromSource(source)`: the rate, or `none` for `null`. -/
def fetchExchangeRateFromSource (net : String → RateReply) (st : RateState)
    (source : RateSource) : Option JsNumber × RateState :=
  (acceptedRate (net source.url), { st with requests := st.requests ++ [source.url] })

/-- The loop of `getCurrentExchangeRate` over the sources: the first truthy rate with the
name of its source, `none` when the loop ends without one. -/
def queryLoop (net : String → RateReply) :
    RateState → List RateSource → Option (JsNumber × String) × RateState
  | st, [] => (none, st)
  | st, source :: rest =>
    match fetchExchangeRateFromSource net st source with
    | (some rate, st1) =>
      if rate.falsy then queryLoop net st1 rest else (some (rate, source.name), st1)
    | (none, st1) => queryLoop net st1 rest

/-- Model of `getCurrentExchangeRate()`. -/
def getCurrentExchangeRate (net : String → RateReply) (st : RateState) :
    ExchangeRateData × RateState :=
  match getFromCache (fun _ => true) st st.rate with
  | some cached => (cached, st)
  | none =>
    match queryLoop net st EXCHANGE_RATE_SOURCES with
    | (none, st1) =>
      ({ btc_usd := JsNumber.fin 43000, last_updated := st1.dateNow, source := "fallback" },
        st1)
    | (some (rate, successSource), st1) =>
      let exchangeRateData : ExchangeRateData :=
        { btc_usd := rate, last_updated := st1.dateNow, source := successSource }
      (exchangeRateData, { st1 with rate := setInCache st1 st1.rate exchangeRateData 300 })

/-- A state with empty caches, Redis connected. -/
def emptyState : RateState :=
  { dateNow := 1700000000000, redisConnected := true,
    rate := { redis := none, memory := none },
    previous := { redis := none, memory := none }, requests := [] }

/-- A network on which CoinGecko cannot be reached, CoinDesk answers 65000 and Binance
answers 64990. -/
def secondSourceNet : String → RateReply := fun url =>
  if url = "https://api.coingecko.com/api/v3/simple/price?ids=bitcoin&vs_currencies=usd" then
    RateReply.throws "fetch failed"
  else if url = "https://api.coindesk.com/v1/bpi/currentprice/USD.json" then
    RateReply.parsed (JsNumber.fin 65000)
  else RateReply.parsed (JsNumber.fin 64990)

/-- A network on which no source can be reached. -/
def deadNet : String → RateReply := fun _ => RateReply.throws "fetch failed"

/-- A state whose caches hold an unexpired snapshot of rate 64000. -/
def cachedState : RateState :=
  { emptyState with
    rate :=
      { redis := some { data := { btc_usd := JsNumber.fin 64000,
                                   last_updated := 1699999900000, source := "CoinGecko" },
                        expiry := 1700000200000 },
        memory := some { data := { btc_usd := JsNumber.fin 64000,
                                    last_updated := 1699999900000, source := "CoinGecko" },
                         expiry := 1700000200000 } } }

end ExchangeRate
end StacksGate

namespace StacksGate
namespace ExchangeRate

/-! ### IEEE 754 double precision

A finite JavaScript number is a rational `m * 2 ^ (e - 52)` with `|m| < 2 ^ 53` and
`-1022 ≤ e ≤ 1023`. Every arithmetic operation returns the double nearest to the exact
result, a tie going to the even significand, and an infinity when that double would reach
`2 ^ 1024`. The sign of zero is not modelled. -/

/-- The integer nearest to `q`, a tie going to the even one. -/
def roundHalfEven (q : ℚ) : ℤ :=
  if q - ⌊q⌋ < 1 / 2 then ⌊q⌋
  else if 1 / 2 < q - ⌊q⌋ then ⌊q⌋ + 1
  else if ⌊q⌋ % 2 = 0 then ⌊q⌋
  else ⌊q⌋ + 1

/-- The exponent of the binade of `x`: the `e` with `2 ^ e ≤ |x| < 2 ^ (e + 1)`, and
`-1022`, the exponent of the subnormal numbers, below `2 ^ (-1022)` and at zero. -/
def binade (x : ℚ) : ℤ := if x = 0 then -1022 else max (Int.log 2 |x|) (-1022)

/-- The distance between neighbouring doubles in the binade of `x`. -/
def ulp (x : ℚ) : ℚ := (2 : ℚ) ^ (binade x - 52)

/-- The multiple of `ulp x` nearest to `x`, a tie going to the even multiple. -/
def nearestDouble (x : ℚ) : ℚ := roundHalfEven (x / ulp x) * ulp x

/-! ### Arithmetic on numbers, conversions, validity and trend -/

/-- The infinity of the given sign. -/
def JsNumber.ofSign (positive : Bool) : JsNumber :=
  if positive then JsNumber.posInf else JsNumber.negInf

/-- The number an arithmetic operation returns when its exact result is `x`: the nearest
double, or the infinity of the sign of `x` when that reaches `2 ^ 1024`. It is also the
number a decimal literal of value `x` denotes. -/
def roundToDouble (x : ℚ) : JsNumber :=
  if (2 : ℚ) ^ 1024 ≤ |nearestDouble x| then JsNumber.ofSign (decide (0 < x))
  else JsNumber.fin (nearestDouble x)

/-- Model of `a * b`. -/
def JsNumber.mul : JsNumber → JsNumber → JsNumber
  | JsNumber.nan, _ => JsNumber.nan
  | _, JsNumber.nan => JsNumber.nan
  | JsNumber.fin a, JsNumber.fin b => roundToDouble (a * b)
  | JsNumber.fin a, JsNumber.posInf => if a = 0 then JsNumber.nan else JsNumber.ofSign (0 < a)
  | JsNumber.fin a, JsNumber.negInf => if a = 0 then JsNumber.nan else JsNumber.ofSign (a < 0)
  | JsNumber.posInf, JsNumber.fin b => if b = 0 then JsNumber.nan else JsNumber.ofSign (0 < b)
  | JsNumber.negInf, JsNumber.fin b => if b = 0 then JsNumber.nan else JsNumber.ofSign (b < 0)
  | JsNumber.posInf, JsNumber.posInf => JsNumber.posInf
  | JsNumber.posInf, JsNumber.negInf => JsNumber.negInf
  | JsNumber.negInf, JsNumber.posInf => JsNumber.negInf
  | JsNumber.negInf, JsNumber.negInf => JsNumber.posInf

/-- Model of `a / b`; a zero divisor counts as positive zero. -/
def JsNumber.div : JsNumber → JsNumber → JsNumber
  | JsNumber.nan, _ => JsNumber.nan
  | _, JsNumber.nan => JsNumber.nan
  | JsNumber.fin a, JsNumber.fin b =>
    if b = 0 then (if a = 0 then JsNumber.nan else JsNumber.ofSign (0 < a))
    else roundToDouble (a / b)
  | JsNumber.fin _, JsNumber.posInf => JsNumber.fin 0
  | JsNumber.fin _, JsNumber.negInf => JsNumber.fin 0
  | JsNumber.posInf, JsNumber.fin b => JsNumber.ofSign (0 ≤ b)
  | JsNumber.negInf, JsNumber.fin b => JsNumber.ofSign (b < 0)
  | JsNumber.posInf, JsNumber.posInf => JsNumber.nan
  | JsNumber.posInf, JsNumber.negInf => JsNumber.nan
  | JsNumber.negInf, JsNumber.posInf => JsNumber.nan
  | JsNumber.negInf, JsNumber.negInf => JsNumber.nan

/-- Model of `a - b`. -/
def JsNumber.sub : JsNumber → JsNumber → JsNumber
  | JsNumber.nan, _ => JsNumber.nan
  | _, JsNumber.nan => JsNumber.nan
  | JsNumber.fin a, JsNumber.fin b => roundToDouble (a - b)
  | JsNumber.fin _, JsNumber.posInf => JsNumber.negInf
  | JsNumber.fin _, JsNumber.negInf => JsNumber.posInf
  | JsNumber.posInf, JsNumber.fin _ => JsNumber.posInf
  | JsNumber.negInf, JsNumber.fin _ => JsNumber.negInf
  | JsNumber.posInf, JsNumber.posInf => JsNumber.nan
  | JsNumber.posInf, JsNumber.negInf => JsNumber.posInf
  | JsNumber.negInf, JsNumber.posInf => JsNumber.negInf
  | JsNumber.negInf, JsNumber.negInf => JsNumber.nan

/-- Model of `Math.round(x)`: the integer nearest to `x`, a half rounded up. The result is
exact: it is a double whenever `x` is. -/
def JsNumber.round : JsNumber → JsNumber
  | JsNumber.fin q => JsNumber.fin (⌊q + 1 / 2⌋ : ℤ)
  | x => x

/-- Model of `x > c` for a finite constant `c`. -/
def JsNumber.gt (x : JsNumber) (c : ℚ) : Bool :=
  match x with
  | JsNumber.fin q => c < q
  | JsNumber.posInf => true
  | _ => false

/-- Model of `x < c` for a finite constant `c`. -/
def JsNumber.lt (x : JsNumber) (c : ℚ) : Bool :=
  match x with
  | JsNumber.fin q => q < c
  | JsNumber.negInf => true
  | _ => false

/-- Model of `x >= c` for a finite constant `c`. -/
def JsNumber.ge (x : JsNumber) (c : ℚ) : Bool :=
  match x with
  | JsNumber.fin q => c ≤ q
  | JsNumber.posInf => true
  | _ => false

/-- Model of `x <= c` for a finite constant `c`. -/
def JsNumber.le (x : JsNumber) (c : ℚ) : Bool :=
  match x with
  | JsNumber.fin q => q ≤ c
  | JsNumber.negInf => true
  | _ => false

/-- The result object of a conversion; `timestamp` is the time of `new Date()`. -/
structure Conversion where
  amount_sbtc : JsNumber
  amount_usd : JsNumber
  exchange_rate : JsNumber
  timestamp : Int
deriving DecidableEq

/-- Model of `convertSbtcToUsd(sbtcAmount)`. -/
def convertSbtcToUsd (net : String → RateReply) (st : RateState) (sbtcAmount : JsNumber) :
    Conversion × RateState :=
  let r := getCurrentExchangeRate net st
  let exchangeRate := r.1
  let usdAmount := sbtcAmount.mul exchangeRate.btc_usd
  ({ amount_sbtc := sbtcAmount,
     amount_usd := ((usdAmount.mul (JsNumber.fin 100)).round).div (JsNumber.fin 100),
     exchange_rate := exchangeRate.btc_usd,
     timestamp := r.2.dateNow }, r.2)

/-- Model of `convertUsdToSbtc(usdAmount)`. -/
def convertUsdToSbtc (net : String → RateReply) (st : RateState) (usdAmount : JsNumber) :
    Conversion × RateState :=
  let r := getCurrentExchangeRate net st
  let exchangeRate := r.1
  let sbtcAmount := usdAmount.div exchangeRate.btc_usd
  ({ amount_sbtc := ((sbtcAmount.mul (JsNumber.fin 100000000)).round).div
       (JsNumber.fin 100000000),
     amount_usd := usdAmount,
     exchange_rate := exchangeRate.btc_usd,
     timestamp := r.2.dateNow }, r.2)

/-- Model of `isValidAmount(amount, currency)`. -/
def isValidAmount (amount : JsNumber) (currency : String) : Bool :=
  if amount.isNaN ∨ amount.leZero then false
  else if currency = "usd" then amount.ge (1 / 100) && amount.le 1000000
  else amount.ge (1 / 100000000) && amount.le 1000

/-- The movement of the rate. -/
inductive Trend where
  | up
  | down
  | stable
deriving DecidableEq, Repr

/-- The trend `getExchangeRateWithTrend` computes from the current rate and the result of
the cache lookup for the previous rate; the literals `0.1` and `-0.1` are the doubles
nearest to them. -/
def trendOf (current : JsNumber) (previous : Option JsNumber) : Trend :=
  match previous with
  | some p =>
    if p.falsy then Trend.stable
    else
      let changePercent := ((current.sub p).div p).mul (JsNumber.fin 100)
      if changePercent.gt (nearestDouble (1 / 10)) then Trend.up
      else if changePercent.lt (-nearestDouble (1 / 10)) then Trend.down
      else Trend.stable
  | none => Trend.stable

/-- Model of `!!value` for a number. -/
def JsNumber.truthy (x : JsNumber) : Bool := !x.falsy

/-- Model of `getExchangeRateWithTrend()`: the current snapshot, the trend, and the state
after the previous-rate sample has been written. -/
def getExchangeRateWithTrend (net : String → RateReply) (st : RateState) :
    (ExchangeRateData × Trend) × RateState :=
  let r := getCurrentExchangeRate net st
  let current := r.1
  let previous := getFromCache JsNumber.truthy r.2 r.2.previous
  let trend := trendOf current.btc_usd previous
  ((current, trend),
    { r.2 with previous := setInCache r.2 r.2.previous current.btc_usd 3600 })

/-- A state whose caches hold an unexpired snapshot of rate 64000 and, as previous-rate
sample, the rate 63000, which expires in 1000 s. -/
def trendState : RateState :=
  { cachedState with
    previous :=
      { redis := some { data := JsNumber.fin 63000, expiry := 1700001000000 },
        memory := some { data := JsNumber.fin 63000, expiry := 1700001000000 } } }

/-- A state whose caches hold an unexpired snapshot of rate `56486.682904903755` and, as
previous-rate sample, the rate `56430.2526522515`, which expires in 1000 s; both numbers
are doubles, written as quotients by `2^37`. -/
def boundaryState : RateState :=
  { emptyState with
    rate :=
      { redis := some { data := { btc_usd := JsNumber.fin (7763470583554685 / 137438953472),
                                   last_updated := 1699999900000, source := "CoinGecko" },
                        expiry := 1700000200000 },
        memory := some { data := { btc_usd := JsNumber.fin (7763470583554685 / 137438953472),
                                    last_updated := 1699999900000, source := "CoinGecko" },
                         expiry := 1700000200000 } },
    previous :=
      { redis := some { data := JsNumber.fin (7755714868685999 / 137438953472),
                        expiry := 1700001000000 },
        memory := some { data := JsNumber.fin (7755714868685999 / 137438953472),
                         expiry := 1700001000000 } } }

end ExchangeRate
end StacksGate

namespace StacksGate

/-! ## The routes `POST /` and `POST /:id` of the payment-intent API -/

/-- The length of a string as JavaScript counts it, in UTF-16 code units: a character
outside the basic multilingual plane counts twice. -/
def utf16Length (s : String) : Nat :=
  (s.data.map (fun c => if c.toNat < 65536 then 1 else 2)).sum

/-- The response is an error of the 4xx class. -/
def RouteResult.isClientError : RouteResult → Bool
  | RouteResult.error status _ _ => 400 ≤ status ∧ status < 500
  | RouteResult.json _ _ => false

namespace PaymentRoutes

open ExchangeRate (JsNumber)

/-- The body of an update request, after JSON parsing: a field left out is `none`. A body
whose `description` is not a string, or whose `metadata` is not a map of strings, fails
the schema and is outside this type. -/
structure UpdateBody where
  description : Option String
  metadata : Option (List (String × String))
deriving DecidableEq, Repr

/-- Model of `updatePaymentIntentSchema.parse(req.body)` succeeding: the description has at most
500 UTF-16 code units, the length `z.string().max(500)` compares. -/
def updatePaymentIntentSchema (body : UpdateBody) : Bool :=
  match body.description with
  | some d => utf16Length d ≤ 500
  | none => true

/-- The JSON body the update route answers with, which has the fields of the cancel
route. -/
def updateResponse (updated : Row) : Option Row := cancelResponse updated

/-- The handler of `POST /:id` for the authenticated `merchant`: the response and the state
after the request. -/
def updateRoute (w : World) (merchant : Row) (id : String) (body : UpdateBody) :
    RouteResult × World :=
  if ¬ updatePaymentIntentSchema body then
    (RouteResult.error 400 "invalid_request_error" "Invalid request parameters", w)
  else
    match PaymentIntent.findById w id with
    | none => (RouteResult.error 404 "invalid_request_error" "Payment intent not found", w)
    | some existingPaymentIntent =>
      if existingPaymentIntent.get "merchant_id" ≠ merchant.get "id" then
        (RouteResult.error 404 "invalid_request_error" "Payment intent not found", w)
      else if existingPaymentIntent.get "status" ≠ Value.str "requires_payment" then
        (RouteResult.error 400 "invalid_request_error"
          "Payment intent cannot be updated in current status", w)
      else
        match PaymentIntent.updateStatus w id (existingPaymentIntent.get "status").text
            (some [("description",
                      match body.description with
                      | some d => Value.str d
                      | none => Value.undefined),
                   ("metadata",
                      match body.metadata with
                      | some m => Value.obj m
                      | none => Value.undefined)]) with
        | Except.error _ =>
          (RouteResult.error 500 "api_error" "Failed to update payment intent", w)
        | Except.ok (updatedPaymentIntent, w') =>
          match updateResponse updatedPaymentIntent with
          | some response => (RouteResult.json 200 response, w')
          | none => (RouteResult.error 500 "api_error" "Failed to update payment intent", w')

/-- An update request that sets both fields. -/
def sampleUpdate : UpdateBody :=
  { description := some "two books", metadata := some [("order", "43")] }

/-- The body of a create request, after JSON parsing: a field left out is `none`. The
number of hours is taken to be whole. -/
structure CreateBody where
  amount : JsNumber
  currency : Option String
  description : Option String
  metadata : Option (List (String × String))
  expires_in_hours : Option Int

/-- Model of `createPaymentIntentSchema.parse(req.body)` succeeding: the amount is a number
(not `NaN`) that is positive and at most 100000000, the currency is `btc` when given, the
description has at most 500 UTF-16 code units, the hours are between 1 and 168. -/
def createPaymentIntentSchema (body : CreateBody) : Bool :=
  (match body.amount with
    | JsNumber.fin amount => decide (0 < amount ∧ amount ≤ 100000000)
    | _ => false) &&
  (match body.currency with
    | some c => decide (c = "btc")
    | none => true) &&
  (match body.description with
    | some d => decide (utf16Length d ≤ 500)
    | none => true) &&
  (match body.expires_in_hours with
    | some h => decide (1 ≤ h ∧ h ≤ 168)
    | none => true)

/-- Model of `Math.floor(validatedData.amount * 100000000)`: the floor of the product as a
double. The schema bounds the amount by 100000000, so the product does not overflow. -/
def amountSats (amount : ℚ) : Int := ⌊ExchangeRate.nearestDouble (amount * 100000000)⌋

/-- A number as a value: an integer as it is, another rational as a quotient, and `null`
for `NaN` and the infinities. -/
def numberValue : JsNumber → Value
  | JsNumber.fin q => if q.den = 1 then Value.num q.num else Value.quotient q.num q.den
  | _ => Value.null

/-- The JSON body the create route answers with; `secret` is the text
`generateClientSecret()` returned. -/
def createResponse (secret : String) (amount : ℚ) (amountUsd : JsNumber)
    (paymentIntent : Row) : Option Row :=
  match paymentIntent.get "created_at", paymentIntent.get "expires_at" with
  | Value.date created, Value.date expires =>
    some { cols :=
      [("id", paymentIntent.get "id"), ("object", Value.str "payment_intent"),
       ("amount", numberValue (JsNumber.fin amount)),
       ("amount_sats", Value.num (amountSats amount)),
       ("amount_usd",
          numberValue ((amountUsd.mul (JsNumber.fin 100)).round.div (JsNumber.fin 100))),
       ("currency", Value.str "btc"),
       ("status", paymentIntent.get "status"),
       ("description", paymentIntent.get "description"),
       ("metadata", paymentIntent.get "metadata"),
       ("created", Value.num (unixSeconds created)),
       ("expires_at", Value.num (unixSeconds expires)),
       ("client_secret", Value.str ((paymentIntent.get "id").text ++ "_secret_" ++ secret))] }
  | _, _ => none

/-- The handler of `POST /` for the authenticated `merchant`: the response and the state
after the request. The text `uuid` is the one `PaymentIntent.create` draws, `secret` the
one `generateClientSecret()` returns, and `btcToUsd` the price `getCurrentBTCPrice()`
resolves to (that lookup catches its own exceptions and writes only its own cache key,
which is not part of the state here). -/
def createRoute (uuid secret : String) (btcToUsd : JsNumber) (w : World) (merchant : Row)
    (body : CreateBody) : RouteResult × World :=
  if ¬ createPaymentIntentSchema body then
    (RouteResult.error 400 "invalid_request_error" "Invalid request parameters", w)
  else
    match body.amount with
    | JsNumber.fin amount =>
      let amountUsd := (JsNumber.fin amount).mul btcToUsd
      let createParams : PaymentIntent.CreateParams :=
        { merchant_id := (merchant.get "id").text,
          amount_sats := amountSats amount,
          amount_usd := numberValue amountUsd,
          description := body.description,
          metadata := body.metadata,
          expires_in_hours := body.expires_in_hours }
      match PaymentIntent.create uuid w createParams with
      | Except.error _ =>
        (RouteResult.error 500 "api_error" "Failed to create payment intent", w)
      | Except.ok (paymentIntent, w') =>
        match createResponse secret amount amountUsd paymentIntent with
        | some response => (RouteResult.json 201 response, w')
        | none => (RouteResult.error 500 "api_error" "Failed to create payment intent", w')
    | _ => (RouteResult.error 400 "invalid_request_error" "Invalid request parameters", w)

/-- A create request for one tenth of a satoshi: `0.000000001` BTC, which as a double is
`4835703278458517 / 2^82`. -/
def tinyAmountBody : CreateBody :=
  { amount := JsNumber.fin (4835703278458517 / 4835703278458516698824704), currency := none,
    description := none, metadata := none, expires_in_hours := none }

end PaymentRoutes
end StacksGate

namespace StacksGate

/-! ## Notification tasks and the retry sweep -/

namespace PaymentIntent

/-- The `setImmediate` callback of `updateStatus`, run to completion for the intent the
task holds; an exception inside is caught and logged. -/
def runNotifyTask (env : Env) (w : World) (task : NotifyTask) : World :=
  match Merchant.findById w (task.paymentIntent.get "merchant_id") with
  | some merchant =>
    if (merchant.get "webhook_url").falsy then w
    else
      let secret : Option String :=
        match merchant.get "webhook_secret" with
        | Value.str s => some s
        | _ => none
      match WebhookService.sendPaymentIntentWebhook env w task.paymentIntent
          (merchant.get "webhook_url").text secret with
      | some w' => w'
      | none => w
  | none => w

/-- The pending `setImmediate` callbacks run, in the order they were registered. -/
def runImmediates (env : Env) (w : World) : World :=
  w.immediates.foldl (runNotifyTask env) { w with immediates := [] }

end PaymentIntent

namespace SBTCService

/-- The merchant `m_1` with a webhook endpoint. -/
def hookMerchant : Row :=
  { cols := [("id", Value.str "m_1"), ("webhook_url", Value.str "https://merchant.example/hook"),
             ("webhook_secret", Value.str "whsec")] }

/-- A state with the intent `pi_1` in `processing`, its pending transaction, and a
merchant with a webhook endpoint. -/
def hookMonitorWorld : World :=
  { sampleMonitorWorld with merchants := [hookMerchant] }

/-- A chain result: confirmed, with six confirmations. -/
def confirmedStatus : TransactionStatus :=
  { txid := "0xabc", status := "confirmed", blockHeight := some 100, confirmations := some 6,
    error := none }

end SBTCService

namespace WebhookService

/-- A row of the result of the query of `retryFailedWebhooks`. -/
structure RetryRow where
  merchant_id : String
  payment_intent_id : Option String
  event_type : String
  webhook_url : Value
  webhook_secret : Value
deriving DecidableEq, Repr

/-- The conditions of the query on a row of `webhook_logs` stamped `created_at` by the
database: not delivered, an attempt number below the maximum, created within the last
24 hours. -/
def retryCandidate (w : World) (e : WebhookLogEntry) (created_at : Int) : Bool :=
  e.delivered = false ∧ e.attempt_number < MAX_RETRY_ATTEMPTS ∧
    created_at ≥ w.dateNow - 24 * 60 * 60 * 1000

/-- Model of `SELECT DISTINCT`: a row is kept where it first occurs. -/
def distinctRows : List RetryRow → List RetryRow
  | [] => []
  | r :: rest => r :: (distinctRows rest).filter (fun x => x ≠ r)

/-- The result rows a log row gives: one for each merchant it joins with whose
`webhook_url` is not `NULL`. -/
def joinMerchants (w : World) (e : WebhookLogEntry) : List RetryRow :=
  (w.merchants.filter (fun m =>
      m.get "id" = Value.str e.merchant_id ∧ m.get "webhook_url" ≠ Value.null)).map
    (fun m =>
      { merchant_id := e.merchant_id, payment_intent_id := e.payment_intent_id,
        event_type := e.event_type, webhook_url := m.get "webhook_url",
        webhook_secret := m.get "webhook_secret" })

/-- The rows the query of `retryFailedWebhooks` asks for. The column `created_at` of
`webhook_logs` is set by the database and is no field of the log rows here: the list
`created_at` gives it, one time for each row of the log, in order. The matching rows are
taken latest first, joined with the merchants, made distinct, and cut at 100. -/
def selectFailedWebhooks (w : World) (created_at : List Int) : List RetryRow :=
  let matching := (w.webhook_logs.zip created_at).filter (fun p => retryCandidate w p.1 p.2)
  let ordered := matching.insertionSort (fun a b => a.2 ≥ b.2)
  (distinctRows ((ordered.map (fun p => joinMerchants w p.1)).flatten)).take 100

/-- What the database checks of a `SELECT` statement before it runs it, as far as the
query of `retryFailedWebhooks` is concerned: whether it is a `SELECT DISTINCT`, the
expressions of its select list, and the expressions of its `ORDER BY`. -/
structure SelectStatement where
  distinct : Bool
  selectList : List String
  orderBy : List String
deriving DecidableEq, Repr

/-- The rule of PostgreSQL, the database the service talks to (`utils/database.js` opens a
`pg` pool): in a `SELECT DISTINCT` every `ORDER BY` expression must appear in the select
list; a statement that breaks the rule is rejected with error 42P10 and no row is read. -/
def SelectStatement.accepted (q : SelectStatement) : Bool :=
  !q.distinct || q.orderBy.all (fun e => e ∈ q.selectList)

/-- The statement of `retryFailedWebhooks`: five selected columns, made distinct, ordered
by `w.created_at`. -/
def retryStatement : SelectStatement :=
  { distinct := true,
    selectList := ["w.merchant_id", "w.payment_intent_id", "w.event_type", "m.webhook_url",
                   "m.webhook_secret"],
    orderBy := ["w.created_at"] }

/-- Model of `await query(sql, [this.MAX_RETRY_ATTEMPTS])` in `retryFailedWebhooks`: the rows, or the
exception of a rejected statement. -/
def queryFailedWebhooks (w : World) (created_at : List Int) : Except Failure (List RetryRow) :=
  if retryStatement.accepted then Except.ok (selectFailedWebhooks w created_at)
  else Except.error
    (Failure.sqlError "for SELECT DISTINCT, ORDER BY expressions must appear in select list")

/-- The event object `retryFailedWebhooks` builds for a result row. -/
def retryPayload (w : World) (row : RetryRow) : WebhookPayload :=
  { id := "evt_retry_" ++ intToString w.dateNow, type := row.event_type,
    created := unixSeconds w.dateNow,
    data := { cols :=
      [("id",
          match row.payment_intent_id with
          | some p => Value.str p
          | none => Value.null),
       ("message", Value.str "Webhook retry attempt")] } }

/-- The arguments of the `sendWebhook` call for a result row: no attempt number is
passed, so the attempt is 1. -/
def retryArgs (w : World) (row : RetryRow) : SendArgs :=
  { merchantId := row.merchant_id, webhookUrl := row.webhook_url.text,
    webhookSecret :=
      match row.webhook_secret with
      | Value.str s => some s
      | _ => none,
    payload := retryPayload w row, paymentIntentId := row.payment_intent_id,
    attemptNumber := 1 }

/-- The body of the loop of `retryFailedWebhooks` for one result row: the send, then the
pause of 100 ms (timers that fall due in the pause stay pending). -/
def retryOne (env : Env) (w : World) (row : RetryRow) : World :=
  let sent := (sendWebhook env w (retryArgs w row)).2
  { sent with dateNow := sent.dateNow + 100 }

/-- Model of `WebhookService.retryFailedWebhooks()`: the loop over the rows of the query; an
exception, the one of the query included, is caught and logged. -/
def retryFailedWebhooks (env : Env) (w : World) (created_at : List Int) : World :=
  match queryFailedWebhooks w created_at with
  | Except.error _ => w
  | Except.ok rows => rows.foldl (retryOne env) w

/-- The log row of an attempt for the event `payment_intent.succeeded` of `pi_1`. -/
def sampleAttempt (attempt_number : Int) (delivered : Bool) : WebhookLogEntry :=
  { merchant_id := "m_1", payment_intent_id := some "pi_1",
    event_type := "payment_intent.succeeded",
    webhook_url := "https://merchant.example/hook", request_payload := "event:evt_1",
    response_status := if delivered then 200 else 500,
    response_body := if delivered then "ok" else "error", delivered := delivered,
    attempt_number := attempt_number }

/-- A state whose log holds an event that failed at attempt 1 and was delivered at
attempt 2. -/
def deliveredOnRetryWorld : World :=
  { sampleWorld with
    merchants := [SBTCService.hookMerchant],
    webhook_logs := [sampleAttempt 1 false, sampleAttempt 2 true] }

/-- The times of the two rows of that log: six and five seconds before the clock. -/
def deliveredOnRetryTimes : List Int := [1699999994000, 1699999995000]

end WebhookService
end StacksGate

namespace StacksGate

/-! ## Lemmas on the JavaScript primitives -/

theorem splitChars_ne_nil (sep : Char) (cs : List Char) : splitChars sep cs ≠ [] := by
  induction cs with
  | nil => simp [splitChars]
  | cons c cs ih =>
    unfold splitChars
    split
    · simp
    · split <;> simp

theorem splitChars_of_not_mem (sep : Char) (a : List Char) (h : sep ∉ a) :
    splitChars sep a = [a] := by
  induction a with
  | nil => rfl
  | cons c cs ih =>
    have hc : c ≠ sep := fun e => h (by simp [e])
    have hcs : sep ∉ cs := fun e => h (by simp [e])
    simp [splitChars, hc, ih hcs]

theorem splitChars_append (sep : Char) (a b : List Char) (h : sep ∉ a) :
    splitChars sep (a ++ sep :: b) = a :: splitChars sep b := by
  induction a with
  | nil => simp [splitChars]
  | cons c cs ih =>
    have hc : c ≠ sep := fun e => h (by simp [e])
    have hcs : sep ∉ cs := fun e => h (by simp [e])
    simp [splitChars, hc, ih hcs]

theorem digitChar_toNat (d : Nat) (h : d < 10) : (digitChar d).toNat = 48 + d := by
  interval_cases d <;> rfl

theorem isDigit_digitChar (d : Nat) (h : d < 10) : IsDigit (digitChar d) := by
  unfold IsDigit
  rw [digitChar_toNat d h]
  omega

theorem digitsValue_append (radix : Nat) (ds : List Nat) (d : Nat) :
    digitsValue radix (ds ++ [d]) = digitsValue radix ds * radix + d := by
  simp [digitsValue, List.foldl_append]

theorem natToCharsAux_spec (fuel : Nat) : ∀ (n : Nat) (acc : List Char), n < fuel →
    ∃ pre, natToCharsAux fuel n acc = pre ++ acc ∧ pre ≠ [] ∧ (∀ c ∈ pre, IsDigit c) ∧
      digitsValue 10 (pre.map (fun c => c.toNat - 48)) = n := by
  induction fuel with
  | zero => intro n acc h; omega
  | succ fuel ih =>
    intro n acc h
    have hd : n % 10 < 10 := Nat.mod_lt _ (by decide)
    unfold natToCharsAux
    by_cases h0 : n / 10 = 0
    · refine ⟨[digitChar (n % 10)], by simp [h0], by simp, ?_, ?_⟩
      · intro c hc
        simp only [List.mem_singleton] at hc
        rw [hc]
        exact isDigit_digitChar _ hd
      · simp [digitsValue, digitChar_toNat _ hd]
        omega
    · have hlt : n / 10 < fuel := by omega
      obtain ⟨pre, hpre, _, hdig, hval⟩ := ih (n / 10) (digitChar (n % 10) :: acc) hlt
      refine ⟨pre ++ [digitChar (n % 10)], by simp [h0, hpre], by simp, ?_, ?_⟩
      · intro c hc
        rcases List.mem_append.mp hc with hc | hc
        · exact hdig c hc
        · simp only [List.mem_singleton] at hc
          rw [hc]
          exact isDigit_digitChar _ hd
      · rw [List.map_append, List.map_singleton, digitsValue_append, hval,
          digitChar_toNat _ hd]
        omega

theorem natToChars_spec (n : Nat) :
    natToChars n ≠ [] ∧ (∀ c ∈ natToChars n, IsDigit c) ∧
      digitsValue 10 ((natToChars n).map (fun c => c.toNat - 48)) = n := by
  obtain ⟨pre, hpre, hne, hdig, hval⟩ := natToCharsAux_spec (n + 1) n [] (by omega)
  have : natToChars n = pre := by simp [natToChars, hpre]
  rw [this]
  exact ⟨hne, hdig, hval⟩

theorem digitValue_of_isDigit (c : Char) (h : IsDigit c) :
    digitValue 10 c = some (c.toNat - 48) := by
  unfold IsDigit at h
  have h1 : c.toNat - 48 < 10 := by omega
  simp [digitValue, h.1, h.2, h1]

theorem takeDigits_of_isDigit (cs : List Char) (h : ∀ c ∈ cs, IsDigit c) :
    takeDigits 10 cs = cs.map (fun c => c.toNat - 48) := by
  induction cs with
  | nil => rfl
  | cons c cs ih =>
    have hc := h c (by simp)
    have hcs : ∀ d ∈ cs, IsDigit d := fun d hd => h d (by simp [hd])
    simp [takeDigits, digitValue_of_isDigit c hc, ih hcs]

theorem isStrWhiteSpace_of_isDigit (c : Char) (h : IsDigit c) : isStrWhiteSpace c = false := by
  unfold IsDigit at h
  simp [isStrWhiteSpace]
  omega

theorem ne_of_isDigit (c d : Char) (h : IsDigit c) (hd : ¬ IsDigit d) : c ≠ d :=
  fun e => hd (e ▸ h)

/-- On a nonempty string of decimal digits `parseInt` returns the number they write. -/
theorem parseIntChars_digits (s : List Char) (hne : s ≠ []) (hdig : ∀ c ∈ s, IsDigit c) :
    parseIntChars s = Num.int (digitsValue 10 (s.map (fun c => c.toNat - 48)) : Nat) := by
  obtain ⟨c, cs, hcs⟩ := List.exists_cons_of_ne_nil hne
  have hc : IsDigit c := hdig c (by simp [hcs])
  have hws : s.dropWhile isStrWhiteSpace = s := by
    rw [hcs]; simp [List.dropWhile, isStrWhiteSpace_of_isDigit c hc]
  have hminus : c ≠ '-' := ne_of_isDigit c _ hc (by decide)
  have hplus : c ≠ '+' := ne_of_isDigit c _ hc (by decide)
  have hx : ∀ y : Char, ¬ IsDigit y → s.take 2 ≠ ['0', y] := by
    intro y hy e
    have : y ∈ s.take 2 := by rw [e]; simp
    exact hy (hdig y (List.mem_of_mem_take this))
  have hx1 := hx 'x' (by decide)
  have hx2 := hx 'X' (by decide)
  have hhead : s.head? = some c := by rw [hcs]; rfl
  unfold parseIntChars
  simp only [hws, hhead]
  simp [hminus, hplus, hx1, hx2, hne, takeDigits_of_isDigit _ hdig]

/-- A minus sign in front of a nonempty string of decimal digits negates the value. -/
theorem parseIntChars_neg_digits (s : List Char) (hne : s ≠ []) (hdig : ∀ c ∈ s, IsDigit c) :
    parseIntChars ('-' :: s) =
      Num.int (-((digitsValue 10 (s.map (fun c => c.toNat - 48)) : Nat) : Int)) := by
  have hx : ∀ y : Char, ¬ IsDigit y → s.take 2 ≠ ['0', y] := by
    intro y hy e
    have : y ∈ s.take 2 := by rw [e]; simp
    exact hy (hdig y (List.mem_of_mem_take this))
  have hx1 := hx 'x' (by decide)
  have hx2 := hx 'X' (by decide)
  have hws : ('-' :: s).dropWhile isStrWhiteSpace = '-' :: s := by
    have : isStrWhiteSpace '-' = false := by decide
    simp [List.dropWhile, this]
  unfold parseIntChars
  simp only [hws]
  simp [hx1, hx2, hne, takeDigits_of_isDigit _ hdig]

/-- Parsing the decimal form of an integer gives the integer back. -/
theorem parseIntChars_intToChars (t : Int) : parseIntChars (intToChars t) = Num.int t := by
  obtain ⟨hne, hdig, hval⟩ := natToChars_spec t.natAbs
  unfold intToChars
  split
  · rw [parseIntChars_neg_digits _ hne hdig, hval]
    congr 1
    omega
  · rw [parseIntChars_digits _ hne hdig, hval]
    congr 1
    omega

/-- No character of the decimal form of an integer is a separator of the header. -/
theorem intToChars_sep (t : Int) (c : Char) (hc : c ∈ intToChars t) : c = '-' ∨ IsDigit c := by
  obtain ⟨_, hdig, _⟩ := natToChars_spec t.natAbs
  unfold intToChars at hc
  split at hc
  · rcases List.mem_cons.mp hc with h | h
    · exact Or.inl h
    · exact Or.inr (hdig c h)
  · exact Or.inr (hdig c hc)

theorem intToChars_ne_nil (t : Int) : intToChars t ≠ [] := by
  obtain ⟨hne, _, _⟩ := natToChars_spec t.natAbs
  unfold intToChars
  split
  · simp
  · exact hne

end StacksGate

namespace StacksGate

theorem hexChars_not_sep (c : Char) (hc : c ∈ hexChars) : c ≠ ',' ∧ c ≠ '=' ∧ c.toNat < 128 := by
  have h : ∀ d ∈ hexChars, d ≠ ',' ∧ d ≠ '=' ∧ d.toNat < 128 := by decide
  exact h c hc

theorem jsSplit_data (s : String) (sep : Char) :
    jsSplit s sep = (splitChars sep s.data).map String.mk := rfl

namespace WebhookService

theorem generateSignature_data (H : Crypto) (body secret : String) (t : Int) :
    (generateSignature H body secret t).data =
      ('t' :: '=' :: intToChars t) ++ ',' ::
        ('v' :: '1' :: '=' :: (H.hmacSha256Hex secret (intToString t ++ "." ++ body)).data) := by
  simp [generateSignature, intToString, String.data_append]

theorem parseElement_t (acc : HeaderFields) (t : Int) :
    parseElement acc (String.mk ('t' :: '=' :: intToChars t)) =
      { acc with timestamp := some (Num.int t) } := by
  have hsep : '=' ∉ intToChars t := by
    intro h
    rcases intToChars_sep t _ h with h | h
    · exact absurd h (by decide)
    · exact absurd h (by decide)
  have hsplit : splitChars '=' ('t' :: '=' :: intToChars t) = [['t'], intToChars t] := by
    have := splitChars_append '=' ['t'] (intToChars t) (by decide)
    rw [splitChars_of_not_mem _ _ hsep] at this
    simpa using this
  have hk : String.mk ['t'] = "t" := rfl
  simp [parseElement, jsSplit_data, hsplit, hk, parseInt, parseIntChars_intToChars]

theorem parseElement_v1 (acc : HeaderFields) (hex : String)
    (hhex : ∀ c ∈ hex.data, c ∈ hexChars) :
    parseElement acc (String.mk ('v' :: '1' :: '=' :: hex.data)) =
      { acc with hash := some hex } := by
  have hsep : '=' ∉ hex.data := fun h => (hexChars_not_sep _ (hhex _ h)).2.1 rfl
  have hsplit : splitChars '=' ('v' :: '1' :: '=' :: hex.data) = [['v', '1'], hex.data] := by
    have := splitChars_append '=' ['v', '1'] hex.data (by decide)
    rw [splitChars_of_not_mem _ _ hsep] at this
    simpa using this
  have hk : String.mk ['v', '1'] = "v1" := rfl
  have hne : ("v1" : String) ≠ "t" := by decide
  simp [parseElement, jsSplit_data, hsplit, hk, hne]

/-- The header built by `generateSignature` parses back to its timestamp and digest. -/
theorem parseHeader_generateSignature (H : Crypto) (body secret : String) (t : Int) :
    parseHeader (generateSignature H body secret t) =
      { timestamp := some (Num.int t),
        hash := some (H.hmacSha256Hex secret (intToString t ++ "." ++ body)) } := by
  have h1 : ',' ∉ ('t' :: '=' :: intToChars t) := by
    intro h
    simp only [List.mem_cons] at h
    rcases h with h | h | h
    · exact absurd h (by decide)
    · exact absurd h (by decide)
    · rcases intToChars_sep t _ h with h | h
      · exact absurd h (by decide)
      · exact absurd h (by decide)
  have hhex := H.hex_chars secret (intToString t ++ "." ++ body)
  have h2 : ',' ∉ ('v' :: '1' :: '=' ::
      (H.hmacSha256Hex secret (intToString t ++ "." ++ body)).data) := by
    intro h
    simp only [List.mem_cons] at h
    rcases h with h | h | h | h
    · exact absurd h (by decide)
    · exact absurd h (by decide)
    · exact absurd h (by decide)
    · exact (hexChars_not_sep _ (hhex _ h)).1 rfl
  unfold parseHeader
  rw [jsSplit_data, generateSignature_data, splitChars_append _ _ _ h1,
    splitChars_of_not_mem _ _ h2]
  simp only [List.map_cons, List.map_nil, List.foldl_cons, List.foldl_nil]
  rw [parseElement_t, parseElement_v1 _ _ hhex]

end WebhookService
end StacksGate

namespace StacksGate

theorem char_eq_of_toNat_eq (a b : Char) (h : a.toNat = b.toNat) : a = b := by
  apply Char.ext
  apply UInt32.ext
  exact h

theorem utf8Bytes_ascii (c : Char) (h : c.toNat < 128) : utf8Bytes c = [c.toNat] := by
  simp [utf8Bytes, h]

theorem utf8Bytes_non_ascii (c : Char) (h : ¬ c.toNat < 128) :
    ∃ b bs, utf8Bytes c = b :: bs ∧ 128 ≤ b := by
  unfold utf8Bytes
  simp only [h, ↓reduceIte]
  split
  · exact ⟨_, _, rfl, by omega⟩
  · split
    · exact ⟨_, _, rfl, by omega⟩
    · exact ⟨_, _, rfl, by omega⟩

/-- A string with the same UTF-8 bytes as an ASCII string is that string. -/
theorem flatMap_utf8Bytes_inj : ∀ (hs es : List Char), (∀ c ∈ es, c.toNat < 128) →
    hs.flatMap utf8Bytes = es.flatMap utf8Bytes → hs = es := by
  intro hs
  induction hs with
  | nil =>
    intro es hes h
    cases es with
    | nil => rfl
    | cons c cs =>
      rw [List.flatMap_cons, utf8Bytes_ascii c (hes c (by simp))] at h
      simp at h
  | cons x xs ih =>
    intro es hes h
    cases es with
    | nil =>
      by_cases hx : x.toNat < 128
      · rw [List.flatMap_cons, utf8Bytes_ascii x hx] at h
        simp at h
      · obtain ⟨b, bs, hb, _⟩ := utf8Bytes_non_ascii x hx
        rw [List.flatMap_cons, hb] at h
        simp at h
    | cons c cs =>
      have hc := hes c (by simp)
      have hcs : ∀ d ∈ cs, d.toNat < 128 := fun d hd => hes d (by simp [hd])
      rw [List.flatMap_cons, List.flatMap_cons, utf8Bytes_ascii c hc] at h
      by_cases hx : x.toNat < 128
      · rw [utf8Bytes_ascii x hx] at h
        simp only [List.singleton_append, List.cons.injEq] at h
        rw [char_eq_of_toNat_eq x c h.1, ih cs hcs h.2]
      · obtain ⟨b, bs, hb, hge⟩ := utf8Bytes_non_ascii x hx
        rw [hb] at h
        simp only [List.cons_append, List.singleton_append, List.cons.injEq] at h
        omega

theorem bufferFrom_inj_of_hex (h e : String) (he : ∀ c ∈ e.data, c ∈ hexChars)
    (hb : bufferFrom h = bufferFrom e) : h = e := by
  have := flatMap_utf8Bytes_inj h.data e.data
    (fun c hc => (hexChars_not_sep c (he c hc)).2.2) hb
  exact String.ext this

namespace WebhookService

/-- Comparing a candidate with a hex digest: equal strings give `true`, and every other
outcome (a length error included) is not `true`. -/
theorem timingSafeEqual_hex (h e : String) (he : ∀ c ∈ e.data, c ∈ hexChars) (hne : h ≠ e) :
    timingSafeEqual (bufferFrom h) (bufferFrom e) ≠ Except.ok true := by
  unfold timingSafeEqual
  split
  · simp
  · have : bufferFrom h ≠ bufferFrom e := fun hb => hne (bufferFrom_inj_of_hex h e he hb)
    simp [this]

theorem timingSafeEqual_self (a : List Nat) : timingSafeEqual a a = Except.ok true := by
  simp [timingSafeEqual]

/-- The function `verifySignature` is `true` only when the `try` block returns `true`. -/
theorem verifySignature_eq_false_of_try (H : Crypto) (dateNow : Int)
    (body signature secret : String) (tolerance : Int)
    (h : verifySignatureTry H dateNow body signature secret tolerance ≠ Except.ok true) :
    verifySignature H dateNow body signature secret tolerance = false := by
  unfold verifySignature
  split
  · next b hb =>
    cases b with
    | false => rfl
    | true => exact absurd hb h
  · rfl

end WebhookService
end StacksGate

namespace StacksGate
namespace WebhookService

/-- C3: on every clock that stands at least 301 seconds after the epoch, for every body,
every secret and every integer timestamp `t` within 300 seconds of the clock, the
signature made by `generateSignature` verifies with tolerance 300. -/
theorem verifySignature_generateSignature (H : Crypto) (dateNow : Int)
    (body secret : String) (t : Int) (hclock : 301000 ≤ dateNow)
    (htol : |unixSeconds dateNow - t| ≤ 300) :
    verifySignature H dateNow body (generateSignature H body secret t) secret 300 = true := by
  have hnow : 301 ≤ unixSeconds dateNow := by
    unfold unixSeconds
    rw [Int.fdiv_eq_ediv _ (by decide : (0 : Int) ≤ 1000)]
    omega
  have ht : t ≠ 0 := by
    intro h0
    rw [h0, sub_zero, abs_le] at htol
    omega
  have hlen := H.hex_length secret (intToString t ++ "." ++ body)
  have hne : H.hmacSha256Hex secret (intToString t ++ "." ++ body) ≠ "" := by
    intro h
    rw [h] at hlen
    simp at hlen
  have htol' : ¬ |unixSeconds dateNow - t| > 300 := by omega
  simp [verifySignature, verifySignatureTry, parseHeader_generateSignature, ht, hne, htol',
    timingSafeEqual_self]

/-- C3, witness: the clock at 1700000100 s and a signature stamped 1700000000. -/
theorem verifySignature_generateSignature_witness :
    verifySignature sampleCrypto 1700000100000 "body"
      (generateSignature sampleCrypto "body" "whsec" 1700000000) "whsec" 300 = true :=
  verifySignature_generateSignature sampleCrypto 1700000100000 "body" "whsec" 1700000000
    (by decide) (by decide)

/-- The clocks left out above: within 300 seconds of the epoch the timestamp 0 is inside
the tolerance, and the test `!timestamp` takes the number 0 for a missing timestamp. -/
theorem verifySignature_zero_timestamp_rejected :
    |unixSeconds 0 - 0| ≤ 300 ∧
      verifySignature sampleCrypto 0 "body"
        (generateSignature sampleCrypto "body" "whsec" 0) "whsec" 300 = false := by
  decide

/-- C4: a signature made for `body` does not verify for a body whose HMAC under the same
secret and timestamp differs, whatever the clock and the tolerance. -/
theorem verifySignature_tampered_body (H : Crypto) (dateNow : Int)
    (body body' secret : String) (t tolerance : Int)
    (hmac : H.hmacSha256Hex secret (intToString t ++ "." ++ body') ≠
      H.hmacSha256Hex secret (intToString t ++ "." ++ body)) :
    verifySignature H dateNow body' (generateSignature H body secret t) secret tolerance
      = false := by
  apply verifySignature_eq_false_of_try
  have hcmp := timingSafeEqual_hex (H.hmacSha256Hex secret (intToString t ++ "." ++ body))
    (H.hmacSha256Hex secret (intToString t ++ "." ++ body'))
    (H.hex_chars secret (intToString t ++ "." ++ body')) (Ne.symm hmac)
  simp only [verifySignatureTry, parseHeader_generateSignature]
  split_ifs <;> simp [hcmp]

/-- C4, witness: a body altered after signing, inside the tolerance window. -/
theorem verifySignature_tampered_body_witness :
    verifySignature sampleCrypto 1700000100000 "amount=2"
      (generateSignature sampleCrypto "amount=10" "whsec" 1700000000) "whsec" 300
      = false :=
  verifySignature_tampered_body sampleCrypto 1700000100000 "amount=10" "amount=2"
    "whsec" 1700000000 300 (by decide)

/-- C5: a header whose timestamp `t` is further than the tolerance from the verifier's
clock is rejected, also when it is the header `generateSignature` makes for the same body
and secret, whose `v1` field is the correct HMAC. -/
theorem verifySignature_outside_tolerance (H : Crypto) (dateNow : Int)
    (body secret : String) (t tolerance : Int)
    (hold : |unixSeconds dateNow - t| > tolerance) :
    verifySignature H dateNow body (generateSignature H body secret t) secret tolerance
        = false ∧
      ∀ signature : String, (parseHeader signature).timestamp = some (Num.int t) →
        verifySignature H dateNow body signature secret tolerance = false := by
  constructor
  · apply verifySignature_eq_false_of_try
    simp only [verifySignatureTry, parseHeader_generateSignature]
    split_ifs <;> simp
  · intro signature hts
    apply verifySignature_eq_false_of_try
    simp only [verifySignatureTry, hts]
    split
    · next t' hash' h1 h2 =>
      have : t' = t := by
        have := Option.some.inj h1
        exact (Num.int.inj this).symm ▸ rfl
      subst this
      split_ifs <;> simp
    · simp

/-- C5, witness: tolerance 300 and a timestamp 301 seconds old. -/
theorem verifySignature_outside_tolerance_witness :
    verifySignature sampleCrypto 1700000301000 "body"
      (generateSignature sampleCrypto "body" "whsec" 1700000000) "whsec" 300 = false :=
  (verifySignature_outside_tolerance sampleCrypto 1700000301000 "body" "whsec" 1700000000 300
    (by decide)).1

end WebhookService
end StacksGate

namespace StacksGate
namespace WebhookService

theorem parseElement_timestamp_of_not_t (acc : HeaderFields) (element : String)
    (h : (jsSplit element '=').head? ≠ some "t") :
    (parseElement acc element).timestamp = acc.timestamp := by
  unfold parseElement
  simp only [h, ↓reduceIte]
  split <;> rfl

theorem parseElement_hash_of_not_v1 (acc : HeaderFields) (element : String)
    (h : (jsSplit element '=').head? ≠ some "v1") :
    (parseElement acc element).hash = acc.hash := by
  unfold parseElement
  simp only [h, ↓reduceIte]
  split <;> rfl

theorem foldl_parseElement_timestamp (elements : List String) :
    ∀ acc : HeaderFields, (∀ e ∈ elements, (jsSplit e '=').head? ≠ some "t") →
      (elements.foldl parseElement acc).timestamp = acc.timestamp := by
  induction elements with
  | nil => intro acc _; rfl
  | cons e es ih =>
    intro acc h
    rw [List.foldl_cons, ih _ (fun x hx => h x (by simp [hx])),
      parseElement_timestamp_of_not_t _ _ (h e (by simp))]

theorem foldl_parseElement_hash (elements : List String) :
    ∀ acc : HeaderFields, (∀ e ∈ elements, (jsSplit e '=').head? ≠ some "v1") →
      (elements.foldl parseElement acc).hash = acc.hash := by
  induction elements with
  | nil => intro acc _; rfl
  | cons e es ih =>
    intro acc h
    rw [List.foldl_cons, ih _ (fun x hx => h x (by simp [hx])),
      parseElement_hash_of_not_v1 _ _ (h e (by simp))]

/-- With no `t=` pair in the header the variable `timestamp` stays `undefined`. -/
theorem parseHeader_timestamp_of_noPair (signature : String) (h : NoPair signature "t") :
    (parseHeader signature).timestamp = none :=
  foldl_parseElement_timestamp _ _ h

/-- With no `v1=` pair in the header the variable `hash` stays `undefined`. -/
theorem parseHeader_hash_of_noPair (signature : String) (h : NoPair signature "v1") :
    (parseHeader signature).hash = none :=
  foldl_parseElement_hash _ _ h

/-- C6 (as amended): `verifySignature` is a total function to `Bool` (an exception of the
`try` block becomes `false`), and it returns `false` for every header that has no `t=`
pair, has no `v1=` pair, has a timestamp in which `parseInt` finds no number (`NaN`), or
has a `v1` value whose length is not the 64 characters of the expected hex digest. -/
theorem verifySignature_malformed (H : Crypto) (dateNow : Int)
    (body signature secret : String) (tolerance : Int)
    (h : NoPair signature "t" ∨ NoPair signature "v1" ∨
      (parseHeader signature).timestamp = some Num.nan ∨
      ∃ hash, (parseHeader signature).hash = some hash ∧ hash.length ≠ 64) :
    verifySignature H dateNow body signature secret tolerance = false := by
  apply verifySignature_eq_false_of_try
  rcases h with h | h | h | ⟨hash, hh, hlen⟩
  · simp [verifySignatureTry, parseHeader_timestamp_of_noPair _ h]
  · simp only [verifySignatureTry, parseHeader_hash_of_noPair _ h]
    split <;> simp_all
  · simp [verifySignatureTry, h]
  · simp only [verifySignatureTry, hh]
    split
    · next t hash' h1 h2 =>
      have hhash : hash' = hash := (Option.some.inj h2).symm
      subst hhash
      have hne : hash' ≠ H.hmacSha256Hex secret (intToString t ++ "." ++ body) := by
        intro e
        apply hlen
        rw [e]
        exact H.hex_length _ _
      have hcmp := timingSafeEqual_hex hash' _ (H.hex_chars secret
        (intToString t ++ "." ++ body)) hne
      split_ifs <;> simp [hcmp]
    · simp

/-- C6, witness: a header inside the tolerance window whose `v1` value is too short; the
comparison raises its length error, which the `catch` block turns into `false`. -/
theorem verifySignature_malformed_witness :
    verifySignatureTry sampleCrypto 1700000100000 "body" "t=1700000000,v1=abc" "whsec" 300
        = Except.error "Input buffers must have the same byte length" ∧
      verifySignature sampleCrypto 1700000100000 "body" "t=1700000000,v1=abc" "whsec" 300
        = false :=
  ⟨by rfl, verifySignature_malformed sampleCrypto 1700000100000 "body"
    "t=1700000000,v1=abc" "whsec" 300 (Or.inr (Or.inr (Or.inr ⟨"abc", by decide, by decide⟩)))⟩

/-- C6, counterexample: the timestamp `1700000000abc` is not a number, yet `parseInt`
reads it as 1700000000, and the header, carrying the digest for that number, verifies. -/
theorem verifySignature_timestamp_with_trailing_text :
    (parseHeader ("t=1700000000abc,v1=" ++
        sampleCrypto.hmacSha256Hex "whsec" "1700000000.body")).timestamp =
        some (Num.int 1700000000) ∧
      verifySignature sampleCrypto 1700000100000 "body"
        ("t=1700000000abc,v1=" ++ sampleCrypto.hmacSha256Hex "whsec" "1700000000.body")
        "whsec" 300 = true := by
  decide

/-- C7: `generateSignature(body, secret, timestamp)` is the string
`t={timestamp},v1={hex HMAC-SHA256 of "{timestamp}.{body}" under secret}` of the
specification, and equal arguments give equal signatures. -/
theorem generateSignature_eq_spec (H : Crypto) (body secret : String) (timestamp : Int) :
    generateSignature H body secret timestamp = signPayloadSpec H body secret timestamp ∧
      generateSignature H body secret timestamp =
        "t=" ++ intToString timestamp ++ ",v1=" ++
          H.hmacSha256Hex secret (intToString timestamp ++ "." ++ body) ∧
      ∀ (body' secret' : String) (timestamp' : Int),
        (body', secret', timestamp') = (body, secret, timestamp) →
        generateSignature H body' secret' timestamp' =
          generateSignature H body secret timestamp := by
  refine ⟨?_, rfl, ?_⟩
  · simp [generateSignature, signPayloadSpec, String.join, String.append_assoc]
  · intro body' secret' timestamp' h
    cases h
    rfl

/-- C7, witness: the signature of a concrete body, written out. -/
theorem generateSignature_eq_spec_witness :
    generateSignature sampleCrypto "body" "whsec" 1700000000 =
      "t=1700000000,v1=" ++ String.mk (List.replicate 64 '2') :=
  ((generateSignature_eq_spec sampleCrypto "body" "whsec" 1700000000).2.1).trans (by decide)

end WebhookService
end StacksGate

namespace StacksGate
namespace WebhookService

theorem fetch_of_status (r : FetchResult) (s : Int) (h : r.status? = some s) :
    ∃ text, r = FetchResult.response s text := by
  cases r with
  | response status text =>
    simp only [FetchResult.status?, Option.some.injEq] at h
    exact ⟨text, by rw [h]⟩
  | failure message => simp [FetchResult.status?] at h

theorem webhookRequest_url (env : Env) (w : World) (a : SendArgs) :
    (webhookRequest env w a).url = a.webhookUrl := rfl

theorem sendWebhook_response (env : Env) (w : World) (a : SendArgs) (status : Int)
    (text : String) (h : env.fetch (webhookRequest env w a) = FetchResult.response status text) :
    sendWebhook env w a =
      if 200 ≤ status ∧ status < 300 then
        (true, logWebhookAttempt w (responseEntry env a status text))
      else if a.attemptNumber < 3 then
        (false, scheduleRetry (logWebhookAttempt w (responseEntry env a status text))
          (jsIndex RETRY_DELAYS (a.attemptNumber - 1)) a)
      else (false, logWebhookAttempt w (responseEntry env a status text)) := by
  unfold sendWebhook
  rw [h]
  simp only [responseEntry, MAX_RETRY_ATTEMPTS, decide_eq_true_eq]

theorem sendWebhook_failure (env : Env) (w : World) (a : SendArgs) (message : String)
    (h : env.fetch (webhookRequest env w a) = FetchResult.failure message) :
    sendWebhook env w a =
      if a.attemptNumber < 3 then
        (false, scheduleRetry (logWebhookAttempt w (failureEntry env a message))
          (jsIndex RETRY_DELAYS (a.attemptNumber - 1)) a)
      else (false, logWebhookAttempt w (failureEntry env a message)) := by
  unfold sendWebhook
  rw [h]
  simp only [failureEntry, MAX_RETRY_ATTEMPTS]

theorem runTimers_idle (env : Env) (fuel : Nat) (w : World) (h : w.timers = []) :
    runTimers env fuel w = w := by
  cases fuel with
  | zero => rfl
  | succ n => simp [runTimers, fireNextTimer, h, earliestTimer]

/-- One failed attempt below the cap, started with no other timer pending, followed by
the firing of the retry timer it sets. -/
theorem fireNextTimer_after_failed (env : Env) (w : World) (a : SendArgs) (e : WebhookLogEntry)
    (delay : Option Int) (h : w.timers = []) :
    fireNextTimer env (scheduleRetry (logWebhookAttempt w e) delay a) =
      some (sendWebhook env
        { w with
          webhook_logs := w.webhook_logs ++ [e], timers := [],
          dateNow := max w.dateNow (w.dateNow + max 1 (delay.getD 1)) }
        { a with attemptNumber := a.attemptNumber + 1 }).2 := by
  simp [fireNextTimer, scheduleRetry, logWebhookAttempt, h, earliestTimer, timerDue]

end WebhookService
end StacksGate

namespace StacksGate
namespace WebhookService

/-- A failed attempt below the cap against an endpoint answering 500, with no other timer
pending: the row it logs, and the next attempt that runs when its retry timer fires. -/
theorem sendWebhook_500_retry (env : Env) (w : World) (a : SendArgs)
    (h500 : ∀ req : Request, req.url = a.webhookUrl → (env.fetch req).status? = some 500)
    (hidle : w.timers = []) (hn : a.attemptNumber < 3) :
    ∃ (e : WebhookLogEntry) (w' : World),
      (sendWebhook env w a).1 = false ∧
      fireNextTimer env (sendWebhook env w a).2 =
        some (sendWebhook env w' { a with attemptNumber := a.attemptNumber + 1 }).2 ∧
      w'.timers = [] ∧ w'.webhook_logs = w.webhook_logs ++ [e] ∧
      e.attempt_number = a.attemptNumber ∧ e.response_status = 500 ∧ e.delivered = false := by
  obtain ⟨text, ht⟩ := fetch_of_status _ 500 (h500 (webhookRequest env w a) rfl)
  have hs := sendWebhook_response env w a 500 text ht
  simp only [show ¬ ((200 : Int) ≤ 500 ∧ (500 : Int) < 300) by decide, hn, ↓reduceIte] at hs
  refine ⟨responseEntry env a 500 text,
    { w with
      webhook_logs := w.webhook_logs ++ [responseEntry env a 500 text], timers := [],
      dateNow := max w.dateNow
        (w.dateNow + max 1 ((jsIndex RETRY_DELAYS (a.attemptNumber - 1)).getD 1)) },
    by rw [hs], ?_, ?_, ?_, rfl, rfl, rfl⟩
  · rw [hs]
    exact fireNextTimer_after_failed env w a _ _ hidle
  · rfl
  · rfl

/-- A failed attempt at the cap: one row is logged and nothing is scheduled. -/
theorem sendWebhook_500_last (env : Env) (w : World) (a : SendArgs)
    (h500 : ∀ req : Request, req.url = a.webhookUrl → (env.fetch req).status? = some 500)
    (hn : ¬ a.attemptNumber < 3) :
    ∃ e : WebhookLogEntry,
      sendWebhook env w a = (false, logWebhookAttempt w e) ∧
      e.attempt_number = a.attemptNumber ∧ e.response_status = 500 ∧ e.delivered = false := by
  obtain ⟨text, ht⟩ := fetch_of_status _ 500 (h500 (webhookRequest env w a) rfl)
  have hs := sendWebhook_response env w a 500 text ht
  simp only [show ¬ ((200 : Int) ≤ 500 ∧ (500 : Int) < 300) by decide, hn, ↓reduceIte] at hs
  exact ⟨responseEntry env a 500 text, hs, rfl, rfl, rfl⟩

/-- C8: a `sendWebhook` call at attempt 1, made while no other timer is pending, against
an endpoint that answers HTTP 500 to every request returns `false`, and the retry chain it
starts appends exactly three log rows, with attempt numbers 1, 2 and 3, status 500 and
`delivered = false`; after the third the timer queue is empty, however long it is run. -/
theorem sendWebhook_retry_chain_500 (env : Env) (w : World) (a : SendArgs) (extra : Nat)
    (hidle : w.timers = []) (hfirst : a.attemptNumber = 1)
    (h500 : ∀ req : Request, req.url = a.webhookUrl → (env.fetch req).status? = some 500) :
    (sendWebhook env w a).1 = false ∧
      ∃ e1 e2 e3 : WebhookLogEntry,
        (runTimers env (2 + extra) (sendWebhook env w a).2).webhook_logs =
          w.webhook_logs ++ [e1, e2, e3] ∧
        [e1.attempt_number, e2.attempt_number, e3.attempt_number] = [1, 2, 3] ∧
        [e1.response_status, e2.response_status, e3.response_status] = [500, 500, 500] ∧
        [e1.delivered, e2.delivered, e3.delivered] = [false, false, false] ∧
        (runTimers env (2 + extra) (sendWebhook env w a).2).timers = [] := by
  obtain ⟨e1, w2, hr1, hf1, hi2, hl2, hn1, hst1, hd1⟩ :=
    sendWebhook_500_retry env w a h500 hidle (by rw [hfirst]; decide)
  obtain ⟨e2, w3, _, hf2, hi3, hl3, hn2, hst2, hd2⟩ :=
    sendWebhook_500_retry env w2 { a with attemptNumber := a.attemptNumber + 1 } h500 hi2
      (by simp only [hfirst]; decide)
  obtain ⟨e3, hs3, hn3, hst3, hd3⟩ :=
    sendWebhook_500_last env w3
      { a with attemptNumber := a.attemptNumber + 1 + 1 } h500
      (by simp only [hfirst]; decide)
  have hrun : runTimers env (2 + extra) (sendWebhook env w a).2 = logWebhookAttempt w3 e3 := by
    rw [show 2 + extra = (extra + 1) + 1 by omega]
    simp only [runTimers, hf1, hf2]
    rw [hs3]
    exact runTimers_idle env extra _ hi3
  refine ⟨hr1, e1, e2, e3, ?_, ?_, ?_, ?_, ?_⟩
  · rw [hrun]
    simp [logWebhookAttempt, hl3, hl2]
  · simp [hn1, hn2, hn3, hfirst]
  · simp [hst1, hst2, hst3]
  · simp [hd1, hd2, hd3]
  · rw [hrun]
    exact hi3

end WebhookService
end StacksGate

namespace StacksGate
namespace WebhookService

/-- C8, witness: the chain against an endpoint that always answers 500. -/
theorem sendWebhook_retry_chain_500_witness :
    (sendWebhook (sampleEnv (FetchResult.response 500 "error")) sampleWorld (sampleSend 1)).1
        = false ∧
      ∃ e1 e2 e3 : WebhookLogEntry,
        (runTimers (sampleEnv (FetchResult.response 500 "error")) (2 + 5)
          (sendWebhook (sampleEnv (FetchResult.response 500 "error")) sampleWorld
            (sampleSend 1)).2).webhook_logs = sampleWorld.webhook_logs ++ [e1, e2, e3] ∧
        [e1.attempt_number, e2.attempt_number, e3.attempt_number] = [1, 2, 3] ∧
        [e1.response_status, e2.response_status, e3.response_status] = [500, 500, 500] ∧
        [e1.delivered, e2.delivered, e3.delivered] = [false, false, false] ∧
        (runTimers (sampleEnv (FetchResult.response 500 "error")) (2 + 5)
          (sendWebhook (sampleEnv (FetchResult.response 500 "error")) sampleWorld
            (sampleSend 1)).2).timers = [] :=
  sendWebhook_retry_chain_500 (sampleEnv (FetchResult.response 500 "error")) sampleWorld
    (sampleSend 1) 5 rfl rfl (fun _ _ => rfl)

/-- C9: a `sendWebhook` call at attempt 1 that gets a response with status `s` appends
exactly one log row, with attempt number 1 and status `s`; when `200 ≤ s < 300` it returns
`true`, the row has `delivered = true` and no timer is set; for every other status it
returns `false` and the row has `delivered = false`. -/
theorem sendWebhook_first_response (env : Env) (w : World) (a : SendArgs) (s : Int)
    (text : String) (hfirst : a.attemptNumber = 1)
    (hresp : env.fetch (webhookRequest env w a) = FetchResult.response s text) :
    ∃ e : WebhookLogEntry,
      (sendWebhook env w a).2.webhook_logs = w.webhook_logs ++ [e] ∧
      e.attempt_number = 1 ∧ e.response_status = s ∧
      (200 ≤ s ∧ s < 300 →
        (sendWebhook env w a).1 = true ∧ e.delivered = true ∧
          (sendWebhook env w a).2.timers = w.timers) ∧
      (¬ (200 ≤ s ∧ s < 300) →
        (sendWebhook env w a).1 = false ∧ e.delivered = false) := by
  have hs := sendWebhook_response env w a s text hresp
  refine ⟨responseEntry env a s text, ?_, hfirst, rfl, ?_, ?_⟩
  · rw [hs]
    split_ifs <;> simp [logWebhookAttempt, scheduleRetry]
  · intro h2xx
    rw [hs]
    simp [h2xx, responseEntry, logWebhookAttempt]
  · intro hnot
    rw [hs]
    simp only [hnot, ↓reduceIte]
    refine ⟨by split_ifs <;> rfl, ?_⟩
    simp [responseEntry, hnot]

/-- C9, witness: an endpoint answering 200 on the first attempt. -/
theorem sendWebhook_first_response_witness :
    ∃ e : WebhookLogEntry,
      (sendWebhook (sampleEnv (FetchResult.response 200 "ok")) sampleWorld
        (sampleSend 1)).2.webhook_logs = sampleWorld.webhook_logs ++ [e] ∧
      e.attempt_number = 1 ∧ e.response_status = 200 ∧
      (200 ≤ (200 : Int) ∧ (200 : Int) < 300 →
        (sendWebhook (sampleEnv (FetchResult.response 200 "ok")) sampleWorld (sampleSend 1)).1
            = true ∧ e.delivered = true ∧
          (sendWebhook (sampleEnv (FetchResult.response 200 "ok")) sampleWorld
            (sampleSend 1)).2.timers = sampleWorld.timers) ∧
      (¬ (200 ≤ (200 : Int) ∧ (200 : Int) < 300) →
        (sendWebhook (sampleEnv (FetchResult.response 200 "ok")) sampleWorld (sampleSend 1)).1
            = false ∧ e.delivered = false) :=
  sendWebhook_first_response (sampleEnv (FetchResult.response 200 "ok")) sampleWorld
    (sampleSend 1) 200 "ok" rfl rfl

/-- C10: a `sendWebhook` call at attempt `n` whose request raises an exception returns
`false` and appends exactly one log row, with status 0, `delivered = false`, the error
message as body and attempt number `n`; it sets a timer for attempt `n + 1` if and only if
`n < 3`, with the delay `RETRY_DELAYS[n - 1]` (1000 ms for `n = 1`, 5000 ms for `n = 2`),
and the timers it leaves are those a response outside `[200, 300)` leaves. -/
theorem sendWebhook_network_failure (env : Env) (w : World) (a : SendArgs) (message : String)
    (hfail : env.fetch (webhookRequest env w a) = FetchResult.failure message) :
    (sendWebhook env w a).1 = false ∧
      (sendWebhook env w a).2.webhook_logs = w.webhook_logs ++ [failureEntry env a message] ∧
      (failureEntry env a message).response_status = 0 ∧
      (failureEntry env a message).delivered = false ∧
      (failureEntry env a message).response_body = message ∧
      (failureEntry env a message).attempt_number = a.attemptNumber ∧
      (sendWebhook env w a).2.timers = w.timers ++
        (if a.attemptNumber < 3 then
          [{ setAt := w.dateNow, delay := jsIndex RETRY_DELAYS (a.attemptNumber - 1),
             call := { a with attemptNumber := a.attemptNumber + 1 } }]
        else []) ∧
      jsIndex RETRY_DELAYS (1 - 1) = some 1000 ∧ jsIndex RETRY_DELAYS (2 - 1) = some 5000 ∧
      ∀ (env' : Env) (s : Int) (text : String),
        env'.fetch (webhookRequest env' w a) = FetchResult.response s text →
        ¬ (200 ≤ s ∧ s < 300) →
        (sendWebhook env' w a).2.timers = (sendWebhook env w a).2.timers := by
  have hs := sendWebhook_failure env w a message hfail
  refine ⟨?_, ?_, rfl, rfl, rfl, rfl, ?_, by decide, by decide, ?_⟩
  · rw [hs]; split_ifs <;> rfl
  · rw [hs]; split_ifs <;> simp [logWebhookAttempt, scheduleRetry]
  · rw [hs]; split_ifs <;> simp [logWebhookAttempt, scheduleRetry]
  · intro env' s text hresp hnot
    rw [hs, sendWebhook_response env' w a s text hresp]
    simp only [hnot, ↓reduceIte]
    split_ifs <;> simp [logWebhookAttempt, scheduleRetry]

/-- C10, witness: a network error at attempt 2. -/
theorem sendWebhook_network_failure_witness :
    (sendWebhook (sampleEnv (FetchResult.failure "ECONNREFUSED")) sampleWorld (sampleSend 2)).1
        = false ∧
      (sendWebhook (sampleEnv (FetchResult.failure "ECONNREFUSED")) sampleWorld
        (sampleSend 2)).2.timers =
        [{ setAt := 1700000000000, delay := some 5000, call := sampleSend 3 }] :=
  ⟨(sendWebhook_network_failure (sampleEnv (FetchResult.failure "ECONNREFUSED")) sampleWorld
    (sampleSend 2) "ECONNREFUSED" rfl).1, by decide⟩

end WebhookService
end StacksGate

namespace StacksGate

theorem Row.get_set (r : Row) (k k' : String) (v : Value) :
    (r.set k v).get k' = if k = k' then v else r.get k' := by
  simp [Row.set, Row.get, lookupCol]

theorem get_applyAssignments_of_not_mem (assignments : List (String × Value)) :
    ∀ (r : Row) (k : String), k ∉ assignments.map Prod.fst →
      (applyAssignments r assignments).get k = r.get k := by
  induction assignments with
  | nil => intro r k _; rfl
  | cons kv rest ih =>
    intro r k h
    simp only [List.map_cons, List.mem_cons, not_or] at h
    have := ih (r.set kv.1 kv.2) k h.2
    simp only [applyAssignments, List.foldl_cons] at this ⊢
    rw [this, Row.get_set]
    simp [Ne.symm h.1]

theorem get_applyAssignments_head (r : Row) (k : String) (v : Value)
    (rest : List (String × Value)) (h : k ∉ rest.map Prod.fst) :
    (applyAssignments r ((k, v) :: rest)).get k = v := by
  have := get_applyAssignments_of_not_mem rest (r.set k v) k h
  simp only [applyAssignments, List.foldl_cons] at this ⊢
  rw [this, Row.get_set]
  simp

namespace PaymentIntent

theorem findRow_map (f : Row → Row) (id : String) (hf : ∀ r, (f r).get "id" = r.get "id") :
    ∀ rows : List Row, findRow (rows.map f) id = (findRow rows id).map f := by
  intro rows
  induction rows with
  | nil => rfl
  | cons r rs ih =>
    simp only [findRow, List.map_cons, List.find?_cons, hf] at ih ⊢
    split
    · rfl
    · exact ih

theorem findRow_id (rows : List Row) (id : String) (row : Row)
    (h : findRow rows id = some row) : row.get "id" = Value.str id := by
  have := List.find?_some h
  simpa using this

theorem id_not_mem_updateAssignments (w : World) (status : String)
    (additionalData : Option (List (String × Value))) :
    "id" ∉ (updateAssignments w status additionalData).map Prod.fst := by
  simp only [updateAssignments, List.map_append, List.map_cons, List.map_nil, List.mem_append,
    List.mem_cons, List.mem_map, List.mem_filterMap, not_or]
  refine ⟨⟨by decide, by decide, by simp⟩, ?_⟩
  rintro ⟨kv, ⟨x, _, hx⟩, hkv⟩
  split at hx
  · next hne =>
    simp only [Option.some.injEq] at hx
    rw [← hx] at hkv
    exact hne.1 hkv
  · simp at hx

theorem withMetadata_get (r : Row) (k : String) (hk : k ≠ "metadata") :
    (withMetadata r).get k = r.get k := by
  unfold withMetadata
  split
  · rw [Row.get_set]
    simp [Ne.symm hk]
  · rfl

/-- An accepted `updateStatus` on a stored intent returns normally, and both the returned
intent and the stored row carry the new status. -/
theorem updateStatus_ok (w : World) (id status : String)
    (additionalData : Option (List (String × Value))) (row : Row)
    (hrow : findRow w.payment_intents id = some row)
    (hsql : updateAccepted (updateAssignments w status additionalData) = true) :
    ∃ (r : Row) (w' : World),
      updateStatus w id status additionalData = Except.ok (r, w') ∧
      storedStatus w' id = some (Value.str status) ∧ r.get "status" = Value.str status := by
  have hnd : "status" ∉ ((updateAssignments w status additionalData).tail).map Prod.fst := by
    have h2 : ((updateAssignments w status additionalData).map Prod.fst).Nodup := by
      simp only [updateAccepted, Bool.decide_and, Bool.and_eq_true, decide_eq_true_eq] at hsql
      exact hsql.2
    simp only [updateAssignments, List.cons_append, List.map_cons, List.nodup_cons] at h2
    simpa [updateAssignments] using h2.1
  have hst : ∀ r : Row,
      (applyAssignments r (updateAssignments w status additionalData)).get "status" =
        Value.str status := by
    intro r
    have := get_applyAssignments_head r "status" (Value.str status)
      ((updateAssignments w status additionalData).tail) hnd
    simpa [updateAssignments] using this
  have hid : ∀ r : Row,
      (if r.get "id" = Value.str id then
          applyAssignments r (updateAssignments w status additionalData) else r).get "id" =
        r.get "id" := by
    intro r
    split
    · exact get_applyAssignments_of_not_mem _ r "id" (id_not_mem_updateAssignments w status _)
    · rfl
  refine ⟨(commitUpdate w id status additionalData row).1,
    (commitUpdate w id status additionalData row).2, ?_, ?_, ?_⟩
  · simp only [updateStatus, hrow, hsql, not_true_eq_false, ↓reduceIte]
  · have hrid := findRow_id _ _ _ hrow
    simp only [storedStatus, commitUpdate]
    split_ifs <;>
      simp [logEvent, findRow_map _ id hid, hrow, hrid, hst]
  · simp only [commitUpdate]
    rw [withMetadata_get _ _ (by decide)]
    exact hst row

/-- C1 (as amended): `updateStatus` makes no check of the current status. For every stored
intent, whatever its status (terminal or not), and every new status, a call whose `UPDATE`
the database accepts succeeds and stores the new status; no `InvalidStateError` exists. -/
theorem updateStatus_overwrites_any_status (w : World) (id status : String)
    (additionalData : Option (List (String × Value))) (current : Value)
    (hcur : storedStatus w id = some current)
    (hsql : updateAccepted (updateAssignments w status additionalData) = true) :
    ∃ (r : Row) (w' : World),
      updateStatus w id status additionalData = Except.ok (r, w') ∧
      storedStatus w' id = some (Value.str status) ∧ r.get "status" = Value.str status := by
  unfold storedStatus at hcur
  cases hrow : findRow w.payment_intents id with
  | none =>
    rw [hrow] at hcur
    simp at hcur
  | some row => exact updateStatus_ok w id status additionalData row hrow hsql

/-- C1, witness: an intent in the terminal status `canceled` is moved to `succeeded`. -/
theorem updateStatus_overwrites_any_status_witness :
    isTerminal (Value.str "canceled") = true ∧
      ∃ (r : Row) (w' : World),
        updateStatus (sampleStore "pi_1" "canceled") "pi_1" "succeeded"
          (some [("confirmation_count", Value.num 2)]) = Except.ok (r, w') ∧
        storedStatus w' "pi_1" = some (Value.str "succeeded") ∧
        r.get "status" = Value.str "succeeded" :=
  ⟨by decide, updateStatus_overwrites_any_status (sampleStore "pi_1" "canceled") "pi_1"
    "succeeded" (some [("confirmation_count", Value.num 2)]) (Value.str "canceled")
    (by decide) (by decide)⟩

/-- C1, counterexample: the stored intent is in the terminal status `succeeded`, and
`updateStatus(id, 'processing')` returns normally and stores the non-terminal status
`processing`. -/
theorem updateStatus_terminal_to_processing :
    storedStatus (sampleStore "pi_1" "succeeded") "pi_1" = some (Value.str "succeeded") ∧
      isTerminal (Value.str "succeeded") = true ∧
      isTerminal (Value.str "processing") = false ∧
      ((updateStatus (sampleStore "pi_1" "succeeded") "pi_1" "processing" none).toOption.map
        (fun p => storedStatus p.2 "pi_1")) = some (some (Value.str "processing")) := by
  decide

end PaymentIntent
end StacksGate

namespace StacksGate

theorem WebhookService.sendWebhook_keeps_intents (env : Env) (w : World) (a : SendArgs) :
    (WebhookService.sendWebhook env w a).2.payment_intents = w.payment_intents := by
  cases h : env.fetch (WebhookService.webhookRequest env w a) with
  | response s t =>
    rw [WebhookService.sendWebhook_response env w a s t h]
    split_ifs <;> rfl
  | failure m =>
    rw [WebhookService.sendWebhook_failure env w a m h]
    split_ifs <;> rfl

theorem WebhookService.sendPaymentIntentWebhook_keeps_intents (env : Env) (w w' : World)
    (paymentIntent : Row) (url : String) (secret : Option String)
    (h : WebhookService.sendPaymentIntentWebhook env w paymentIntent url secret = some w') :
    w'.payment_intents = w.payment_intents := by
  unfold WebhookService.sendPaymentIntentWebhook at h
  split at h
  · simp at h
  · simp only [Option.some.injEq] at h
    rw [← h]
    exact WebhookService.sendWebhook_keeps_intents env w _

namespace SBTCService

theorem sendPaymentIntentWebhook_aux (env : Env) (w : World) (paymentIntent : Row)
    (url : String) (secret : Option String) :
    (match WebhookService.sendPaymentIntentWebhook env w paymentIntent url secret with
      | some w' => w'
      | none => w).payment_intents = w.payment_intents := by
  cases h : WebhookService.sendPaymentIntentWebhook env w paymentIntent url secret with
  | none => rfl
  | some w' => exact WebhookService.sendPaymentIntentWebhook_keeps_intents _ _ _ _ _ _ h

theorem sbtcWebhook_keeps_intents (env : Env) (w : World) (merchantId : Value)
    (paymentIntentId : String) :
    (sendPaymentIntentWebhook env w merchantId paymentIntentId).payment_intents =
      w.payment_intents := by
  unfold sendPaymentIntentWebhook
  split
  · split_ifs
    · rfl
    · exact sendPaymentIntentWebhook_aux env w _ _ _
  · rfl

end SBTCService
end StacksGate

namespace StacksGate
namespace SBTCService

/-- With no confirmed status in the cache, a chain query that throws or gets a response
that is not OK makes `getTransactionStatus` report the status `failed`. -/
theorem getTransactionStatus_of_failure (chain : Chain) (w : World) (txid : String)
    (hcache : ∀ c, cacheGet w ("tx_status:" ++ txid) = some c → c.status ≠ "confirmed")
    (hfail : (∃ message, chain.tx txid = ExplorerReply.throws message) ∨
      ∃ code statusText, chain.tx txid = ExplorerReply.notOk code statusText) :
    ∃ message, StacksService.getTransactionStatus chain w txid =
      (StacksService.errorStatus txid message, w) := by
  have hfilter : (cacheGet w ("tx_status:" ++ txid)).filter (fun c => c.status = "confirmed")
      = none := by
    cases hc : cacheGet w ("tx_status:" ++ txid) with
    | none => rfl
    | some c => simp [Option.filter, hcache c hc]
  unfold StacksService.getTransactionStatus
  simp only [hfilter]
  rcases hfail with ⟨message, h⟩ | ⟨code, statusText, h⟩
  · exact ⟨message, by rw [h]⟩
  · exact ⟨"Failed to fetch transaction status: " ++ statusText, by rw [h]⟩

/-- The names `stacksTxid`, `bitcoinTxid`, `paymentIntentId` and `amountSats` are not
columns: on a row object these properties are `undefined`. -/
theorem prop_camelCase (t : SBTCTransaction) :
    prop t "stacksTxid" = Value.undefined ∧ prop t "bitcoinTxid" = Value.undefined ∧
      prop t "paymentIntentId" = Value.undefined ∧ prop t "amountSats" = Value.undefined := by
  refine ⟨?_, ?_, ?_, ?_⟩ <;> simp [prop]

/-- The `SET` list of the `UPDATE` that `updateTransactionStatus` asks for always names
`confirmationcount`, which is not a column: the statement is rejected. -/
theorem statusUpdates_rejected (w : World) (id : String) (status : TransactionStatus) :
    ("confirmationcount", Value.num (status.confirmations.getD 0)) ∈
        updateFields (statusUpdates w status) ∧
      "confirmationcount" ∉ columns ∧
      updateSBTCTransaction w id (statusUpdates w status) =
        Except.error (Failure.sqlError "UPDATE sbtc_transactions rejected") := by
  have hlow : toLowerCase "confirmationCount" = "confirmationcount" := by decide
  have hmem : ("confirmationcount", Value.num (status.confirmations.getD 0)) ∈
      updateFields (statusUpdates w status) := by
    simp only [updateFields, statusUpdates, List.filterMap_cons]
    simp [hlow]
  have hnot : "confirmationcount" ∉ columns := by decide
  refine ⟨hmem, hnot, ?_⟩
  have hne : (updateFields (statusUpdates w status)).isEmpty = false := by
    cases h : updateFields (statusUpdates w status) with
    | nil => rw [h] at hmem; simp at hmem
    | cons _ _ => rfl
  have hacc : updateAccepted (updateFields (statusUpdates w status)) = false := by
    rw [Bool.eq_false_iff]
    intro h
    simp only [updateAccepted, Bool.decide_and, Bool.and_eq_true, List.all_eq_true,
      decide_eq_true_eq] at h
    exact hnot (h.1 _ (List.mem_map.mpr ⟨_, hmem, rfl⟩))
  simp [updateSBTCTransaction, hne, hacc]

/-- Whatever the transaction and the chain result, `updateTransactionStatus` leaves the whole
state as it was: its `UPDATE` is rejected and the exception is caught. -/
theorem updateTransactionStatus_inert (env : Env) (w : World) (id : String)
    (status : TransactionStatus) : updateTransactionStatus env w id status = w := by
  simp [updateTransactionStatus, (statusUpdates_rejected w id status).2.2]

/-- The loop body of `checkPendingTransactions` reads no reference from a row and so makes
no chain query and no update. -/
theorem checkTransaction_inert (env : Env) (chain : Chain) (w : World)
    (transaction : SBTCTransaction) : checkTransaction env chain w transaction = w := by
  simp [checkTransaction, prop, Value.falsy]

theorem checkPendingTransactions_inert (env : Env) (chain : Chain) (w : World) :
    checkPendingTransactions env chain w = w := by
  unfold checkPendingTransactions
  generalize getPendingSBTCTransactions w = pending
  induction pending with
  | nil => rfl
  | cons t ts ih => rw [List.foldl_cons, checkTransaction_inert, ih]

/-- C2: whatever the explorer answers for the references of the pending transactions, a
request that throws or a response that is not OK included, the status of every payment
intent after `checkPendingTransactions` is the status it had before: no intent is driven
to `failed`. The cycle reads the references of a row as `stacksTxid` and `bitcoinTxid`,
which no row object has, so it makes no query and no update. -/
theorem checkPendingTransactions_keeps_status (env : Env) (chain : Chain) (w : World)
    (id : String) :
    PaymentIntent.storedStatus (checkPendingTransactions env chain w) id =
        PaymentIntent.storedStatus w id ∧
      (checkPendingTransactions env chain w).payment_events = w.payment_events ∧
      (checkPendingTransactions env chain w).immediates = w.immediates := by
  rw [checkPendingTransactions_inert]
  exact ⟨rfl, rfl, rfl⟩

end SBTCService
end StacksGate

namespace StacksGate
namespace PaymentIntent

theorem updateStatus_eq_commit (w : World) (id status : String)
    (additionalData : Option (List (String × Value))) (r : Row) (w' : World)
    (hok : updateStatus w id status additionalData = Except.ok (r, w')) :
    ∃ row, findRow w.payment_intents id = some row ∧
      updateAccepted (updateAssignments w status additionalData) = true ∧
      commitUpdate w id status additionalData row = (r, w') := by
  unfold updateStatus at hok
  cases hrow : findRow w.payment_intents id with
  | none => simp [hrow] at hok
  | some row =>
    simp only [hrow] at hok
    split at hok
    · simp at hok
    · next hacc =>
      simp only [Except.ok.injEq] at hok
      exact ⟨row, rfl, by simpa using hacc, hok⟩

/-- The row stored for `id` after the `UPDATE` of `updateStatus`. -/
theorem findRow_commitUpdate (w : World) (id status : String)
    (additionalData : Option (List (String × Value))) (row : Row)
    (hrow : findRow w.payment_intents id = some row) :
    findRow (commitUpdate w id status additionalData row).2.payment_intents id =
      some (applyAssignments row (updateAssignments w status additionalData)) := by
  have hid : ∀ r : Row,
      (if r.get "id" = Value.str id then
          applyAssignments r (updateAssignments w status additionalData) else r).get "id" =
        r.get "id" := by
    intro r
    split
    · exact get_applyAssignments_of_not_mem _ r "id" (id_not_mem_updateAssignments w status _)
    · rfl
  have hrid := findRow_id _ _ _ hrow
  simp only [commitUpdate]
  split_ifs <;> simp [logEvent, findRow_map _ id hid, hrow, hrid]

theorem commitUpdate_fst (w : World) (id status : String)
    (additionalData : Option (List (String × Value))) (row : Row) :
    (commitUpdate w id status additionalData row).1 =
      withMetadata (applyAssignments row (updateAssignments w status additionalData)) := rfl

/-- C11: for a stored intent with status `p`, a call of `updateStatus(id, s, extra)` that
succeeds leaves one more pending webhook task, for the returned intent, when `p ≠ s`, and
leaves the pending tasks as they were when `p = s`. -/
theorem updateStatus_task_iff_changed (w : World) (id s : String)
    (extra : Option (List (String × Value))) (r : Row) (w' : World) (p : Value)
    (hok : updateStatus w id s extra = Except.ok (r, w'))
    (hp : storedStatus w id = some p) :
    (p ≠ Value.str s → w'.immediates = w.immediates ++ [{ paymentIntent := r }]) ∧
      (p = Value.str s → w'.immediates = w.immediates) := by
  obtain ⟨row, hrow, _, hc⟩ := updateStatus_eq_commit w id s extra r w' hok
  have hpr : row.get "status" = p := by
    simp only [storedStatus, hrow, Option.map_some', Option.some.injEq] at hp
    exact hp
  have h1 : r = (commitUpdate w id s extra row).1 := by rw [hc]
  have h2 : w' = (commitUpdate w id s extra row).2 := by rw [hc]
  constructor
  · intro hne
    rw [h2, h1]
    simp [commitUpdate, hpr, hne, logEvent]
  · intro heq
    rw [h2]
    simp [commitUpdate, hpr, heq, logEvent]

/-- C11, witness: a move from `requires_payment` to `processing` leaves one task; the
field-update call that writes the current status again leaves none. -/
theorem updateStatus_task_iff_changed_witness :
    ((updateStatus (sampleStore "pi_1" "requires_payment") "pi_1" "processing" none).toOption.map
        (fun x => x.2.immediates.length)) = some 1 ∧
      ((updateStatus (sampleStore "pi_1" "requires_payment") "pi_1" "requires_payment"
        (some [("description", Value.str "new")])).toOption.map
        (fun x => x.2.immediates.length)) = some 0 ∧
      ((Value.str "requires_payment" ≠ Value.str "processing" →
          (commitUpdate (sampleStore "pi_1" "requires_payment") "pi_1" "processing" none
            (sampleIntent "pi_1" "requires_payment")).2.immediates =
          (sampleStore "pi_1" "requires_payment").immediates ++
            [{ paymentIntent := (commitUpdate (sampleStore "pi_1" "requires_payment") "pi_1"
                "processing" none (sampleIntent "pi_1" "requires_payment")).1 }]) ∧
        (Value.str "requires_payment" = Value.str "processing" →
          (commitUpdate (sampleStore "pi_1" "requires_payment") "pi_1" "processing" none
            (sampleIntent "pi_1" "requires_payment")).2.immediates =
          (sampleStore "pi_1" "requires_payment").immediates)) :=
  ⟨by decide, by decide,
    updateStatus_task_iff_changed (sampleStore "pi_1" "requires_payment") "pi_1" "processing"
      none _ _ (Value.str "requires_payment") rfl (by decide)⟩

end PaymentIntent
end StacksGate

namespace StacksGate

theorem PaymentIntent.cancel_accepted (w : World) (metadata : Value) :
    PaymentIntent.updateAccepted
      (PaymentIntent.updateAssignments w "canceled" (some [("metadata", metadata)])) = true := by
  simp [PaymentIntent.updateAccepted, PaymentIntent.updateAssignments, PaymentIntent.columns]

theorem PaymentIntent.isTerminal_not_open (status : Value)
    (h : PaymentIntent.isTerminal status = true) :
    status ∉ [Value.str "requires_payment", Value.str "processing"] := by
  simp only [PaymentIntent.isTerminal, Bool.decide_or, Bool.or_eq_true, decide_eq_true_eq] at h
  rcases h with h | h | h <;> simp [h]

namespace PaymentRoutes

/-- C12 (as amended): for every intent whose status is terminal, the route
`POST /:id/cancel` called by the owning merchant answers HTTP 400
(`invalid_request_error`) and leaves the whole state, so the status and the metadata,
unchanged; `PaymentIntent.cancel` itself makes no check and, called directly, succeeds and
stores the status `canceled`. -/
theorem cancel_terminal_rejected_by_route (w : World) (merchant : Row) (id : String)
    (reason : Option String) (row : Row)
    (hrow : PaymentIntent.findRow w.payment_intents id = some row)
    (hterm : PaymentIntent.isTerminal (row.get "status") = true)
    (hown : row.get "merchant_id" = merchant.get "id") :
    cancelRoute w merchant id reason =
        (RouteResult.error 400 "invalid_request_error"
          "Payment intent cannot be canceled in current status", w) ∧
      ∃ (r : Row) (w' : World), PaymentIntent.cancel w id reason = Except.ok (r, w') ∧
        PaymentIntent.storedStatus w' id = some (Value.str "canceled") := by
  constructor
  · have hs : (PaymentIntent.withMetadata row).get "status" = row.get "status" :=
      PaymentIntent.withMetadata_get row "status" (by decide)
    have hm : (PaymentIntent.withMetadata row).get "merchant_id" = row.get "merchant_id" :=
      PaymentIntent.withMetadata_get row "merchant_id" (by decide)
    have hnot := PaymentIntent.isTerminal_not_open _ hterm
    simp only [cancelRoute, PaymentIntent.findById, hrow, Option.map_some', hs, hm, hown,
      ne_eq, not_true_eq_false, ↓reduceIte, hnot, not_false_eq_true]
  · obtain ⟨r, w', hok, hst, _⟩ := PaymentIntent.updateStatus_ok w id "canceled"
      (some [("metadata",
        match reason with
        | some r => Value.obj [("cancel_reason", r)]
        | none => Value.obj [])]) row hrow (PaymentIntent.cancel_accepted w _)
    exact ⟨r, w', hok, hst⟩

/-- C12, witness: a succeeded intent of merchant `m_1`. -/
theorem cancel_terminal_rejected_by_route_witness :
    cancelRoute (PaymentIntent.sampleStore "pi_1" "succeeded") sampleMerchant "pi_1"
        (some "duplicate") =
        (RouteResult.error 400 "invalid_request_error"
          "Payment intent cannot be canceled in current status",
          PaymentIntent.sampleStore "pi_1" "succeeded") ∧
      ∃ (r : Row) (w' : World),
        PaymentIntent.cancel (PaymentIntent.sampleStore "pi_1" "succeeded") "pi_1"
          (some "duplicate") = Except.ok (r, w') ∧
        PaymentIntent.storedStatus w' "pi_1" = some (Value.str "canceled") :=
  cancel_terminal_rejected_by_route (PaymentIntent.sampleStore "pi_1" "succeeded")
    sampleMerchant "pi_1" (some "duplicate") (PaymentIntent.sampleIntent "pi_1" "succeeded")
    (by decide) (by decide) (by decide)

/-- C12, counterexample: `PaymentIntent.cancel` on an intent in the terminal status
`succeeded` returns normally; afterwards the stored status is `canceled` and the stored
metadata, before `order = 42`, holds the cancel reason only. -/
theorem cancel_terminal_succeeds :
    PaymentIntent.isTerminal (Value.str "succeeded") = true ∧
      (PaymentIntent.findRow (PaymentIntent.sampleStore "pi_1" "succeeded").payment_intents
        "pi_1").map (fun r => (r.get "status", r.get "metadata")) =
        some (Value.str "succeeded", Value.obj [("order", "42")]) ∧
      ((PaymentIntent.cancel (PaymentIntent.sampleStore "pi_1" "succeeded") "pi_1"
        (some "duplicate")).toOption.map (fun x =>
          (PaymentIntent.findRow x.2.payment_intents "pi_1").map
            (fun r => (r.get "status", r.get "metadata")))) =
        some (some (Value.str "canceled", Value.obj [("cancel_reason", "duplicate")])) := by
  decide

end PaymentRoutes

namespace PaymentIntent

theorem findRow_append_new (rows : List Row) (id : String) (row : Row)
    (hnone : findRow rows id = none) (hid : row.get "id" = Value.str id) :
    findRow (rows ++ [row]) id = some row := by
  unfold findRow at hnone ⊢
  rw [List.find?_append, hnone]
  simp [hid]

/-- C13 (as amended): `PaymentIntent.create` makes no check of the amount. For every
request, whatever its `amount_sats` (zero and negative amounts included), whose generated
identifier is not stored yet, it returns normally, having inserted the intent row, with
that amount and status `requires_payment`, and a `payment_intent.created` event. -/
theorem create_inserts_any_amount (uuid : String) (w : World) (params : CreateParams)
    (hnew : findRow w.payment_intents ("pi_" ++ uuid) = none) :
    (create uuid w params).toOption.isSome = true ∧
      ∀ (r : Row) (w' : World), create uuid w params = Except.ok (r, w') →
        w'.payment_intents = w.payment_intents ++ [insertedRow w ("pi_" ++ uuid) params] ∧
        (insertedRow w ("pi_" ++ uuid) params).get "amount_sats" =
          Value.num params.amount_sats ∧
        (insertedRow w ("pi_" ++ uuid) params).get "status" = Value.str "requires_payment" ∧
        w'.payment_events = w.payment_events ++
          [{ payment_intent_id := "pi_" ++ uuid, event_type := "payment_intent.created",
             data := { cols := [("amount_sats", Value.num params.amount_sats),
                                ("amount_usd", params.amount_usd),
                                ("merchant_id", Value.str params.merchant_id)] } }] := by
  constructor
  · simp [create, hnew, Except.toOption]
  · intro r w' hok
    simp only [create, hnew, Except.ok.injEq, Prod.mk.injEq] at hok
    rw [← hok.2]
    refine ⟨rfl, ?_, ?_, rfl⟩
    · simp [insertedRow, Row.get, lookupCol]
    · simp [insertedRow, Row.get, lookupCol]

/-- C13, witness: a request with the amount 0 on an empty store. -/
theorem create_inserts_any_amount_witness :
    (create "0123456789abcdef01234567" sampleWorld (sampleParams 0)).toOption.isSome = true :=
  (create_inserts_any_amount "0123456789abcdef01234567" sampleWorld (sampleParams 0)
    (by decide)).1

/-- C13, counterexample: `create` with `amount_sats = -5` returns normally and leaves one
intent row, holding the amount -5, and one event. -/
theorem create_negative_amount_inserted :
    ((create "0123456789abcdef01234567" sampleWorld (sampleParams (-5))).toOption.map
      (fun x => (x.1.get "amount_sats", x.2.payment_intents.length,
        x.2.payment_events.map (fun e => e.event_type)))) =
      some (Value.num (-5), 1, ["payment_intent.created"]) := by
  decide

/-- C14: for every amount and merchant, when `create` returns an intent, its identifier is the generated one, and
`findById` on the state it leaves returns an intent with status `requires_payment` and the
requested `amount_sats`. -/
theorem create_then_findById (uuid : String) (w : World) (params : CreateParams) (r : Row)
    (w' : World) (hok : create uuid w params = Except.ok (r, w')) :
    r.get "id" = Value.str ("pi_" ++ uuid) ∧
      (findById w' ("pi_" ++ uuid)).map (fun f => (f.get "status", f.get "amount_sats")) =
        some (Value.str "requires_payment", Value.num params.amount_sats) := by
  unfold create at hok
  cases hnew : findRow w.payment_intents ("pi_" ++ uuid) with
  | some x => simp [hnew] at hok
  | none =>
    simp only [hnew, Except.ok.injEq, Prod.mk.injEq] at hok
    have hid : (insertedRow w ("pi_" ++ uuid) params).get "id" = Value.str ("pi_" ++ uuid) := by
      simp [insertedRow, Row.get, lookupCol]
    constructor
    · rw [← hok.1, withMetadata_get _ _ (by decide)]
      exact hid
    · rw [← hok.2]
      simp only [findById, logEvent, findRow_append_new _ _ _ hnew hid, Option.map_some',
        withMetadata_get _ "status" (by decide), withMetadata_get _ "amount_sats" (by decide)]
      simp [insertedRow, Row.get, lookupCol]

/-- C14, witness: an intent of 150000 sats created on an empty store. -/
theorem create_then_findById_witness :
    (findById (logEvent
        { sampleWorld with payment_intents := sampleWorld.payment_intents ++
            [insertedRow sampleWorld ("pi_" ++ "0123456789abcdef01234567")
              (sampleParams 150000)] }
        ("pi_" ++ "0123456789abcdef01234567") "payment_intent.created"
        { cols := [("amount_sats", Value.num 150000), ("amount_usd", Value.num 0),
                   ("merchant_id", Value.str "m_1")] })
      ("pi_" ++ "0123456789abcdef01234567")).map
        (fun f => (f.get "status", f.get "amount_sats")) =
      some (Value.str "requires_payment", Value.num 150000) :=
  (create_then_findById "0123456789abcdef01234567" sampleWorld (sampleParams 150000) _ _
    rfl).2

end PaymentIntent
end StacksGate

namespace StacksGate
namespace PaymentIntent

theorem mem_updateAssignments_keys (w : World) (status : String)
    (additionalData : Option (List (String × Value))) (k : String)
    (hk : k ∈ (updateAssignments w status additionalData).map Prod.fst) :
    k = "status" ∨ k = "updated_at" ∨ k ∈ (additionalData.getD []).map Prod.fst := by
  simp only [updateAssignments, List.map_append, List.map_cons, List.map_nil, List.mem_append,
    List.mem_cons, List.mem_map, List.mem_filterMap, List.not_mem_nil, or_false] at hk
  rcases hk with (h | h) | ⟨kv, ⟨x, hx, hsome⟩, hkv⟩
  · exact Or.inl h
  · exact Or.inr (Or.inl h)
  · right; right
    split at hsome
    · simp only [Option.some.injEq] at hsome
      rw [← hsome] at hkv
      exact List.mem_map.mpr ⟨x, hx, hkv⟩
    · simp at hsome

/-- A column that is neither `status` nor `updated_at` nor a key of the extra fields keeps
its value through `updateStatus`, in the stored row and in the returned intent. -/
theorem updateStatus_keeps_column (w : World) (id status : String)
    (additionalData : Option (List (String × Value))) (r : Row) (w' : World) (k : String)
    (hok : updateStatus w id status additionalData = Except.ok (r, w'))
    (hk1 : k ≠ "status") (hk2 : k ≠ "updated_at") (hk3 : k ≠ "metadata")
    (hk : k ∉ (additionalData.getD []).map Prod.fst) :
    (findRow w'.payment_intents id).map (fun x => x.get k) =
        (findRow w.payment_intents id).map (fun x => x.get k) ∧
      some (r.get k) = (findRow w.payment_intents id).map (fun x => x.get k) := by
  obtain ⟨row, hrow, _, hc⟩ := updateStatus_eq_commit w id status additionalData r w' hok
  have hnot : k ∉ (updateAssignments w status additionalData).map Prod.fst := by
    intro hmem
    rcases mem_updateAssignments_keys w status additionalData k hmem with h | h | h
    · exact hk1 h
    · exact hk2 h
    · exact hk h
  have hget := get_applyAssignments_of_not_mem _ row k hnot
  have h1 : r = (commitUpdate w id status additionalData row).1 := by rw [hc]
  have h2 : w' = (commitUpdate w id status additionalData row).2 := by rw [hc]
  constructor
  · rw [h2, findRow_commitUpdate w id status additionalData row hrow, hrow]
    simp [hget]
  · rw [h1, commitUpdate_fst, withMetadata_get _ _ hk3, hget, hrow]
    rfl

/-- C15 (as amended): `updateStatus` filters only the keys `id`, `created_at` and
`updated_at` out of the extra fields. For every stored intent, every new status and every
extra-fields object that has none of the keys `amount_sats`, `amount_usd` and
`expires_at`, a call that succeeds leaves these three columns as they were; `cancel`,
whose extra fields hold `metadata` only, always leaves them as they were. -/
theorem updateStatus_keeps_amount_and_expiry (w : World) (id status : String)
    (additionalData : Option (List (String × Value))) (r : Row) (w' : World)
    (hok : updateStatus w id status additionalData = Except.ok (r, w'))
    (hkeys : ∀ k ∈ ["amount_sats", "amount_usd", "expires_at"],
      k ∉ (additionalData.getD []).map Prod.fst) :
    (∀ k ∈ ["amount_sats", "amount_usd", "expires_at"],
        (findRow w'.payment_intents id).map (fun x => x.get k) =
          (findRow w.payment_intents id).map (fun x => x.get k)) ∧
      ∀ (reason : Option String) (rc : Row) (wc : World),
        cancel w id reason = Except.ok (rc, wc) →
        ∀ k ∈ ["amount_sats", "amount_usd", "expires_at"],
          (findRow wc.payment_intents id).map (fun x => x.get k) =
            (findRow w.payment_intents id).map (fun x => x.get k) := by
  constructor
  · intro k hk
    have hne : k ≠ "status" ∧ k ≠ "updated_at" ∧ k ≠ "metadata" := by
      simp only [List.mem_cons, List.mem_singleton, List.not_mem_nil, or_false] at hk
      rcases hk with h | h | h <;> subst h <;> decide
    exact (updateStatus_keeps_column w id status additionalData r w' k hok hne.1 hne.2.1
      hne.2.2 (hkeys k hk)).1
  · intro reason rc wc hc k hk
    have hne : k ≠ "status" ∧ k ≠ "updated_at" ∧ k ≠ "metadata" := by
      simp only [List.mem_cons, List.mem_singleton, List.not_mem_nil, or_false] at hk
      rcases hk with h | h | h <;> subst h <;> decide
    refine (updateStatus_keeps_column w id "canceled" _ rc wc k hc hne.1 hne.2.1 hne.2.2
      ?_).1
    simp only [Option.getD_some, List.map_cons, List.map_nil, List.mem_singleton]
    exact hne.2.2

/-- C15, witness: the monitor's update of `confirmation_count` on the sample intent leaves
the amount of 150000 sats as it was. -/
theorem updateStatus_keeps_amount_and_expiry_witness :
    (findRow (commitUpdate (sampleStore "pi_1" "processing") "pi_1" "succeeded"
        (some [("confirmation_count", Value.num 2)])
        (sampleIntent "pi_1" "processing")).2.payment_intents "pi_1").map
        (fun x => x.get "amount_sats") =
      (findRow (sampleStore "pi_1" "processing").payment_intents "pi_1").map
        (fun x => x.get "amount_sats") :=
  (updateStatus_keeps_amount_and_expiry (sampleStore "pi_1" "processing") "pi_1" "succeeded"
    (some [("confirmation_count", Value.num 2)]) _ _ rfl (by decide)).1 "amount_sats"
    (by decide)

/-- C15, counterexample: extra fields holding `amount_sats`, `amount_usd` and `expires_at`
are written to the stored intent, whose amount was 150000 sats. -/
theorem updateStatus_overwrites_amount :
    (findRow (sampleStore "pi_1" "requires_payment").payment_intents "pi_1").map
        (fun x => (x.get "amount_sats", x.get "amount_usd", x.get "expires_at")) =
        some (Value.num 150000, Value.num 97, Value.date 1700086400000) ∧
      ((updateStatus (sampleStore "pi_1" "requires_payment") "pi_1" "processing"
        (some [("amount_sats", Value.num 1), ("amount_usd", Value.num 0),
               ("expires_at", Value.date 0)])).toOption.map (fun x =>
          (findRow x.2.payment_intents "pi_1").map
            (fun y => (y.get "amount_sats", y.get "amount_usd", y.get "expires_at")))) =
        some (some (Value.num 1, Value.num 0, Value.date 0)) := by
  decide

end PaymentIntent
end StacksGate

namespace StacksGate

theorem WebhookService.sendWebhook_keeps_transactions (env : Env) (w : World) (a : SendArgs) :
    (WebhookService.sendWebhook env w a).2.sbtc_transactions = w.sbtc_transactions := by
  cases h : env.fetch (WebhookService.webhookRequest env w a) with
  | response s t =>
    rw [WebhookService.sendWebhook_response env w a s t h]
    split_ifs <;> rfl
  | failure m =>
    rw [WebhookService.sendWebhook_failure env w a m h]
    split_ifs <;> rfl

theorem WebhookService.sendPaymentIntentWebhook_keeps_transactions (env : Env) (w w' : World)
    (paymentIntent : Row) (url : String) (secret : Option String)
    (h : WebhookService.sendPaymentIntentWebhook env w paymentIntent url secret = some w') :
    w'.sbtc_transactions = w.sbtc_transactions := by
  unfold WebhookService.sendPaymentIntentWebhook at h
  split at h
  · simp at h
  · simp only [Option.some.injEq] at h
    rw [← h]
    exact WebhookService.sendWebhook_keeps_transactions env w _

namespace SBTCService

theorem sendPaymentIntentWebhook_aux_transactions (env : Env) (w : World) (paymentIntent : Row)
    (url : String) (secret : Option String) :
    (match WebhookService.sendPaymentIntentWebhook env w paymentIntent url secret with
      | some w' => w'
      | none => w).sbtc_transactions = w.sbtc_transactions := by
  cases h : WebhookService.sendPaymentIntentWebhook env w paymentIntent url secret with
  | none => rfl
  | some w' => exact WebhookService.sendPaymentIntentWebhook_keeps_transactions _ _ _ _ _ _ h

theorem sbtcWebhook_keeps_transactions (env : Env) (w : World) (merchantId : Value)
    (paymentIntentId : String) :
    (sendPaymentIntentWebhook env w merchantId paymentIntentId).sbtc_transactions =
      w.sbtc_transactions := by
  unfold sendPaymentIntentWebhook
  split
  · split_ifs
    · rfl
    · exact sendPaymentIntentWebhook_aux_transactions env w _ _ _
  · rfl

/-- The extra fields `updateTransactionStatus` passes to `PaymentIntent.updateStatus`. -/
theorem monitor_update_accepted (w : World) (status : String) (count : Int) (txid : String) :
    PaymentIntent.updateAccepted (PaymentIntent.updateAssignments w status
      (some [("confirmation_count", Value.num count), ("sbtc_tx_id", Value.str txid)]))
      = true := by
  simp [PaymentIntent.updateAccepted, PaymentIntent.updateAssignments, PaymentIntent.columns]

/-- C16, failing input: the transaction `tx_1` of the intent `pi_1` is pending, the intent
is in `processing`, and the chain result is `confirmed` with two confirmations. The
`UPDATE` of `updateSBTCTransaction` is rejected, and after `updateTransactionStatus` the intent is
still in `processing` with confirmation count 0 and the transaction is still pending. -/
theorem updateTransactionStatus_confirmed_changes_nothing :
    updateSBTCTransaction sampleMonitorWorld "tx_1"
        (statusUpdates sampleMonitorWorld twoConfirmations) =
        Except.error (Failure.sqlError "UPDATE sbtc_transactions rejected") ∧
      PaymentIntent.storedStatus
        (updateTransactionStatus (sampleEnv (FetchResult.response 200 "ok")) sampleMonitorWorld
          "tx_1" twoConfirmations) "pi_1" = some (Value.str "processing") ∧
      storedColumn
        (updateTransactionStatus (sampleEnv (FetchResult.response 200 "ok")) sampleMonitorWorld
          "tx_1" twoConfirmations) "pi_1" "confirmation_count" = some (Value.num 0) ∧
      (getSBTCTransaction
        (updateTransactionStatus (sampleEnv (FetchResult.response 200 "ok")) sampleMonitorWorld
          "tx_1" twoConfirmations) "tx_1").map (fun t => t.status) = some "pending" := by
  refine ⟨(statusUpdates_rejected _ _ _).2.2, ?_, ?_, ?_⟩ <;>
    rw [updateTransactionStatus_inert] <;> decide

end SBTCService
end StacksGate

namespace StacksGate
namespace SBTCService

/-- C17, failing input: the pending transaction `tx_1` has both references stored and the
explorer reports every transaction as a success. A cycle of `checkPendingTransactions`
applies no status: the state is the one before the cycle (nothing was cached, so no
query was made), the transaction is still pending and the intent still in `processing`. -/
theorem checkPendingTransactions_applies_nothing :
    getPendingSBTCTransactions sampleMonitorWorld = [sampleTransaction] ∧
      sampleTransaction.stacks_txid = some "0xabc" ∧
      sampleTransaction.bitcoin_txid = some "btc_1" ∧
      (StacksService.getTransactionStatus confirmedEverywhere sampleMonitorWorld "0xabc").1.status
        = "confirmed" ∧
      checkPendingTransactions (sampleEnv (FetchResult.response 200 "ok")) confirmedEverywhere
        sampleMonitorWorld = sampleMonitorWorld ∧
      PaymentIntent.storedStatus
        (checkPendingTransactions (sampleEnv (FetchResult.response 200 "ok"))
          confirmedEverywhere sampleMonitorWorld) "pi_1" = some (Value.str "processing") := by
  refine ⟨by decide, rfl, rfl, by decide, checkPendingTransactions_inert _ _ _, ?_⟩
  rw [checkPendingTransactions_inert]
  decide

/-- C18, failing input: two pending transactions; the explorer cannot be reached for the
reference of the first and reports the reference of the second as a success. After the
cycle the second transaction is still pending and its intent still in `processing`: the
state is the one before the cycle, no transaction was queried or updated. -/
theorem checkPendingTransactions_second_not_updated :
    getPendingSBTCTransactions twoTransactionsWorld = [sampleTransaction, secondTransaction] ∧
      (StacksService.getTransactionStatus firstFailsChain twoTransactionsWorld "0xdef").1.status
        = "confirmed" ∧
      checkPendingTransactions (sampleEnv (FetchResult.response 200 "ok")) firstFailsChain
        twoTransactionsWorld = twoTransactionsWorld ∧
      (getSBTCTransaction
        (checkPendingTransactions (sampleEnv (FetchResult.response 200 "ok")) firstFailsChain
          twoTransactionsWorld) "tx_2").map (fun t => t.status) = some "pending" ∧
      PaymentIntent.storedStatus
        (checkPendingTransactions (sampleEnv (FetchResult.response 200 "ok")) firstFailsChain
          twoTransactionsWorld) "pi_2" = some (Value.str "processing") := by
  refine ⟨by decide, by decide, checkPendingTransactions_inert _ _ _, ?_, ?_⟩ <;>
    rw [checkPendingTransactions_inert] <;> decide

end SBTCService
end StacksGate

namespace StacksGate
namespace ExchangeRate

theorem acceptedRate_parsed_pos (q : ℚ) (hq : 0 < q) :
    acceptedRate (RateReply.parsed (JsNumber.fin q)) = some (JsNumber.fin q) := by
  have h0 : q ≠ 0 := ne_of_gt hq
  have hle : ¬ q ≤ 0 := not_le.mpr hq
  simp [acceptedRate, JsNumber.falsy, JsNumber.isNaN, JsNumber.leZero, h0, hle]

/-- The loop over sources of which the first ones fail and the next one answers a positive
rate: that rate and the name of its source, the sources up to it requested, in order. -/
theorem queryLoop_first_success (net : String → RateReply) (pre : List RateSource) :
    ∀ (st : RateState) (s : RateSource) (post : List RateSource) (q : ℚ),
      (∀ p ∈ pre, acceptedRate (net p.url) = none) →
      net s.url = RateReply.parsed (JsNumber.fin q) → 0 < q →
      queryLoop net st (pre ++ s :: post) =
        (some (JsNumber.fin q, s.name),
          { st with requests := st.requests ++ (pre ++ [s]).map (fun x => x.url) }) := by
  induction pre with
  | nil =>
    intro st s post q _ hs hq
    have hne : q ≠ 0 := ne_of_gt hq
    simp [queryLoop, fetchExchangeRateFromSource, hs, acceptedRate_parsed_pos q hq,
      JsNumber.falsy, hne]
  | cons p pre ih =>
    intro st s post q hpre hs hq
    have hp : acceptedRate (net p.url) = none := hpre p (by simp)
    have hrest : ∀ x ∈ pre, acceptedRate (net x.url) = none :=
      fun x hx => hpre x (by simp [hx])
    simp only [List.cons_append, queryLoop, fetchExchangeRateFromSource, hp, List.append_eq]
    rw [ih _ s post q hrest hs hq]
    simp

/-- The loop over sources that all fail: no rate, every source requested. -/
theorem queryLoop_all_fail (net : String → RateReply) (sources : List RateSource) :
    ∀ st : RateState, (∀ p ∈ sources, acceptedRate (net p.url) = none) →
      queryLoop net st sources =
        (none, { st with requests := st.requests ++ sources.map (fun x => x.url) }) := by
  induction sources with
  | nil => intro st _; simp [queryLoop]
  | cons p rest ih =>
    intro st h
    have hp : acceptedRate (net p.url) = none := h p (by simp)
    simp only [queryLoop, fetchExchangeRateFromSource, hp]
    rw [ih _ (fun x hx => h x (by simp [hx]))]
    simp

/-- C19: on a cache miss `getCurrentExchangeRate` goes through the sources in the order
CoinGecko, CoinDesk, Binance; when the sources before `s` fail and `s` answers a
positive number `q`, the result is the rate `q` tagged with the name of `s`, it is written
to the cache (Redis when connected, and memory) with a lifetime of 300 s, and the sources
requested are those up to `s`, none after it. -/
theorem getCurrentExchangeRate_first_success (net : String → RateReply) (st : RateState)
    (pre post : List RateSource) (s : RateSource) (q : ℚ)
    (hmiss : getFromCache (fun _ => true) st st.rate = none)
    (hsplit : EXCHANGE_RATE_SOURCES = pre ++ s :: post)
    (hpre : ∀ p ∈ pre, acceptedRate (net p.url) = none)
    (hs : net s.url = RateReply.parsed (JsNumber.fin q)) (hq : 0 < q) :
    EXCHANGE_RATE_SOURCES.map (fun x => x.name) = ["CoinGecko", "CoinDesk", "Binance"] ∧
      (getCurrentExchangeRate net st).1 =
        { btc_usd := JsNumber.fin q, last_updated := st.dateNow, source := s.name } ∧
      (getCurrentExchangeRate net st).2.requests =
        st.requests ++ (pre ++ [s]).map (fun x => x.url) ∧
      (getCurrentExchangeRate net st).2.rate.memory =
        some { data := { btc_usd := JsNumber.fin q, last_updated := st.dateNow,
                         source := s.name },
               expiry := st.dateNow + 300 * 1000 } ∧
      (st.redisConnected = true →
        (getCurrentExchangeRate net st).2.rate.redis =
          some { data := { btc_usd := JsNumber.fin q, last_updated := st.dateNow,
                           source := s.name },
                 expiry := st.dateNow + 300 * 1000 }) := by
  have hloop := queryLoop_first_success net pre st s post q hpre hs hq
  rw [← hsplit] at hloop
  refine ⟨by decide, ?_, ?_, ?_, ?_⟩
  · simp [getCurrentExchangeRate, hmiss, hloop]
  · simp [getCurrentExchangeRate, hmiss, hloop]
  · simp [getCurrentExchangeRate, hmiss, hloop, setInCache]
  · intro hconn
    simp [getCurrentExchangeRate, hmiss, hloop, setInCache, hconn]

/-- C19, witness: CoinGecko fails and CoinDesk returns 65000; Binance is not requested. -/
theorem getCurrentExchangeRate_first_success_witness :
    (getCurrentExchangeRate secondSourceNet emptyState).1 =
        { btc_usd := JsNumber.fin 65000, last_updated := emptyState.dateNow,
          source := "CoinDesk" } ∧
      (getCurrentExchangeRate secondSourceNet emptyState).2.requests =
        ["https://api.coingecko.com/api/v3/simple/price?ids=bitcoin&vs_currencies=usd",
         "https://api.coindesk.com/v1/bpi/currentprice/USD.json"] :=
  ⟨(getCurrentExchangeRate_first_success secondSourceNet emptyState
      [{ name := "CoinGecko",
         url := "https://api.coingecko.com/api/v3/simple/price?ids=bitcoin&vs_currencies=usd" }]
      [{ name := "Binance",
         url := "https://api.binance.com/api/v3/ticker/price?symbol=BTCUSDT" }]
      { name := "CoinDesk", url := "https://api.coindesk.com/v1/bpi/currentprice/USD.json" }
      65000 (by decide) (by decide) (by decide) (by decide) (by decide)).2.1,
    by decide⟩

/-- C20: when every price source fails, `getCurrentExchangeRate` returns an unexpired
cached snapshot unchanged, the Redis one when Redis is connected and holds one, the
memory one otherwise, and leaves the state as it was; with no such snapshot it returns the
constant rate 43000 tagged `fallback` and leaves both stores of the cache key as they
were. -/
theorem getCurrentExchangeRate_all_sources_fail (net : String → RateReply) (st : RateState)
    (hfail : ∀ p ∈ EXCHANGE_RATE_SOURCES, acceptedRate (net p.url) = none) :
    (∀ slot : Slot ExchangeRateData, st.redisConnected = true → st.rate.redis = some slot →
        st.dateNow < slot.expiry → getCurrentExchangeRate net st = (slot.data, st)) ∧
      (∀ slot : Slot ExchangeRateData, redisGet st st.rate = none →
        st.rate.memory = some slot → st.dateNow < slot.expiry →
        getCurrentExchangeRate net st = (slot.data, st)) ∧
      (getFromCache (fun _ => true) st st.rate = none →
        (getCurrentExchangeRate net st).1 =
          { btc_usd := JsNumber.fin 43000, last_updated := st.dateNow, source := "fallback" } ∧
        (getCurrentExchangeRate net st).2.rate = st.rate) := by
  refine ⟨?_, ?_, ?_⟩
  · intro slot hconn hredis hfresh
    simp [getCurrentExchangeRate, getFromCache, redisGet, hconn, hredis, hfresh]
  · intro slot hnone hmem hfresh
    simp [getCurrentExchangeRate, getFromCache, hnone, hmem, hfresh]
  · intro hmiss
    have hloop := queryLoop_all_fail net EXCHANGE_RATE_SOURCES st hfail
    simp [getCurrentExchangeRate, hmiss, hloop]

/-- C20, witness: no source can be reached; a cached snapshot of rate 64000 is returned
as it is, and with empty caches the fallback rate is returned and nothing is cached. -/
theorem getCurrentExchangeRate_all_sources_fail_witness :
    getCurrentExchangeRate deadNet cachedState =
        ({ btc_usd := JsNumber.fin 64000, last_updated := 1699999900000,
           source := "CoinGecko" }, cachedState) ∧
      (getCurrentExchangeRate deadNet emptyState).1 =
        { btc_usd := JsNumber.fin 43000, last_updated := emptyState.dateNow,
          source := "fallback" } ∧
      (getCurrentExchangeRate deadNet emptyState).2.rate = emptyState.rate :=
  ⟨(getCurrentExchangeRate_all_sources_fail deadNet cachedState (fun _ _ => rfl)).1
      { data := { btc_usd := JsNumber.fin 64000, last_updated := 1699999900000,
                  source := "CoinGecko" }, expiry := 1700000200000 } rfl rfl (by decide),
    ((getCurrentExchangeRate_all_sources_fail deadNet emptyState (fun _ _ => rfl)).2.2
      (by decide)).1,
    ((getCurrentExchangeRate_all_sources_fail deadNet emptyState (fun _ _ => rfl)).2.2
      (by decide)).2⟩

end ExchangeRate
end StacksGate

namespace StacksGate
namespace ExchangeRate

/-! ## Rounding to the nearest double -/

theorem roundHalfEven_near (q : ℚ) : |(roundHalfEven q : ℚ) - q| ≤ 1 / 2 := by
  have h1 := Int.floor_le q
  have h2 := Int.lt_floor_add_one q
  unfold roundHalfEven
  rw [abs_le]
  split_ifs <;> push_cast <;> constructor <;> linarith

theorem roundHalfEven_eq (q : ℚ) (m : ℤ) (h : |q - m| < 1 / 2) : roundHalfEven q = m := by
  rw [abs_lt] at h
  have hn := roundHalfEven_near q
  rw [abs_le] at hn
  have h1 : ((roundHalfEven q : ℤ) : ℚ) - m < 1 := by linarith [h.1, h.2, hn.1, hn.2]
  have h2 : (-1 : ℚ) < ((roundHalfEven q : ℤ) : ℚ) - m := by linarith [h.1, h.2, hn.1, hn.2]
  have h3 : roundHalfEven q - m < 1 := by exact_mod_cast h1
  have h4 : -1 < roundHalfEven q - m := by exact_mod_cast h2
  omega

theorem binade_eq (x : ℚ) (e : ℤ) (he : -1022 ≤ e) (hlo : (2 : ℚ) ^ e ≤ |x|)
    (hhi : |x| < (2 : ℚ) ^ (e + 1)) : binade x = e := by
  have hpos : 0 < |x| := lt_of_lt_of_le (by positivity) hlo
  have hx : x ≠ 0 := abs_pos.mp hpos
  have h1 : e ≤ Int.log 2 |x| := by
    rw [← Int.zpow_le_iff_le_log (by norm_num) hpos]
    exact_mod_cast hlo
  have h2 : Int.log 2 |x| < e + 1 := by
    rw [← Int.lt_zpow_iff_log_lt (by norm_num) hpos]
    exact_mod_cast hhi
  unfold binade
  rw [if_neg hx, max_eq_left (by omega)]
  omega

theorem binade_subnormal (x : ℚ) (h : |x| < (2 : ℚ) ^ (-1021 : ℤ)) : binade x = -1022 := by
  unfold binade
  split_ifs with h0
  · rfl
  · apply max_eq_right
    have hpos : 0 < |x| := abs_pos.mpr h0
    have : Int.log 2 |x| < -1021 := by
      rw [← Int.lt_zpow_iff_log_lt (by norm_num) hpos]
      exact_mod_cast h
    omega

theorem ulp_pos (x : ℚ) : 0 < ulp x := by
  unfold ulp
  positivity

/-- The spacing of the doubles around `x` is at most `|x| / 2 ^ 52`, or the spacing
`2 ^ (-1074)` of the subnormal numbers. -/
theorem ulp_le (x : ℚ) : ulp x ≤ |x| * (2 : ℚ) ^ (-52 : ℤ) + (2 : ℚ) ^ (-1074 : ℤ) := by
  have h52 : (0 : ℚ) < (2 : ℚ) ^ (-52 : ℤ) := by positivity
  have hsub : (2 : ℚ) ^ ((-1022 : ℤ) - 52) ≤
      |x| * (2 : ℚ) ^ (-52 : ℤ) + (2 : ℚ) ^ (-1074 : ℤ) := by
    have : (0 : ℚ) ≤ |x| * (2 : ℚ) ^ (-52 : ℤ) := by positivity
    rw [show ((-1022 : ℤ) - 52) = -1074 by norm_num]
    linarith
  unfold ulp binade
  split_ifs with h0
  · exact hsub
  · rcases le_total (Int.log 2 |x|) (-1022) with h | h
    · rw [max_eq_right h]
      exact hsub
    · rw [max_eq_left h]
      have hpos : 0 < |x| := abs_pos.mpr h0
      have hle := Int.zpow_log_le_self (b := 2) (R := ℚ) (by norm_num) hpos
      have hsplit : (2 : ℚ) ^ (Int.log 2 |x| - 52) =
          (2 : ℚ) ^ (Int.log 2 |x|) * (2 : ℚ) ^ (-52 : ℤ) := by
        rw [← zpow_add₀ (by norm_num : (2 : ℚ) ≠ 0)]
        rfl
      rw [hsplit]
      have h1074 : (0 : ℚ) < (2 : ℚ) ^ (-1074 : ℤ) := by positivity
      have hle' : (2 : ℚ) ^ (Int.log 2 |x|) ≤ |x| := by exact_mod_cast hle
      nlinarith

/-- The nearest double is within half a spacing of the number. -/
theorem nearestDouble_near (x : ℚ) : |nearestDouble x - x| ≤ ulp x / 2 := by
  have hu := ulp_pos x
  have h := roundHalfEven_near (x / ulp x)
  unfold nearestDouble
  have hx : x = x / ulp x * ulp x := by field_simp
  have : (roundHalfEven (x / ulp x) : ℚ) * ulp x - x =
      ((roundHalfEven (x / ulp x) : ℚ) - x / ulp x) * ulp x := by
    rw [sub_mul, ← hx]
  rw [this, abs_mul, abs_of_pos hu]
  calc |(roundHalfEven (x / ulp x) : ℚ) - x / ulp x| * ulp x ≤ 1 / 2 * ulp x :=
        mul_le_mul_of_nonneg_right h (le_of_lt hu)
    _ = ulp x / 2 := by ring

/-- The rounding error of one operation: relative `2 ^ (-53)`, or absolute `2 ^ (-1075)`
among the subnormal numbers. -/
theorem nearestDouble_error (x : ℚ) :
    |nearestDouble x - x| ≤ |x| / 2 ^ 53 + 1 / 2 ^ 1075 := by
  have h1 := nearestDouble_near x
  have h2 := ulp_le x
  have e1 : (2 : ℚ) ^ (-52 : ℤ) = 1 / 2 ^ 52 := by
    rw [zpow_neg, one_div]
    norm_cast
  have e2 : (2 : ℚ) ^ (-1074 : ℤ) = 1 / 2 ^ 1074 := by
    rw [zpow_neg, one_div]
    norm_cast
  rw [e1, e2] at h2
  have e3 : |x| / 2 ^ 53 + 1 / 2 ^ 1075 = (|x| * (1 / 2 ^ 52) + 1 / 2 ^ 1074) / 2 := by
    rw [pow_succ _ 52, pow_succ _ 1074]
    field_simp
    ring
  rw [e3]
  linarith

/-- The nearest double of a number whose binade and nearest multiple are known. -/
theorem nearestDouble_eq (x : ℚ) (e m : ℤ) (he : -1022 ≤ e) (hlo : (2 : ℚ) ^ e ≤ |x|)
    (hhi : |x| < (2 : ℚ) ^ (e + 1)) (hm : |x / (2 : ℚ) ^ (e - 52) - m| < 1 / 2) :
    nearestDouble x = m * (2 : ℚ) ^ (e - 52) := by
  unfold nearestDouble ulp
  rw [binade_eq x e he hlo hhi, roundHalfEven_eq _ m hm]

theorem roundHalfEven_ge_floor (q : ℚ) : ⌊q⌋ ≤ roundHalfEven q := by
  unfold roundHalfEven
  split_ifs <;> omega

theorem nearestDouble_nonneg (x : ℚ) (hx : 0 ≤ x) : 0 ≤ nearestDouble x := by
  unfold nearestDouble
  have hu := ulp_pos x
  have hq : 0 ≤ x / ulp x := div_nonneg hx (le_of_lt hu)
  have hf : 0 ≤ ⌊x / ulp x⌋ := Int.floor_nonneg.mpr hq
  have hr : (0 : ℚ) ≤ ((roundHalfEven (x / ulp x) : ℤ) : ℚ) := by
    exact_mod_cast le_trans hf (roundHalfEven_ge_floor _)
  exact mul_nonneg hr (le_of_lt hu)

/-- The double nearest to a positive `x`, from the exponent `e` of its binade and the
significand `m` nearest to `x / 2 ^ (e - 52)`. -/
theorem nearestDouble_of (x y : ℚ) (e m : ℤ) (he : -1022 ≤ e) (hx : 0 < x)
    (hlo : (2 : ℚ) ^ e ≤ x) (hhi : x < (2 : ℚ) ^ (e + 1))
    (hm : |x / (2 : ℚ) ^ (e - 52) - m| < 1 / 2) (hy : (m : ℚ) * (2 : ℚ) ^ (e - 52) = y) :
    nearestDouble x = y := by
  rw [← hy]
  rw [← abs_of_pos hx] at hlo hhi
  exact nearestDouble_eq x e m he hlo hhi hm

theorem round_half_up_near (y : ℚ) : |((⌊y + 1 / 2⌋ : ℤ) : ℚ) - y| ≤ 1 / 2 := by
  have h1 := Int.floor_le (y + 1 / 2)
  have h2 := Int.lt_floor_add_one (y + 1 / 2)
  rw [abs_le]
  constructor <;> linarith

theorem nearestDouble_abs_le (x : ℚ) :
    |nearestDouble x| ≤ |x| + (|x| / 2 ^ 53 + 1 / 2 ^ 1075) := by
  have h := nearestDouble_error x
  have h2 := abs_sub_abs_le_abs_sub (nearestDouble x) x
  linarith

/-- An operation whose exact result is at most `10 ^ 300` in size returns a finite
number, the nearest double. -/
theorem roundToDouble_fin (x : ℚ) (h : |x| ≤ 10 ^ 300) :
    roundToDouble x = JsNumber.fin (nearestDouble x) := by
  have hb := nearestDouble_abs_le x
  have hlt : |nearestDouble x| < (2 : ℚ) ^ 1024 := by
    have h1 : |x| / 2 ^ 53 ≤ |x| := by
      apply div_le_self (abs_nonneg x)
      norm_num
    have h2 : (1 : ℚ) / 2 ^ 1075 ≤ 1 := by
      rw [div_le_one (by positivity)]
      exact one_le_pow₀ (by norm_num)
    have h3 : (2 : ℚ) * 10 ^ 300 + 1 < 2 ^ 1024 := by norm_num
    linarith
  unfold roundToDouble
  rw [if_neg (not_le.mpr hlt)]

/-- The three roundings of `Math.round(p * N) / N`: the result is within half a unit of the
last place kept, `1 / (2 N)`, of `p`, up to the rounding error of the three operations. -/
theorem scaled_round_error (p N : ℚ) (hN1 : 1 ≤ N) (hN2 : N ≤ 10 ^ 8) (hp : |p| ≤ 10 ^ 290) :
    |nearestDouble (((⌊nearestDouble (nearestDouble p * N) + 1 / 2⌋ : ℤ) : ℚ) / N) - p| ≤
        1 / (2 * N) + (|p| + 1 / N) / 2 ^ 50 ∧
      |nearestDouble p * N| ≤ 10 ^ 300 ∧
      |((⌊nearestDouble (nearestDouble p * N) + 1 / 2⌋ : ℤ) : ℚ) / N| ≤ 10 ^ 300 := by
  have hN : 0 < N := by linarith
  set p1 := nearestDouble p with hp1
  set p2 := nearestDouble (p1 * N) with hp2
  set k : ℚ := ((⌊p2 + 1 / 2⌋ : ℤ) : ℚ) with hk
  set u := nearestDouble (k / N) with hu
  have e1 := nearestDouble_error p
  have e2 := nearestDouble_error (p1 * N)
  have ek := round_half_up_near p2
  have e3 := nearestDouble_error (k / N)
  rw [← hp1] at e1
  rw [← hp2] at e2
  rw [← hk] at ek
  rw [← hu] at e3
  -- the scaled quantities
  have hh : 0 < 1 / (2 * N) := by positivity
  have hhlo : (1 : ℚ) / (2 * 10 ^ 8) ≤ 1 / (2 * N) := by
    apply one_div_le_one_div_of_le (by positivity)
    linarith
  have hhhi : 1 / (2 * N) ≤ 1 / 2 := by
    apply one_div_le_one_div_of_le (by norm_num)
    linarith
  have hinv : 1 / N = 2 * (1 / (2 * N)) := by field_simp
  have s2 : |p2 / N - p1| ≤ |p1| / 2 ^ 53 + 1 / 2 ^ 1075 := by
    have : p2 / N - p1 = (p2 - p1 * N) / N := by
      field_simp
      ring
    rw [this, abs_div, abs_of_pos hN, div_le_iff₀ hN]
    have hm : |p1 * N| = |p1| * N := by rw [abs_mul, abs_of_pos hN]
    rw [hm] at e2
    have : (1 : ℚ) / 2 ^ 1075 ≤ 1 / 2 ^ 1075 * N := by
      have : (0 : ℚ) < 1 / 2 ^ 1075 := by positivity
      nlinarith
    calc |p2 - p1 * N| ≤ |p1| * N / 2 ^ 53 + 1 / 2 ^ 1075 := e2
      _ ≤ (|p1| / 2 ^ 53 + 1 / 2 ^ 1075) * N := by
        rw [add_mul]
        have : |p1| * N / 2 ^ 53 = |p1| / 2 ^ 53 * N := by ring
        linarith
  have sk : |k / N - p2 / N| ≤ 1 / (2 * N) := by
    have : k / N - p2 / N = (k - p2) / N := by field_simp
    rw [this, abs_div, abs_of_pos hN, div_le_iff₀ hN]
    have : 1 / (2 * N) * N = 1 / 2 := by
      field_simp
      ring
    rw [this]
    exact ek
  have hm3 : |p1 * N| = |p1| * N := by rw [abs_mul, abs_of_pos hN]
  have hη : (1 : ℚ) / 2 ^ 1075 ≤ 1 / (2 * 10 ^ 8) / 2 ^ 60 := by norm_num
  have a1 := abs_sub_abs_le_abs_sub p1 p
  have a2 := abs_sub_abs_le_abs_sub (p2 / N) p1
  have a3 := abs_sub_abs_le_abs_sub (k / N) (p2 / N)
  have hp1b : |p1| ≤ 10 ^ 291 := by
    have : |p| / 2 ^ 53 ≤ |p| := div_le_self (abs_nonneg p) (by norm_num)
    linarith
  refine ⟨?_, ?_, ?_⟩
  · have t1 : u - p = (u - k / N) + (k / N - p2 / N) + (p2 / N - p1) + (p1 - p) := by ring
    have t2 := abs_add_three (u - k / N) (k / N - p2 / N) (p2 / N - p1)
    have t3 := abs_add ((u - k / N) + (k / N - p2 / N) + (p2 / N - p1)) (p1 - p)
    rw [← t1] at t3
    rw [hinv]
    have hpn := abs_nonneg p
    linarith
  · rw [hm3]
    nlinarith [abs_nonneg p1]
  · have hp2b : |p2 / N| ≤ 10 ^ 292 := by linarith
    linarith

end ExchangeRate
end StacksGate

namespace StacksGate
namespace ExchangeRate

/-! ## The conversions in double arithmetic -/

theorem mul_fin (a b : ℚ) (h : |a * b| ≤ 10 ^ 300) :
    (JsNumber.fin a).mul (JsNumber.fin b) = JsNumber.fin (nearestDouble (a * b)) := by
  rw [← roundToDouble_fin _ h]
  rfl

theorem div_fin (a b : ℚ) (hb : b ≠ 0) (h : |a / b| ≤ 10 ^ 300) :
    (JsNumber.fin a).div (JsNumber.fin b) = JsNumber.fin (nearestDouble (a / b)) := by
  rw [← roundToDouble_fin _ h]
  simp only [JsNumber.div, if_neg hb]

theorem sub_fin (a b : ℚ) (h : |a - b| ≤ 10 ^ 300) :
    (JsNumber.fin a).sub (JsNumber.fin b) = JsNumber.fin (nearestDouble (a - b)) := by
  rw [← roundToDouble_fin _ h]
  rfl

theorem convertSbtcToUsd_fin (net : String → RateReply) (st : RateState) (a r : ℚ)
    (hrate : (getCurrentExchangeRate net st).1.btc_usd = JsNumber.fin r)
    (h : |a * r| ≤ 10 ^ 290) :
    (convertSbtcToUsd net st (JsNumber.fin a)).1 =
      { amount_sbtc := JsNumber.fin a,
        amount_usd := JsNumber.fin (nearestDouble
          (((⌊nearestDouble (nearestDouble (a * r) * 100) + 1 / 2⌋ : ℤ) : ℚ) / 100)),
        exchange_rate := JsNumber.fin r,
        timestamp := (getCurrentExchangeRate net st).2.dateNow } := by
  obtain ⟨-, h2, h3⟩ := scaled_round_error (a * r) 100 (by norm_num) (by norm_num) h
  have h1 : |a * r| ≤ 10 ^ 300 := le_trans h (by norm_num)
  simp only [convertSbtcToUsd, hrate]
  rw [mul_fin a r h1, mul_fin _ 100 h2]
  simp only [JsNumber.round]
  rw [div_fin _ 100 (by norm_num) h3]

theorem convertUsdToSbtc_fin (net : String → RateReply) (st : RateState) (a r : ℚ)
    (hr : 0 < r) (hrate : (getCurrentExchangeRate net st).1.btc_usd = JsNumber.fin r)
    (h : |a / r| ≤ 10 ^ 290) :
    (convertUsdToSbtc net st (JsNumber.fin a)).1 =
      { amount_sbtc := JsNumber.fin (nearestDouble
          (((⌊nearestDouble (nearestDouble (a / r) * 100000000) + 1 / 2⌋ : ℤ) : ℚ) /
            100000000)),
        amount_usd := JsNumber.fin a,
        exchange_rate := JsNumber.fin r,
        timestamp := (getCurrentExchangeRate net st).2.dateNow } := by
  obtain ⟨-, h2, h3⟩ := scaled_round_error (a / r) 100000000 (by norm_num) (by norm_num) h
  have h1 : |a / r| ≤ 10 ^ 300 := le_trans h (by norm_num)
  simp only [convertUsdToSbtc, hrate]
  rw [div_fin a r (ne_of_gt hr) h1, mul_fin _ 100000000 h2]
  simp only [JsNumber.round]
  rw [div_fin _ 100000000 (by norm_num) h3]

/-- C22 (as amended): with a finite amount `a` and a snapshot of rate `r > 0`, the products
and quotients being doubles rounded to nearest and none overflowing, `convertSbtcToUsd`
returns as `amount_usd` the double nearest to `k / 100` for an integer `k`, within
`0.005 + (|a * r| + 0.01) / 2^50` of `a * r`, and `convertUsdToSbtc` returns as
`amount_sbtc` the double nearest to `k / 10^8` for an integer `k`, within
`0.5e-8 + (|a / r| + 1e-8) / 2^50` of `a / r`; each returns the amount it was given and the
rate used. -/
theorem convert_rounds_and_echoes (net : String → RateReply) (st : RateState) (a r : ℚ)
    (hr : 0 < r) (hrate : (getCurrentExchangeRate net st).1.btc_usd = JsNumber.fin r)
    (husd : |a * r| ≤ 10 ^ 290) (htoken : |a / r| ≤ 10 ^ 290) :
    (∃ (k : ℤ) (u : ℚ),
      (convertSbtcToUsd net st (JsNumber.fin a)).1.amount_usd = JsNumber.fin u ∧
      u = nearestDouble ((k : ℚ) / 100) ∧
      |u - a * r| ≤ 5 / 1000 + (|a * r| + 1 / 100) / 2 ^ 50 ∧
      (convertSbtcToUsd net st (JsNumber.fin a)).1.amount_sbtc = JsNumber.fin a ∧
      (convertSbtcToUsd net st (JsNumber.fin a)).1.exchange_rate = JsNumber.fin r) ∧
    (∃ (k : ℤ) (s : ℚ),
      (convertUsdToSbtc net st (JsNumber.fin a)).1.amount_sbtc = JsNumber.fin s ∧
      s = nearestDouble ((k : ℚ) / 100000000) ∧
      |s - a / r| ≤ 5 / 1000000000 + (|a / r| + 1 / 100000000) / 2 ^ 50 ∧
      (convertUsdToSbtc net st (JsNumber.fin a)).1.amount_usd = JsNumber.fin a ∧
      (convertUsdToSbtc net st (JsNumber.fin a)).1.exchange_rate = JsNumber.fin r) := by
  have e1 := (scaled_round_error (a * r) 100 (by norm_num) (by norm_num) husd).1
  have e2 := (scaled_round_error (a / r) 100000000 (by norm_num) (by norm_num) htoken).1
  have c1 : (1 : ℚ) / (2 * 100) = 5 / 1000 := by norm_num
  have c2 : (1 : ℚ) / (2 * 100000000) = 5 / 1000000000 := by norm_num
  rw [c1] at e1
  rw [c2] at e2
  refine ⟨⟨⌊nearestDouble (nearestDouble (a * r) * 100) + 1 / 2⌋, _, ?_, rfl, e1, ?_, ?_⟩,
    ⟨⌊nearestDouble (nearestDouble (a / r) * 100000000) + 1 / 2⌋, _, ?_, rfl, e2, ?_, ?_⟩⟩
  · rw [convertSbtcToUsd_fin net st a r hrate husd]
  · rw [convertSbtcToUsd_fin net st a r hrate husd]
  · rw [convertSbtcToUsd_fin net st a r hrate husd]
  · rw [convertUsdToSbtc_fin net st a r hr hrate htoken]
  · rw [convertUsdToSbtc_fin net st a r hr hrate htoken]
  · rw [convertUsdToSbtc_fin net st a r hr hrate htoken]

end ExchangeRate
end StacksGate

namespace StacksGate
namespace ExchangeRate

/-- C22, witness: 0.5 sBTC and 0.5 USD under the cached snapshot of rate 64000. -/
theorem convert_rounds_and_echoes_witness :
    (∃ (k : ℤ) (u : ℚ),
      (convertSbtcToUsd deadNet cachedState (JsNumber.fin (1 / 2))).1.amount_usd =
        JsNumber.fin u ∧
      u = nearestDouble ((k : ℚ) / 100) ∧
      |u - 1 / 2 * 64000| ≤ 5 / 1000 + (|(1 / 2 : ℚ) * 64000| + 1 / 100) / 2 ^ 50 ∧
      (convertSbtcToUsd deadNet cachedState (JsNumber.fin (1 / 2))).1.amount_sbtc =
        JsNumber.fin (1 / 2) ∧
      (convertSbtcToUsd deadNet cachedState (JsNumber.fin (1 / 2))).1.exchange_rate =
        JsNumber.fin 64000) ∧
    (∃ (k : ℤ) (s : ℚ),
      (convertUsdToSbtc deadNet cachedState (JsNumber.fin (1 / 2))).1.amount_sbtc =
        JsNumber.fin s ∧
      s = nearestDouble ((k : ℚ) / 100000000) ∧
      |s - 1 / 2 / 64000| ≤
        5 / 1000000000 + (|(1 / 2 : ℚ) / 64000| + 1 / 100000000) / 2 ^ 50 ∧
      (convertUsdToSbtc deadNet cachedState (JsNumber.fin (1 / 2))).1.amount_usd =
        JsNumber.fin (1 / 2) ∧
      (convertUsdToSbtc deadNet cachedState (JsNumber.fin (1 / 2))).1.exchange_rate =
        JsNumber.fin 64000) :=
  convert_rounds_and_echoes deadNet cachedState (1 / 2) 64000 (by norm_num) (by decide)
    (by rw [abs_le]; constructor <;> norm_num) (by rw [abs_le]; constructor <;> norm_num)

/-- C22, counterexample: the amount 0.36 USD, which is the double
`3242591731706757 / 2^53`, under the cached snapshot of rate 64000. The quotient rounds to
the double `5.6249999999999995e-06`, its product with `10^8` rounds to `562.5`, which
`Math.round` takes to 563, and the result is the double nearest to `0.00000563`, more than
`0.5e-8` away from the quotient of the amount and the rate. -/
theorem convertUsdToSbtc_beyond_half_unit :
    nearestDouble (36 / 100) = 3242591731706757 / 9007199254740992 ∧
      (getCurrentExchangeRate deadNet cachedState).1.btc_usd = JsNumber.fin 64000 ∧
      (convertUsdToSbtc deadNet cachedState
        (JsNumber.fin (3242591731706757 / 9007199254740992))).1.amount_sbtc =
        JsNumber.fin (3323365412319513 / 590295810358705651712) ∧
      nearestDouble (563 / 100000000) = 3323365412319513 / 590295810358705651712 ∧
      ¬ |(3323365412319513 / 590295810358705651712 : ℚ) -
          3242591731706757 / 9007199254740992 / 64000| ≤ 5 / 1000000000 := by
  have hrate : (getCurrentExchangeRate deadNet cachedState).1.btc_usd = JsNumber.fin 64000 := by
    decide
  have h0 : nearestDouble (36 / 100) = 3242591731706757 / 9007199254740992 := by
    apply nearestDouble_of _ _ (-2) 6485183463413514 (by norm_num) (by norm_num)
      (by norm_num) (by norm_num)
    · rw [abs_lt]
      constructor <;> norm_num
    · norm_num
  have h1 : nearestDouble ((3242591731706757 / 9007199254740992 : ℚ) / 64000) =
      3320413933267719 / 590295810358705651712 := by
    apply nearestDouble_of _ _ (-18) 6640827866535438 (by norm_num) (by norm_num)
      (by norm_num) (by norm_num)
    · rw [abs_lt]
      constructor <;> norm_num
    · norm_num
  have h2 : nearestDouble ((3320413933267719 / 590295810358705651712 : ℚ) * 100000000) =
      1125 / 2 := by
    apply nearestDouble_of _ _ 9 4947802324992000 (by norm_num) (by norm_num)
      (by norm_num) (by norm_num)
    · rw [abs_lt]
      constructor <;> norm_num
    · norm_num
  have hk : ⌊(1125 / 2 : ℚ) + 1 / 2⌋ = 563 := by
    rw [Int.floor_eq_iff]
    constructor <;> norm_num
  have h3 : nearestDouble (563 / 100000000) = 3323365412319513 / 590295810358705651712 := by
    apply nearestDouble_of _ _ (-18) 6646730824639026 (by norm_num) (by norm_num)
      (by norm_num) (by norm_num)
    · rw [abs_lt]
      constructor <;> norm_num
    · norm_num
  refine ⟨h0, hrate, ?_, h3, ?_⟩
  · rw [convertUsdToSbtc_fin deadNet cachedState _ 64000 (by norm_num) hrate
      (by rw [abs_le]; constructor <;> norm_num)]
    simp only [h1, h2, hk]
    rw [← h3]
    norm_num
  · rw [abs_le]
    norm_num

end ExchangeRate
end StacksGate

namespace StacksGate
namespace ExchangeRate

/-- The token amount got from `X` at rate `r`, taken back to fiat, before the second
rounding: it differs from `X` by at most `r` times the error of the token amount. -/
theorem token_amount_back (X r s : ℚ) (hX : 0 ≤ X) (hr : 0 < r)
    (hs : |s - X / r| ≤ 5 / 1000000000 + (|X / r| + 1 / 100000000) / 2 ^ 50) :
    |s * r - X| ≤ r * (5 / 1000000000) + (X + r / 100000000) / 2 ^ 50 := by
  have hne : r ≠ 0 := ne_of_gt hr
  have hX2 : X / r * r = X := div_mul_cancel₀ X hne
  have habs : |X / r| = X / r := abs_of_nonneg (div_nonneg hX (le_of_lt hr))
  rw [habs] at hs
  have e : s * r - X = (s - X / r) * r := by rw [sub_mul, hX2]
  have hb : (5 / 1000000000 + (X / r + 1 / 100000000) / 2 ^ 50) * r =
      r * (5 / 1000000000) + (X + r / 100000000) / 2 ^ 50 := by
    have : (5 / 1000000000 + (X / r + 1 / 100000000) / 2 ^ 50) * r =
        r * (5 / 1000000000) + (X / r * r + r / 100000000) / 2 ^ 50 := by ring
    rw [this, hX2]
  rw [e, abs_mul, abs_of_pos hr, ← hb]
  exact mul_le_mul_of_nonneg_right hs (le_of_lt hr)

/-- C21 (as amended): for a fiat amount `X` valid for `usd` and a snapshot of rate `r`
between `10^-280` and `10^280`, converting `X` to the token with `convertUsdToSbtc` and the
resulting `amount_sbtc` back with `convertSbtcToUsd` under the same rate returns an
`amount_usd` within `0.005 + 0.5e-8 * r + (X + 1e-8 * r + 0.01) / 2^48` of `X`: half a
cent, half a token unit taken back at the rate, and the rounding error of the double
operations. -/
theorem usd_round_trip (net : String → RateReply) (st st2 : RateState) (X r : ℚ)
    (hX1 : 1 / 100 ≤ X) (hX2 : X ≤ 1000000) (hr1 : 1 / 10 ^ 280 ≤ r) (hr2 : r ≤ 10 ^ 280)
    (h1 : (getCurrentExchangeRate net st).1.btc_usd = JsNumber.fin r)
    (h2 : (getCurrentExchangeRate net st2).1.btc_usd = JsNumber.fin r) :
    ∃ y : ℚ,
      (convertSbtcToUsd net st2
        (convertUsdToSbtc net st (JsNumber.fin X)).1.amount_sbtc).1.amount_usd =
        JsNumber.fin y ∧
      |y - X| ≤ 5 / 1000 + r * (5 / 1000000000) + (X + r / 100000000 + 1 / 100) / 2 ^ 48 := by
  have hr : 0 < r := lt_of_lt_of_le (by positivity) hr1
  have hX : 0 ≤ X := by linarith
  have hq0 : 0 ≤ X / r := div_nonneg hX (le_of_lt hr)
  have hq : |X / r| ≤ 10 ^ 290 := by
    rw [abs_of_nonneg hq0, div_le_iff₀ hr]
    have : (10 : ℚ) ^ 290 * (1 / 10 ^ 280) ≤ 10 ^ 290 * r :=
      mul_le_mul_of_nonneg_left hr1 (by positivity)
    have e : (10 : ℚ) ^ 290 * (1 / 10 ^ 280) = 10 ^ 10 := by norm_num
    rw [e] at this
    have : (1000000 : ℚ) ≤ 10 ^ 10 := by norm_num
    linarith
  have es := (scaled_round_error (X / r) 100000000 (by norm_num) (by norm_num) hq).1
  have c2 : (1 : ℚ) / (2 * 100000000) = 5 / 1000000000 := by norm_num
  rw [c2] at es
  have hback := token_amount_back X r _ hX hr es
  rw [abs_le] at hback
  set s := nearestDouble
    (((⌊nearestDouble (nearestDouble (X / r) * 100000000) + 1 / 2⌋ : ℤ) : ℚ) / 100000000)
    with hs
  have hsr : |s * r| ≤ 10 ^ 290 := by
    rw [abs_le]
    have e1 : (1000000 : ℚ) + (10 ^ 280 * (5 / 1000000000) +
        (1000000 + 10 ^ 280 / 100000000) / 2 ^ 50) ≤ 10 ^ 290 := by norm_num
    constructor <;> linarith [hback.1, hback.2]
  have ey := (scaled_round_error (s * r) 100 (by norm_num) (by norm_num) hsr).1
  have c1 : (1 : ℚ) / (2 * 100) = 5 / 1000 := by norm_num
  rw [c1] at ey
  refine ⟨nearestDouble
    (((⌊nearestDouble (nearestDouble (s * r) * 100) + 1 / 2⌋ : ℤ) : ℚ) / 100), ?_, ?_⟩
  · rw [convertUsdToSbtc_fin net st X r hr h1 hq, convertSbtcToUsd_fin net st2 _ r h2 hsr]
  · have hsrb : |s * r| ≤ X + (r * (5 / 1000000000) + (X + r / 100000000) / 2 ^ 50) := by
      rw [abs_le]
      constructor <;> linarith [hback.1, hback.2]
    rw [abs_le] at ey ⊢
    constructor <;> linarith [hback.1, hback.2, ey.1, ey.2]

/-- C21, witness: 25.00 USD under the cached snapshot of rate 64000. -/
theorem usd_round_trip_witness :
    ∃ y : ℚ,
      (convertSbtcToUsd deadNet cachedState
        (convertUsdToSbtc deadNet cachedState (JsNumber.fin 25)).1.amount_sbtc).1.amount_usd =
        JsNumber.fin y ∧
      |y - 25| ≤ 5 / 1000 + 64000 * (5 / 1000000000) +
        (25 + 64000 / 100000000 + 1 / 100) / 2 ^ 48 :=
  usd_round_trip deadNet cachedState cachedState 25 64000 (by norm_num) (by norm_num)
    (by norm_num) (by norm_num) (by decide) (by decide)

/-- C21, counterexample: the amount 0.015 USD, which is the double
`1080863910568919 / 2^56`, is valid for `usd`; under the cached snapshot of rate 64000 it
converts to the double nearest to 0.00000023 sBTC, which converts back to the double
nearest to 0.01 USD, 0.005 away from the amount. -/
theorem usd_round_trip_off_by_half_cent :
    nearestDouble (15 / 1000) = 1080863910568919 / 72057594037927936 ∧
      isValidAmount (JsNumber.fin (1080863910568919 / 72057594037927936)) "usd" = true ∧
      (getCurrentExchangeRate deadNet cachedState).1.btc_usd = JsNumber.fin 64000 ∧
      (convertUsdToSbtc deadNet cachedState (JsNumber.fin (1080863910568919 / 72057594037927936))).2 = cachedState ∧
      (convertUsdToSbtc deadNet cachedState (JsNumber.fin (1080863910568919 / 72057594037927936))).1.amount_sbtc =
        JsNumber.fin (8689154328480147 / 37778931862957161709568) ∧
      (convertSbtcToUsd deadNet cachedState (JsNumber.fin (8689154328480147 / 37778931862957161709568))).1.amount_usd =
        JsNumber.fin (5764607523034235 / 576460752303423488) ∧
      nearestDouble (1 / 100) = 5764607523034235 / 576460752303423488 ∧
      ¬ |(5764607523034235 / 576460752303423488 : ℚ) - 1080863910568919 / 72057594037927936| ≤ 1 / 100000000 := by
  have hrate : (getCurrentExchangeRate deadNet cachedState).1.btc_usd = JsNumber.fin 64000 := by
    decide
  have hstate : (getCurrentExchangeRate deadNet cachedState).2 = cachedState := by decide
  have h0 : nearestDouble (15 / 1000) = 1080863910568919 / 72057594037927936 := by
    apply nearestDouble_of _ _ (-7) 8646911284551352 (by norm_num) (by norm_num)
      (by norm_num) (by norm_num)
    · rw [abs_lt]
      constructor <;> norm_num
    · norm_num
  have h1 : nearestDouble ((1080863910568919 / 72057594037927936 : ℚ) / 64000) =
      1106804644422573 / 4722366482869645213696 := by
    apply nearestDouble_of _ _ (-23) 8854437155380584 (by norm_num) (by norm_num)
      (by norm_num) (by norm_num)
    · rw [abs_lt]
      constructor <;> norm_num
    · norm_num
  have h2 : nearestDouble ((1106804644422573 / 4722366482869645213696 : ℚ) * 100000000) =
      6597069766655999 / 281474976710656 := by
    apply nearestDouble_of _ _ 4 6597069766655999 (by norm_num) (by norm_num)
      (by norm_num) (by norm_num)
    · rw [abs_lt]
      constructor <;> norm_num
    · norm_num
  have hk : ⌊(6597069766655999 / 281474976710656 : ℚ) + 1 / 2⌋ = 23 := by
    rw [Int.floor_eq_iff]
    constructor <;> norm_num
  have h3 : nearestDouble (23 / 100000000) = 8689154328480147 / 37778931862957161709568 := by
    apply nearestDouble_of _ _ (-23) 8689154328480147 (by norm_num) (by norm_num)
      (by norm_num) (by norm_num)
    · rw [abs_lt]
      constructor <;> norm_num
    · norm_num
  have h4 : nearestDouble ((8689154328480147 / 37778931862957161709568 : ℚ) * 64000) =
      4242751136953197 / 288230376151711744 := by
    apply nearestDouble_of _ _ (-7) 8485502273906394 (by norm_num) (by norm_num)
      (by norm_num) (by norm_num)
    · rw [abs_lt]
      constructor <;> norm_num
    · norm_num
  have h5 : nearestDouble ((4242751136953197 / 288230376151711744 : ℚ) * 100) =
      3314649325744685 / 2251799813685248 := by
    apply nearestDouble_of _ _ 0 6629298651489370 (by norm_num) (by norm_num)
      (by norm_num) (by norm_num)
    · rw [abs_lt]
      constructor <;> norm_num
    · norm_num
  have hk2 : ⌊(3314649325744685 / 2251799813685248 : ℚ) + 1 / 2⌋ = 1 := by
    rw [Int.floor_eq_iff]
    constructor <;> norm_num
  have h6 : nearestDouble (1 / 100) = 5764607523034235 / 576460752303423488 := by
    apply nearestDouble_of _ _ (-7) 5764607523034235 (by norm_num) (by norm_num)
      (by norm_num) (by norm_num)
    · rw [abs_lt]
      constructor <;> norm_num
    · norm_num
  refine ⟨h0, ?_, hrate, ?_, ?_, ?_, h6, ?_⟩
  · simp [isValidAmount, JsNumber.isNaN, JsNumber.leZero, JsNumber.ge, JsNumber.le]
    norm_num
  · simp [convertUsdToSbtc, hstate]
  · rw [convertUsdToSbtc_fin deadNet cachedState _ 64000 (by norm_num) hrate
      (by rw [abs_le]; constructor <;> norm_num)]
    simp only [h1, h2, hk]
    rw [← h3]
    norm_num
  · rw [convertSbtcToUsd_fin deadNet cachedState _ 64000 hrate
      (by rw [abs_le]; constructor <;> norm_num)]
    simp only [h4, h5, hk2]
    rw [← h6]
    norm_num
  · rw [abs_le]
    norm_num

end ExchangeRate
end StacksGate

namespace StacksGate
namespace ExchangeRate

theorem queryLoop_clock (net : String → RateReply) (sources : List RateSource) :
    ∀ st : RateState, (queryLoop net st sources).2.dateNow = st.dateNow ∧
      (queryLoop net st sources).2.redisConnected = st.redisConnected ∧
      (queryLoop net st sources).2.previous = st.previous := by
  induction sources with
  | nil => intro st; simp [queryLoop]
  | cons s rest ih =>
    intro st
    simp only [queryLoop, fetchExchangeRateFromSource]
    split
    · next rate st1 heq =>
      simp only [Prod.mk.injEq] at heq
      split
      · rw [← heq.2]; exact ih _
      · rw [← heq.2]; exact ⟨rfl, rfl, rfl⟩
    · next st1 heq =>
      simp only [Prod.mk.injEq] at heq
      rw [← heq.2]; exact ih _

/-- The clock, the connection and the previous-rate sample are left as they were by
`getCurrentExchangeRate`. -/
theorem getCurrentExchangeRate_frame (net : String → RateReply) (st : RateState) :
    (getCurrentExchangeRate net st).2.dateNow = st.dateNow ∧
      (getCurrentExchangeRate net st).2.redisConnected = st.redisConnected ∧
      (getCurrentExchangeRate net st).2.previous = st.previous := by
  have hq := queryLoop_clock net EXCHANGE_RATE_SOURCES st
  unfold getCurrentExchangeRate
  split
  · exact ⟨rfl, rfl, rfl⟩
  · split
    · next st1 heq => rw [heq] at hq; exact hq
    · next rate src st1 heq => rw [heq] at hq; exact hq

/-- C24 (as amended): every call of `getExchangeRateWithTrend` writes the current rate as
the previous-rate sample, with a lifetime of 3600 s from the time of the call, in memory
and, when connected, in Redis, whether or not an unexpired sample exists. -/
theorem getExchangeRateWithTrend_overwrites_previous (net : String → RateReply)
    (st : RateState) :
    (getExchangeRateWithTrend net st).2.previous.memory =
        some { data := (getCurrentExchangeRate net st).1.btc_usd,
               expiry := st.dateNow + 3600 * 1000 } ∧
      (getExchangeRateWithTrend net st).2.previous.redis =
        if st.redisConnected then
          some { data := (getCurrentExchangeRate net st).1.btc_usd,
                 expiry := st.dateNow + 3600 * 1000 }
        else st.previous.redis := by
  obtain ⟨hclock, hconn, hprev⟩ := getCurrentExchangeRate_frame net st
  constructor
  · simp [getExchangeRateWithTrend, setInCache, hclock]
  · simp [getExchangeRateWithTrend, setInCache, hclock, hconn, hprev]

/-- C24, counterexample: the previous-rate sample 63000 has not expired, it expires at
1700001000 s; a call made at 1700000000 s, with the current rate 64000, leaves the sample
64000 expiring at 1700003600 s. -/
theorem getExchangeRateWithTrend_refreshes_unexpired :
    trendState.previous.memory =
        some { data := JsNumber.fin 63000, expiry := 1700001000000 } ∧
      trendState.dateNow < 1700001000000 ∧
      getFromCache JsNumber.truthy trendState trendState.previous =
        some (JsNumber.fin 63000) ∧
      (getExchangeRateWithTrend deadNet trendState).2.previous.memory =
        some { data := JsNumber.fin 64000, expiry := 1700003600000 } ∧
      (getExchangeRateWithTrend deadNet trendState).2.previous.redis =
        some { data := JsNumber.fin 64000, expiry := 1700003600000 } := by
  decide

/-- C25: `isValidAmount(amount, currency)` is `true` exactly for a finite amount greater
than 0 that lies within the bound of the unit, from 0.01 to 1000000 for `usd` and from
0.00000001 to 1000 for every other currency; `NaN`, zero, negative amounts and the
infinities are rejected for every currency. -/
theorem isValidAmount_iff (amount : JsNumber) (currency : String) :
    (isValidAmount amount currency = true ↔
        ∃ q : ℚ, amount = JsNumber.fin q ∧ 0 < q ∧
          if currency = "usd" then 1 / 100 ≤ q ∧ q ≤ 1000000
          else 1 / 100000000 ≤ q ∧ q ≤ 1000) ∧
      isValidAmount JsNumber.nan currency = false ∧
      isValidAmount JsNumber.posInf currency = false ∧
      isValidAmount JsNumber.negInf currency = false ∧
      ∀ q : ℚ, q ≤ 0 → isValidAmount (JsNumber.fin q) currency = false := by
  refine ⟨?_, ?_, ?_, ?_, ?_⟩
  · cases amount with
    | nan => simp [isValidAmount, JsNumber.isNaN]
    | posInf =>
      simp [isValidAmount, JsNumber.isNaN, JsNumber.leZero, JsNumber.ge, JsNumber.le]
    | negInf => simp [isValidAmount, JsNumber.isNaN, JsNumber.leZero]
    | fin q =>
      simp only [isValidAmount, JsNumber.isNaN, JsNumber.leZero, JsNumber.ge, JsNumber.le,
        Bool.false_eq_true, decide_eq_true_eq, false_or, JsNumber.fin.injEq,
        exists_eq_left']
      by_cases hq : q ≤ 0
      · simp only [hq, ↓reduceIte, Bool.false_eq_true, false_iff, not_and]
        intro hpos
        exact absurd hpos (not_lt.mpr hq)
      · have hpos : 0 < q := not_le.mp hq
        by_cases hc : currency = "usd"
        · simp [hq, hc, hpos]
        · simp [hq, hc, hpos]
  · simp [isValidAmount, JsNumber.isNaN]
  · simp [isValidAmount, JsNumber.isNaN, JsNumber.leZero, JsNumber.ge, JsNumber.le]
  · simp [isValidAmount, JsNumber.isNaN, JsNumber.leZero]
  · intro q hq
    simp [isValidAmount, JsNumber.isNaN, JsNumber.leZero, hq]

end ExchangeRate
end StacksGate

namespace StacksGate
namespace ExchangeRate

/-! ## The trend in double arithmetic -/

/-- The percentage change `(c - p) / p * 100` as the three double operations compute it:
the relative error is at most `2^-51`, and no operation overflows. -/
theorem changePercent_error (c p : ℚ) (hp1 : 1 / 10 ^ 100 ≤ p) (hp2 : p ≤ 10 ^ 100)
    (hc : |c| ≤ 10 ^ 100) :
    |nearestDouble (nearestDouble (nearestDouble (c - p) / p) * 100) - (c - p) / p * 100| ≤
        |(c - p) / p * 100| / 2 ^ 51 + 1 / 2 ^ 600 ∧
      |c - p| ≤ 10 ^ 300 ∧
      |nearestDouble (c - p) / p| ≤ 10 ^ 300 ∧
      |nearestDouble (nearestDouble (c - p) / p) * 100| ≤ 10 ^ 300 := by
  have hp : 0 < p := lt_of_lt_of_le (by positivity) hp1
  have hinv : 1 / p ≤ 10 ^ 100 := by
    have := one_div_le_one_div_of_le (by positivity : (0 : ℚ) < 1 / 10 ^ 100) hp1
    rwa [one_div_one_div] at this
  have hinv0 : 0 < 1 / p := by positivity
  have hd : |c - p| ≤ 2 * 10 ^ 100 := by
    have := abs_sub c p
    rw [abs_of_pos hp] at this
    linarith
  have e1 := nearestDouble_error (c - p)
  set d1 := nearestDouble (c - p) with hd1
  have hzabs : |(c - p) / p| = |c - p| * (1 / p) := by
    rw [abs_div, abs_of_pos hp]
    ring
  have hz : |(c - p) / p| ≤ 2 * 10 ^ 200 := by
    rw [hzabs]
    have h1 : |c - p| * (1 / p) ≤ 2 * 10 ^ 100 * (1 / p) :=
      mul_le_mul_of_nonneg_right hd (le_of_lt hinv0)
    have h2 : (2 : ℚ) * 10 ^ 100 * (1 / p) ≤ 2 * 10 ^ 100 * 10 ^ 100 :=
      mul_le_mul_of_nonneg_left hinv (by positivity)
    have h3 : (2 : ℚ) * 10 ^ 100 * 10 ^ 100 = 2 * 10 ^ 200 := by norm_num
    linarith
  have hw : |d1 / p - (c - p) / p| ≤ |(c - p) / p| / 2 ^ 53 + 1 / 2 ^ 1075 * 10 ^ 100 := by
    have e : d1 / p - (c - p) / p = (d1 - (c - p)) * (1 / p) := by ring
    rw [e, abs_mul, abs_of_pos hinv0, hzabs]
    have h1 : |d1 - (c - p)| * (1 / p) ≤ (|c - p| / 2 ^ 53 + 1 / 2 ^ 1075) * (1 / p) :=
      mul_le_mul_of_nonneg_right e1 (le_of_lt hinv0)
    have h2 : (1 : ℚ) / 2 ^ 1075 * (1 / p) ≤ 1 / 2 ^ 1075 * 10 ^ 100 :=
      mul_le_mul_of_nonneg_left hinv (by positivity)
    have h3 : (|c - p| / 2 ^ 53 + 1 / 2 ^ 1075) * (1 / p) =
        |c - p| * (1 / p) / 2 ^ 53 + 1 / 2 ^ 1075 * (1 / p) := by ring
    linarith
  have e2 := nearestDouble_error (d1 / p)
  set q1 := nearestDouble (d1 / p) with hq1
  have e3 := nearestDouble_error (q1 * 100)
  have hm : |q1 * 100| = |q1| * 100 := by rw [abs_mul, abs_of_pos (by norm_num : (0 : ℚ) < 100)]
  have hx : |(c - p) / p * 100| = |(c - p) / p| * 100 := by
    rw [abs_mul, abs_of_pos (by norm_num : (0 : ℚ) < 100)]
  rw [hm] at e3
  have a1 := abs_sub_abs_le_abs_sub (d1 / p) ((c - p) / p)
  have a2 := abs_sub_abs_le_abs_sub q1 (d1 / p)
  have hz0 := abs_nonneg ((c - p) / p)
  have t1 : (1 : ℚ) / 2 ^ 1075 * 10 ^ 100 ≤ 1 / 2 ^ 700 := by norm_num
  have t2 : (1 : ℚ) / 2 ^ 1075 ≤ 1 / 2 ^ 700 := by norm_num
  have t3 : (1000 : ℚ) * (1 / 2 ^ 700) ≤ 1 / 2 ^ 600 := by norm_num
  have hwb : |d1 / p| ≤ 3 * 10 ^ 200 := by
    have : |(c - p) / p| / 2 ^ 53 ≤ |(c - p) / p| := div_le_self hz0 (by norm_num)
    have : (1 : ℚ) / 2 ^ 700 ≤ 1 := by norm_num
    linarith
  have hqb : |q1| ≤ 7 * 10 ^ 200 := by
    have : |d1 / p| / 2 ^ 53 ≤ |d1 / p| := div_le_self (abs_nonneg _) (by norm_num)
    have : (1 : ℚ) / 2 ^ 700 ≤ 1 := by norm_num
    linarith
  refine ⟨?_, ?_, ?_, ?_⟩
  · have s1 : nearestDouble (q1 * 100) - (c - p) / p * 100 =
        (nearestDouble (q1 * 100) - q1 * 100) + 100 * (q1 - d1 / p) +
          100 * (d1 / p - (c - p) / p) := by ring
    have s2 := abs_add_three (nearestDouble (q1 * 100) - q1 * 100) (100 * (q1 - d1 / p))
      (100 * (d1 / p - (c - p) / p))
    rw [← s1] at s2
    have s3 : |100 * (q1 - d1 / p)| = 100 * |q1 - d1 / p| := by
      rw [abs_mul, abs_of_pos (by norm_num : (0 : ℚ) < 100)]
    have s4 : |100 * (d1 / p - (c - p) / p)| = 100 * |d1 / p - (c - p) / p| := by
      rw [abs_mul, abs_of_pos (by norm_num : (0 : ℚ) < 100)]
    rw [s3, s4] at s2
    rw [hx]
    linarith
  · linarith
  · linarith
  · rw [hm]
    linarith

/-- The double the literal `0.1` denotes. -/
theorem nearestDouble_tenth : nearestDouble (1 / 10) = 3602879701896397 / 36028797018963968 := by
  apply nearestDouble_of _ _ (-4) 7205759403792794 (by norm_num) (by norm_num)
    (by norm_num) (by norm_num)
  · rw [abs_lt]
    constructor <;> norm_num
  · norm_num

/-- The trend of a finite current rate against a finite previous rate, as a comparison of
the computed percentage change with the double `0.1`. -/
theorem trendOf_fin (c p : ℚ) (hp1 : 1 / 10 ^ 100 ≤ p) (hp2 : p ≤ 10 ^ 100)
    (hc : |c| ≤ 10 ^ 100) :
    trendOf (JsNumber.fin c) (some (JsNumber.fin p)) =
      if 3602879701896397 / 36028797018963968 <
          nearestDouble (nearestDouble (nearestDouble (c - p) / p) * 100) then Trend.up
      else if nearestDouble (nearestDouble (nearestDouble (c - p) / p) * 100) <
          -(3602879701896397 / 36028797018963968) then Trend.down
      else Trend.stable := by
  obtain ⟨-, h1, h2, h3⟩ := changePercent_error c p hp1 hp2 hc
  have hp : 0 < p := lt_of_lt_of_le (by positivity) hp1
  have hne : p ≠ 0 := ne_of_gt hp
  simp only [trendOf, JsNumber.falsy, hne, decide_False, Bool.false_eq_true, ↓reduceIte]
  rw [sub_fin c p h1, div_fin _ p hne h2, mul_fin _ 100 h3, nearestDouble_tenth]
  simp only [JsNumber.gt, JsNumber.lt, decide_eq_true_eq]

end ExchangeRate
end StacksGate

namespace StacksGate
namespace ExchangeRate

/-- C23 (as amended): with a current rate `c` of size at most `10^100` and a cached previous
rate `p` between `10^-100` and `10^100`, the change being computed in doubles,
`getExchangeRateWithTrend` returns the trend `up` when `(c - p) / p * 100` is at least
`0.1 + 2^-50`, `down` when it is at most `-(0.1 + 2^-50)`, and `stable` when its size is at
most `0.1 - 2^-50`; with no previous sample cached the trend is `stable`; the snapshot
returned with the trend is the one `getCurrentExchangeRate` returns. -/
theorem getExchangeRateWithTrend_trend (net : String → RateReply) (st : RateState) (c : ℚ)
    (hc : (getCurrentExchangeRate net st).1.btc_usd = JsNumber.fin c)
    (hsize : |c| ≤ 10 ^ 100) :
    (∀ p : ℚ, 1 / 10 ^ 100 ≤ p → p ≤ 10 ^ 100 →
        getFromCache JsNumber.truthy (getCurrentExchangeRate net st).2
          (getCurrentExchangeRate net st).2.previous = some (JsNumber.fin p) →
        (1 / 10 + 1 / 2 ^ 50 ≤ (c - p) / p * 100 →
          (getExchangeRateWithTrend net st).1.2 = Trend.up) ∧
        ((c - p) / p * 100 ≤ -(1 / 10 + 1 / 2 ^ 50) →
          (getExchangeRateWithTrend net st).1.2 = Trend.down) ∧
        (|(c - p) / p * 100| ≤ 1 / 10 - 1 / 2 ^ 50 →
          (getExchangeRateWithTrend net st).1.2 = Trend.stable)) ∧
      (getFromCache JsNumber.truthy (getCurrentExchangeRate net st).2
          (getCurrentExchangeRate net st).2.previous = none →
        (getExchangeRateWithTrend net st).1.2 = Trend.stable) ∧
      (getExchangeRateWithTrend net st).1.1 = (getCurrentExchangeRate net st).1 := by
  refine ⟨?_, ?_, rfl⟩
  · intro p hp1 hp2 hprev
    have herr := (changePercent_error c p hp1 hp2 hsize).1
    have htrend : (getExchangeRateWithTrend net st).1.2 =
        trendOf (JsNumber.fin c) (some (JsNumber.fin p)) := by
      simp only [getExchangeRateWithTrend, hprev, hc]
    rw [htrend, trendOf_fin c p hp1 hp2 hsize]
    rw [abs_le] at herr
    have t : (1 : ℚ) / 2 ^ 600 ≤ 1 / 2 ^ 60 := by norm_num
    refine ⟨?_, ?_, ?_⟩
    · intro h
      have hx : |(c - p) / p * 100| = (c - p) / p * 100 := abs_of_nonneg (by linarith)
      rw [hx] at herr
      rw [if_pos (by linarith [herr.1])]
    · intro h
      have hx : |(c - p) / p * 100| = -((c - p) / p * 100) := abs_of_nonpos (by linarith)
      rw [hx] at herr
      rw [if_neg (by linarith [herr.2]), if_pos (by linarith [herr.2])]
    · intro h
      have h0 := abs_nonneg ((c - p) / p * 100)
      have hb := abs_le.mp (le_refl |(c - p) / p * 100|)
      rw [if_neg (by linarith [herr.2, hb.2]), if_neg (by linarith [herr.1, hb.1])]
  · intro hnone
    simp only [getExchangeRateWithTrend, hnone, trendOf]

/-- C23, witness: the rate moved from 63000 to 64000, more than 0.1 %. -/
theorem getExchangeRateWithTrend_trend_witness :
    1 / 10 + 1 / 2 ^ 50 ≤ ((64000 : ℚ) - 63000) / 63000 * 100 ∧
      (getExchangeRateWithTrend deadNet trendState).1.2 = Trend.up :=
  ⟨by norm_num,
    ((getExchangeRateWithTrend_trend deadNet trendState 64000 (by decide)
      (by rw [abs_le]; constructor <;> norm_num)).1 63000 (by norm_num) (by norm_num)
      (by decide)).1 (by norm_num)⟩

/-- C23, counterexample: the rate moved from `56430.2526522515` to `56486.682904903755`,
both doubles, each its own nearest double. The change `(c - p) / p * 100` is greater than `0.1`, but the three double
operations compute the double `0.1` itself, which is not greater than `0.1`: the trend
returned is `stable`. -/
theorem getExchangeRateWithTrend_stable_above_threshold :
    nearestDouble (7763470583554685 / 137438953472) = 7763470583554685 / 137438953472 ∧
      nearestDouble (7755714868685999 / 137438953472) = 7755714868685999 / 137438953472 ∧
      (getCurrentExchangeRate deadNet boundaryState).1.btc_usd =
        JsNumber.fin (7763470583554685 / 137438953472) ∧
      getFromCache JsNumber.truthy (getCurrentExchangeRate deadNet boundaryState).2
          (getCurrentExchangeRate deadNet boundaryState).2.previous =
        some (JsNumber.fin (7755714868685999 / 137438953472)) ∧
      ((7763470583554685 / 137438953472 : ℚ) - 7755714868685999 / 137438953472) /
          (7755714868685999 / 137438953472) * 100 > 1 / 10 ∧
      (getExchangeRateWithTrend deadNet boundaryState).1.2 = Trend.stable := by
  have hcur : getCurrentExchangeRate deadNet boundaryState =
      ({ btc_usd := JsNumber.fin (7763470583554685 / 137438953472),
         last_updated := 1699999900000, source := "CoinGecko" }, boundaryState) := by
    rfl
  have hprev : getFromCache JsNumber.truthy boundaryState boundaryState.previous =
      some (JsNumber.fin (7755714868685999 / 137438953472)) := by
    simp [getFromCache, redisGet, boundaryState, emptyState, JsNumber.truthy, JsNumber.falsy]
  have h1 : nearestDouble ((7763470583554685 / 137438953472 : ℚ) -
      7755714868685999 / 137438953472) = 3877857434343 / 68719476736 := by
    apply nearestDouble_of _ _ 5 7941852025534464 (by norm_num) (by norm_num)
      (by norm_num) (by norm_num)
    · rw [abs_lt]
      constructor <;> norm_num
    · norm_num
  have h2 : nearestDouble ((3877857434343 / 68719476736 : ℚ) /
      (7755714868685999 / 137438953472)) = 1152921504606847 / 1152921504606846976 := by
    apply nearestDouble_of _ _ (-10) 4611686018427388 (by norm_num) (by norm_num)
      (by norm_num) (by norm_num)
    · rw [abs_lt]
      constructor <;> norm_num
    · norm_num
  have h3 : nearestDouble ((1152921504606847 / 1152921504606846976 : ℚ) * 100) =
      3602879701896397 / 36028797018963968 := by
    apply nearestDouble_of _ _ (-4) 7205759403792794 (by norm_num) (by norm_num)
      (by norm_num) (by norm_num)
    · rw [abs_lt]
      constructor <;> norm_num
    · norm_num
  have hdc : nearestDouble (7763470583554685 / 137438953472) =
      7763470583554685 / 137438953472 := by
    apply nearestDouble_of _ _ 15 7763470583554685 (by norm_num) (by norm_num)
      (by norm_num) (by norm_num)
    · rw [abs_lt]
      constructor <;> norm_num
    · norm_num
  have hdp : nearestDouble (7755714868685999 / 137438953472) =
      7755714868685999 / 137438953472 := by
    apply nearestDouble_of _ _ 15 7755714868685999 (by norm_num) (by norm_num)
      (by norm_num) (by norm_num)
    · rw [abs_lt]
      constructor <;> norm_num
    · norm_num
  refine ⟨hdc, hdp, ?_, ?_, ?_, ?_⟩
  · rw [hcur]
  · rw [hcur]
    exact hprev
  · norm_num
  · have htrend : (getExchangeRateWithTrend deadNet boundaryState).1.2 =
        trendOf (JsNumber.fin (7763470583554685 / 137438953472))
          (some (JsNumber.fin (7755714868685999 / 137438953472))) := by
      simp only [getExchangeRateWithTrend, hcur, hprev]
    rw [htrend, trendOf_fin _ _ (by norm_num) (by norm_num)
      (by rw [abs_le]; constructor <;> norm_num), h1, h2, h3]
    rw [if_neg (by norm_num), if_neg (by norm_num)]

end ExchangeRate
end StacksGate

namespace StacksGate
namespace PaymentRoutes

open ExchangeRate (JsNumber)

theorem updateRoute_accepted (w : World) (status : String) (d m : Value) :
    PaymentIntent.updateAccepted (PaymentIntent.updateAssignments w status
      (some [("description", d), ("metadata", m)])) = true := by
  simp [PaymentIntent.updateAccepted, PaymentIntent.updateAssignments, PaymentIntent.columns]

/-- C26: for a stored intent whose status is not `requires_payment`, the route `POST /:id`
answers every update request with a client error and leaves the whole state as it was
(no column changed, no event appended). For a stored intent of the authenticated merchant
in `requires_payment` and a body that passes the schema, the update is committed: the
status stays `requires_payment`, `description` and `metadata` hold the values of the
body (`NULL` for a field left out), one `payment_intent.requires_payment` event is
appended, and no webhook task is scheduled. -/
theorem updateRoute_only_in_requires_payment (w : World) (merchant : Row) (id : String)
    (body : UpdateBody) (row : Row)
    (hrow : PaymentIntent.findRow w.payment_intents id = some row) :
    (row.get "status" ≠ Value.str "requires_payment" →
        (updateRoute w merchant id body).1.isClientError = true ∧
          (updateRoute w merchant id body).2 = w) ∧
      (row.get "status" = Value.str "requires_payment" →
        row.get "merchant_id" = merchant.get "id" → updatePaymentIntentSchema body = true →
          (updateRoute w merchant id body).1.isClientError = false ∧
          PaymentIntent.storedStatus (updateRoute w merchant id body).2 id =
            some (Value.str "requires_payment") ∧
          SBTCService.storedColumn (updateRoute w merchant id body).2 id "description" =
            some (match body.description with
                  | some d => Value.str d
                  | none => Value.null) ∧
          SBTCService.storedColumn (updateRoute w merchant id body).2 id "metadata" =
            some (match body.metadata with
                  | some m => Value.obj m
                  | none => Value.null) ∧
          (∃ data : Row, (updateRoute w merchant id body).2.payment_events =
            w.payment_events ++
              [{ payment_intent_id := id, event_type := "payment_intent.requires_payment",
                 data := data }]) ∧
          (updateRoute w merchant id body).2.immediates = w.immediates) := by
  have hst : (PaymentIntent.withMetadata row).get "status" = row.get "status" :=
    PaymentIntent.withMetadata_get row "status" (by decide)
  have hmid : (PaymentIntent.withMetadata row).get "merchant_id" = row.get "merchant_id" :=
    PaymentIntent.withMetadata_get row "merchant_id" (by decide)
  constructor
  · intro hne
    unfold updateRoute
    simp only [PaymentIntent.findById, hrow, Option.map_some', hst, hmid]
    split_ifs <;> exact ⟨rfl, rfl⟩
  · intro hreq hown hschema
    have hstate : (updateRoute w merchant id body).2 =
        (PaymentIntent.commitUpdate w id "requires_payment"
            (some [("description",
                      match body.description with
                      | some d => Value.str d
                      | none => Value.undefined),
                   ("metadata",
                      match body.metadata with
                      | some m => Value.obj m
                      | none => Value.undefined)]) row).2 := by
      unfold updateRoute
      simp only [PaymentIntent.findById, hrow, Option.map_some', hst, hmid, hreq, hown,
        hschema, not_true_eq_false, ne_eq, ↓reduceIte, Value.text, PaymentIntent.updateStatus,
        updateRoute_accepted]
      split <;> rfl
    have hanswer : (updateRoute w merchant id body).1.isClientError = false := by
      unfold updateRoute
      simp only [PaymentIntent.findById, hrow, Option.map_some', hst, hmid, hreq, hown,
        hschema, not_true_eq_false, ne_eq, ↓reduceIte, Value.text, PaymentIntent.updateStatus,
        updateRoute_accepted]
      split <;> rfl
    rw [hstate]
    refine ⟨hanswer, ?_, ?_, ?_, ?_, ?_⟩
    · simp only [PaymentIntent.storedStatus]
      rw [PaymentIntent.findRow_commitUpdate _ _ _ _ row hrow]
      simp [PaymentIntent.updateAssignments, applyAssignments, Row.get_set]
    · simp only [SBTCService.storedColumn]
      rw [PaymentIntent.findRow_commitUpdate _ _ _ _ row hrow]
      cases body.description <;>
        simp [PaymentIntent.updateAssignments, applyAssignments, Row.get_set, toSql]
    · simp only [SBTCService.storedColumn]
      rw [PaymentIntent.findRow_commitUpdate _ _ _ _ row hrow]
      cases body.metadata <;>
        simp [PaymentIntent.updateAssignments, applyAssignments, Row.get_set, toSql]
    · simp only [PaymentIntent.commitUpdate, PaymentIntent.logEvent]
      split_ifs <;> exact ⟨_, rfl⟩
    · simp [PaymentIntent.commitUpdate, PaymentIntent.logEvent, hreq]

/-- C26, witness: an update request for a succeeded intent is answered with a client error
and changes nothing; the same request for an intent in `requires_payment` is stored. -/
theorem updateRoute_only_in_requires_payment_witness :
    ((updateRoute (PaymentIntent.sampleStore "pi_1" "succeeded") sampleMerchant "pi_1"
          sampleUpdate).1.isClientError = true ∧
        (updateRoute (PaymentIntent.sampleStore "pi_1" "succeeded") sampleMerchant "pi_1"
          sampleUpdate).2 = PaymentIntent.sampleStore "pi_1" "succeeded") ∧
      PaymentIntent.storedStatus
        (updateRoute (PaymentIntent.sampleStore "pi_1" "requires_payment") sampleMerchant
          "pi_1" sampleUpdate).2 "pi_1" = some (Value.str "requires_payment") ∧
      SBTCService.storedColumn
        (updateRoute (PaymentIntent.sampleStore "pi_1" "requires_payment") sampleMerchant
          "pi_1" sampleUpdate).2 "pi_1" "description" = some (Value.str "two books") :=
  ⟨(updateRoute_only_in_requires_payment (PaymentIntent.sampleStore "pi_1" "succeeded")
      sampleMerchant "pi_1" sampleUpdate (PaymentIntent.sampleIntent "pi_1" "succeeded")
      (by decide)).1 (by decide),
    ((updateRoute_only_in_requires_payment (PaymentIntent.sampleStore "pi_1" "requires_payment")
      sampleMerchant "pi_1" sampleUpdate (PaymentIntent.sampleIntent "pi_1" "requires_payment")
      (by decide)).2 (by decide) (by decide) (by decide)).2.1,
    ((updateRoute_only_in_requires_payment (PaymentIntent.sampleStore "pi_1" "requires_payment")
      sampleMerchant "pi_1" sampleUpdate (PaymentIntent.sampleIntent "pi_1" "requires_payment")
      (by decide)).2 (by decide) (by decide) (by decide)).2.2.1⟩

/-- The double the literal `0.000000001` denotes. -/
theorem nearestDouble_tiny :
    ExchangeRate.nearestDouble (1 / 1000000000) =
      4835703278458517 / 4835703278458516698824704 := by
  apply ExchangeRate.nearestDouble_of _ _ (-30) 4835703278458517 (by norm_num) (by norm_num)
    (by norm_num) (by norm_num)
  · rw [abs_lt]
    constructor <;> norm_num
  · norm_num

/-- The product of `0.000000001` and `100000000` is the double `0.1`, whose floor is 0. -/
theorem amountSats_tiny : amountSats (4835703278458517 / 4835703278458516698824704) = 0 := by
  have h1 : ExchangeRate.nearestDouble
      ((4835703278458517 / 4835703278458516698824704 : ℚ) * 100000000) =
      3602879701896397 / 36028797018963968 := by
    apply ExchangeRate.nearestDouble_of _ _ (-4) 7205759403792794 (by norm_num) (by norm_num)
      (by norm_num) (by norm_num)
    · rw [abs_lt]
      constructor <;> norm_num
    · norm_num
  unfold amountSats
  rw [h1, Int.floor_eq_iff]
  norm_num

/-- The amount `0.29`, which as a double is `5224175567749775 / 2^54`: its product with
`100000000` is the double `28999999.999999996`, and 28999999 is stored. -/
theorem amountSats_below_product :
    ExchangeRate.nearestDouble (29 / 100) = 5224175567749775 / 18014398509481984 ∧
      amountSats (5224175567749775 / 18014398509481984) = 28999999 := by
  have h0 : ExchangeRate.nearestDouble (29 / 100) = 5224175567749775 / 18014398509481984 := by
    apply ExchangeRate.nearestDouble_of _ _ (-2) 5224175567749775 (by norm_num) (by norm_num)
      (by norm_num) (by norm_num)
    · rw [abs_lt]
      constructor <;> norm_num
    · norm_num
  have h1 : ExchangeRate.nearestDouble
      ((5224175567749775 / 18014398509481984 : ℚ) * 100000000) =
      7784628223999999 / 268435456 := by
    apply ExchangeRate.nearestDouble_of _ _ 24 7784628223999999 (by norm_num) (by norm_num)
      (by norm_num) (by norm_num)
    · rw [abs_lt]
      constructor <;> norm_num
    · norm_num
  refine ⟨h0, ?_⟩
  unfold amountSats
  rw [h1, Int.floor_eq_iff]
  norm_num

theorem amountSats_pos_iff (amount : ℚ) :
    0 < amountSats amount ↔ 1 ≤ ExchangeRate.nearestDouble (amount * 100000000) := by
  unfold amountSats
  rw [Int.lt_iff_add_one_le, zero_add, Int.le_floor]
  norm_num

/-- The create route on a body that passes the schema, when the generated identifier is
not stored yet: the inserted row carries `floor(amount * 100000000)` as `amount_sats`,
which is never negative and is positive exactly when the product, as a double, is at least
1. -/
theorem createRoute_stores_floor (uuid secret : String) (btcToUsd : JsNumber) (w : World)
    (merchant : Row) (body : CreateBody) (amount : ℚ)
    (hamount : body.amount = JsNumber.fin amount)
    (hschema : createPaymentIntentSchema body = true)
    (hnew : PaymentIntent.findRow w.payment_intents ("pi_" ++ uuid) = none) :
    SBTCService.storedColumn (createRoute uuid secret btcToUsd w merchant body).2
        ("pi_" ++ uuid) "amount_sats" = some (Value.num (amountSats amount)) ∧
      0 ≤ amountSats amount ∧
      (0 < amountSats amount ↔ 1 ≤ ExchangeRate.nearestDouble (amount * 100000000)) := by
  have hpos : 0 < amount := by
    simp only [createPaymentIntentSchema, hamount, Bool.and_eq_true, decide_eq_true_eq] at hschema
    exact hschema.1.1.1.1
  refine ⟨?_, ?_, amountSats_pos_iff amount⟩
  · have hstate : (createRoute uuid secret btcToUsd w merchant body).2 =
        (PaymentIntent.logEvent
          { w with payment_intents := w.payment_intents ++
              [PaymentIntent.insertedRow w ("pi_" ++ uuid)
                { merchant_id := (merchant.get "id").text, amount_sats := amountSats amount,
                  amount_usd := numberValue ((JsNumber.fin amount).mul btcToUsd),
                  description := body.description, metadata := body.metadata,
                  expires_in_hours := body.expires_in_hours }] }
          ("pi_" ++ uuid) "payment_intent.created"
          { cols := [("amount_sats", Value.num (amountSats amount)),
                     ("amount_usd", numberValue ((JsNumber.fin amount).mul btcToUsd)),
                     ("merchant_id", Value.str (merchant.get "id").text)] }) := by
      unfold createRoute
      simp only [hschema, not_true_eq_false, ↓reduceIte, hamount, PaymentIntent.create, hnew]
      split <;> rfl
    rw [hstate]
    simp only [SBTCService.storedColumn, PaymentIntent.logEvent]
    rw [PaymentIntent.findRow_append_new _ _ _ hnew (by simp [PaymentIntent.insertedRow, Row.get, lookupCol])]
    simp [PaymentIntent.insertedRow, Row.get, lookupCol]
  · unfold amountSats
    exact Int.floor_nonneg.mpr (ExchangeRate.nearestDouble_nonneg _ (by positivity))

/-- C27, failing input: the body with `amount = 0.000000001`, as a double, passes
`createPaymentIntentSchema` (the amount is positive and at most 100000000), the route
answers 201, and the intent it stores has `amount_sats = 0`. -/
theorem createRoute_stores_zero_sats :
    createPaymentIntentSchema tinyAmountBody = true ∧
      (∃ response : Row,
        (createRoute "a1b2" "s3cr3t" (JsNumber.fin 64000) sampleWorld sampleMerchant
          tinyAmountBody).1 = RouteResult.json 201 response ∧
        response.get "amount_sats" = Value.num 0) ∧
      SBTCService.storedColumn
        (createRoute "a1b2" "s3cr3t" (JsNumber.fin 64000) sampleWorld sampleMerchant
          tinyAmountBody).2 "pi_a1b2" "amount_sats" = some (Value.num 0) := by
  have hschema : createPaymentIntentSchema tinyAmountBody = true := by
    simp only [createPaymentIntentSchema, tinyAmountBody, Bool.and_eq_true, decide_eq_true_eq]
    norm_num
  refine ⟨hschema, ?_, ?_⟩
  · unfold createRoute
    simp only [hschema, not_true_eq_false, ↓reduceIte]
    simp only [tinyAmountBody, amountSats_tiny]
    refine ⟨_, rfl, ?_⟩
    show Value.num (amountSats (4835703278458517 / 4835703278458516698824704)) = Value.num 0
    rw [amountSats_tiny]
  · have h := (createRoute_stores_floor "a1b2" "s3cr3t" (JsNumber.fin 64000) sampleWorld
      sampleMerchant tinyAmountBody (4835703278458517 / 4835703278458516698824704) rfl hschema
      rfl).1
    rw [amountSats_tiny] at h
    exact h

end PaymentRoutes

namespace PaymentIntent

/-- C28: `cancel(id, reason)` on a stored intent returns normally, and afterwards the stored
metadata, like the metadata of the returned intent, is exactly the map holding
`cancel_reason` (the empty map when no reason was given): whatever the metadata held
before is gone. -/
theorem cancel_replaces_metadata (w : World) (id : String) (reason : Option String)
    (row : Row) (hrow : findRow w.payment_intents id = some row) :
    (cancel w id reason).toOption.isSome = true ∧
      ∀ (r : Row) (w' : World), cancel w id reason = Except.ok (r, w') →
        SBTCService.storedColumn w' id "metadata" =
          some (Value.obj (match reason with
                           | some text => [("cancel_reason", text)]
                           | none => [])) ∧
        r.get "metadata" =
          Value.obj (match reason with
                     | some text => [("cancel_reason", text)]
                     | none => []) := by
  have hcancel : cancel w id reason =
      Except.ok (commitUpdate w id "canceled"
        (some [("metadata",
          Value.obj (match reason with
                     | some text => [("cancel_reason", text)]
                     | none => []))]) row) := by
    cases reason <;>
      simp only [cancel, updateStatus, hrow, cancel_accepted, not_true_eq_false, ↓reduceIte]
  constructor
  · rw [hcancel]
    rfl
  · intro r w' hok
    rw [hcancel] at hok
    simp only [Except.ok.injEq] at hok
    have hw := congrArg Prod.snd hok
    have hr := congrArg Prod.fst hok
    simp only at hw hr
    constructor
    · rw [← hw, SBTCService.storedColumn, findRow_commitUpdate _ _ _ _ row hrow]
      simp [updateAssignments, applyAssignments, Row.get_set, toSql]
    · rw [← hr, commitUpdate_fst]
      simp [updateAssignments, applyAssignments, Row.get_set, toSql, withMetadata,
        Value.falsy]

/-- C28, witness: an intent whose metadata was `order = 42`, canceled with the reason
`duplicate`. -/
theorem cancel_replaces_metadata_witness :
    (cancel (sampleStore "pi_1" "requires_payment") "pi_1" (some "duplicate")).toOption.isSome
        = true ∧
      ∀ (r : Row) (w' : World),
        cancel (sampleStore "pi_1" "requires_payment") "pi_1" (some "duplicate") =
          Except.ok (r, w') →
        SBTCService.storedColumn w' "pi_1" "metadata" =
          some (Value.obj [("cancel_reason", "duplicate")]) ∧
        r.get "metadata" = Value.obj [("cancel_reason", "duplicate")] :=
  cancel_replaces_metadata (sampleStore "pi_1" "requires_payment") "pi_1" (some "duplicate")
    (sampleIntent "pi_1" "requires_payment") (by decide)

end PaymentIntent
end StacksGate

namespace StacksGate

theorem WebhookService.sendWebhook_appends (env : Env) (w : World) (a : SendArgs) :
    ∃ e : WebhookLogEntry,
      (WebhookService.sendWebhook env w a).2.webhook_logs = w.webhook_logs ++ [e] ∧
      e.attempt_number = a.attemptNumber ∧ e.event_type = a.payload.type ∧
      e.payment_intent_id = a.paymentIntentId ∧ e.merchant_id = a.merchantId ∧
      e.webhook_url = a.webhookUrl := by
  cases h : env.fetch (WebhookService.webhookRequest env w a) with
  | response s t =>
    rw [WebhookService.sendWebhook_response env w a s t h]
    refine ⟨WebhookService.responseEntry env a s t, ?_, rfl, rfl, rfl, rfl, rfl⟩
    split_ifs <;> rfl
  | failure m =>
    rw [WebhookService.sendWebhook_failure env w a m h]
    refine ⟨WebhookService.failureEntry env a m, ?_, rfl, rfl, rfl, rfl, rfl⟩
    split_ifs <;> rfl

theorem WebhookService.sendWebhook_frame (env : Env) (w : World) (a : SendArgs) :
    (WebhookService.sendWebhook env w a).2.merchants = w.merchants ∧
      (WebhookService.sendWebhook env w a).2.immediates = w.immediates ∧
      (WebhookService.sendWebhook env w a).2.dateNow = w.dateNow := by
  cases h : env.fetch (WebhookService.webhookRequest env w a) with
  | response s t =>
    rw [WebhookService.sendWebhook_response env w a s t h]
    split_ifs <;> exact ⟨rfl, rfl, rfl⟩
  | failure m =>
    rw [WebhookService.sendWebhook_failure env w a m h]
    split_ifs <;> exact ⟨rfl, rfl, rfl⟩

namespace SBTCService

/-- C29, failing input: the intent `pi_1` is in `processing`, its merchant has a webhook
endpoint, no task is pending, and `updateTransactionStatus` is called for its transaction with
a confirmed chain result. The call sends no webhook and schedules none: once the pending
tasks have run the webhook log is still empty, and the intent is still in `processing`. -/
theorem updateTransactionStatus_sends_nothing :
    Merchant.findById hookMonitorWorld (Value.str "m_1") = some hookMerchant ∧
      (hookMerchant.get "webhook_url").falsy = false ∧
      hookMonitorWorld.webhook_logs = [] ∧
      (updateTransactionStatus (sampleEnv (FetchResult.response 200 "ok")) hookMonitorWorld
        "tx_1" confirmedStatus).immediates = [] ∧
      (PaymentIntent.runImmediates (sampleEnv (FetchResult.response 200 "ok"))
        (updateTransactionStatus (sampleEnv (FetchResult.response 200 "ok")) hookMonitorWorld
          "tx_1" confirmedStatus)).webhook_logs = [] ∧
      PaymentIntent.storedStatus
        (updateTransactionStatus (sampleEnv (FetchResult.response 200 "ok")) hookMonitorWorld
          "tx_1" confirmedStatus) "pi_1" = some (Value.str "processing") := by
  refine ⟨by decide, by decide, rfl, ?_, ?_, ?_⟩ <;>
    rw [updateTransactionStatus_inert] <;> decide

end SBTCService
end StacksGate

namespace StacksGate
namespace WebhookService

theorem mem_distinctRows (r : RetryRow) (l : List RetryRow) : r ∈ distinctRows l ↔ r ∈ l := by
  induction l with
  | nil => simp [distinctRows]
  | cons x rest ih =>
    simp only [distinctRows, List.mem_cons, List.mem_filter, ih, ne_eq, decide_not,
      Bool.not_eq_true', decide_eq_false_iff_not]
    by_cases h : r = x <;> simp [h]

/-- The rows the query of `retryFailedWebhooks` returns all stem from a log row that is
not delivered and has an attempt number below 3. -/
theorem selected_of_candidate (w : World) (created_at : List Int) (r : RetryRow)
    (hr : r ∈ selectFailedWebhooks w created_at) :
    ∃ (e : WebhookLogEntry) (t : Int), (e, t) ∈ w.webhook_logs.zip created_at ∧
      e.delivered = false ∧ e.attempt_number < 3 ∧ t ≥ w.dateNow - 24 * 60 * 60 * 1000 ∧
      r.merchant_id = e.merchant_id ∧ r.payment_intent_id = e.payment_intent_id ∧
      r.event_type = e.event_type := by
  unfold selectFailedWebhooks at hr
  have hr := (mem_distinctRows r _).mp (List.mem_of_mem_take hr)
  simp only [List.mem_flatten, List.mem_map] at hr
  obtain ⟨l, ⟨p, hp, rfl⟩, hrl⟩ := hr
  rw [(List.perm_insertionSort _ _).mem_iff, List.mem_filter] at hp
  obtain ⟨hzip, hcand⟩ := hp
  simp only [retryCandidate, MAX_RETRY_ATTEMPTS, Bool.decide_and, Bool.and_eq_true,
    decide_eq_true_eq] at hcand
  simp only [joinMerchants, List.mem_map] at hrl
  obtain ⟨m, _, rfl⟩ := hrl
  exact ⟨p.1, p.2, hzip, hcand.1, hcand.2.1, hcand.2.2, rfl, rfl, rfl⟩

/-- A log row that meets the conditions of the query, of a merchant with a webhook
endpoint, gives a result row, unless the result was cut at 100 rows. -/
theorem candidate_selected (w : World) (created_at : List Int) (e : WebhookLogEntry)
    (t : Int) (m : Row) (hmem : (e, t) ∈ w.webhook_logs.zip created_at)
    (hcand : retryCandidate w e t = true) (hm : m ∈ w.merchants)
    (hid : m.get "id" = Value.str e.merchant_id) (hurl : m.get "webhook_url" ≠ Value.null)
    (hlimit : (selectFailedWebhooks w created_at).length < 100) :
    ({ merchant_id := e.merchant_id, payment_intent_id := e.payment_intent_id,
       event_type := e.event_type, webhook_url := m.get "webhook_url",
       webhook_secret := m.get "webhook_secret" } : RetryRow) ∈
      selectFailedWebhooks w created_at := by
  unfold selectFailedWebhooks at hlimit ⊢
  simp only [List.length_take] at hlimit
  rw [List.take_of_length_le (by omega), mem_distinctRows]
  simp only [List.mem_flatten, List.mem_map]
  refine ⟨joinMerchants w e, ⟨(e, t), ?_, rfl⟩, ?_⟩
  · rw [(List.perm_insertionSort _ _).mem_iff, List.mem_filter]
    exact ⟨hmem, hcand⟩
  · simp only [joinMerchants, List.mem_map, List.mem_filter, Bool.decide_and,
      Bool.and_eq_true, decide_eq_true_eq, ne_eq, decide_not, Bool.not_eq_true',
      decide_eq_false_iff_not]
    exact ⟨m, ⟨hm, hid, hurl⟩, rfl⟩

/-- The loop of `retryFailedWebhooks`: every result row gives one new log row, of attempt 1,
for its merchant, intent and event. -/
theorem retry_loop (env : Env) (rows : List RetryRow) :
    ∀ w : World, ∃ added : List WebhookLogEntry,
      (rows.foldl (retryOne env) w).webhook_logs = w.webhook_logs ++ added ∧
      added.length = rows.length ∧
      (∀ x ∈ added, x.attempt_number = 1) ∧
      ∀ r ∈ rows, ∃ x ∈ added, x.merchant_id = r.merchant_id ∧
        x.payment_intent_id = r.payment_intent_id ∧ x.event_type = r.event_type := by
  induction rows with
  | nil => intro w; exact ⟨[], by simp, rfl, by simp, by simp⟩
  | cons r rest ih =>
    intro w
    obtain ⟨e, hlog, hn, hty, hid, hmid, _⟩ := sendWebhook_appends env w (retryArgs w r)
    obtain ⟨added, hadd, hlen, hall, hex⟩ := ih (retryOne env w r)
    have hone : (retryOne env w r).webhook_logs = w.webhook_logs ++ [e] := hlog
    refine ⟨e :: added, ?_, ?_, ?_, ?_⟩
    · rw [List.foldl_cons, hadd, hone]
      simp
    · simp [hlen]
    · intro x hx
      rcases List.mem_cons.mp hx with h | h
      · rw [h]; exact hn
      · exact hall x h
    · intro r' hr'
      rcases List.mem_cons.mp hr' with h | h
      · exact ⟨e, List.mem_cons_self _ _, by rw [h]; exact hmid, by rw [h]; exact hid,
          by rw [h]; exact hty⟩
      · obtain ⟨x, hx, hfields⟩ := hex r' h
        exact ⟨x, List.mem_cons_of_mem _ hx, hfields⟩

/-- The statement of `retryFailedWebhooks` is rejected by the database, so the function
leaves the whole state as it was, whatever the log holds. -/
theorem retryFailedWebhooks_inert (env : Env) (w : World) (created_at : List Int) :
    retryFailedWebhooks env w created_at = w := by
  have h : retryStatement.accepted = false := by decide
  simp [retryFailedWebhooks, queryFailedWebhooks, h]

/-- C30, failing input: the event `payment_intent.succeeded` of `pi_1` failed at attempt 1
and was delivered at attempt 2, six and five seconds ago, for a merchant with a webhook
endpoint. The row of attempt 1 meets every condition of the query and would give a result
row, but the statement orders a `SELECT DISTINCT` by `w.created_at`, which is not in its
select list: it is rejected, and `retryFailedWebhooks` sends nothing, the log is as before. -/
theorem retryFailedWebhooks_sends_nothing :
    deliveredOnRetryWorld.webhook_logs.map (fun a => (a.attempt_number, a.delivered)) =
        [(1, false), (2, true)] ∧
      retryCandidate deliveredOnRetryWorld (sampleAttempt 1 false) 1699999994000 = true ∧
      (selectFailedWebhooks deliveredOnRetryWorld deliveredOnRetryTimes).map
        (fun r => (r.payment_intent_id, r.event_type)) =
        [(some "pi_1", "payment_intent.succeeded")] ∧
      retryStatement.accepted = false ∧
      retryFailedWebhooks (sampleEnv (FetchResult.response 200 "ok")) deliveredOnRetryWorld
        deliveredOnRetryTimes = deliveredOnRetryWorld := by
  refine ⟨by decide, by decide, by decide, by decide, retryFailedWebhooks_inert _ _ _⟩

end WebhookService
end StacksGate
